import Mathlib

set_option maxHeartbeats 1000000

/-!
Verification development for the gc-PC-SAFT crate: parameter assembly
(`parameters.rs`, `eos/parameter.rs`, `dft/parameter.rs`) and the
association Helmholtz-energy contributions (`eos/association.rs`).
Rust `f64` values are modelled as real numbers, `IndexMap`s as
association lists, and panics as explicit `Except` errors.
-/

/-- Mirror of `GcPcSaftRecord`: segment shape factor `m`, diameter `sigma`,
energy `epsilon_k` and the optional association parameters.  The dipole and
quadrupole fields play no role in the claims and are omitted. -/
structure GcPcSaftRecord where
  m : ℝ
  sigma : ℝ
  epsilon_k : ℝ
  kappa_ab : Option ℝ
  epsilon_k_ab : Option ℝ
  na : Option ℝ
  nb : Option ℝ

/-- Mirror of `SegmentRecord`: identifier (abstracted to a natural number),
molar weight and the model record. -/
structure SegmentRecord where
  identifier : ℕ
  molarweight : ℝ
  model_record : GcPcSaftRecord

/-- Mirror of `ChemicalRecord`: the ordered segment identifier list of one
molecule plus bonds as index pairs into that list. -/
structure ChemicalRecord where
  segments : List ℕ
  bonds : List (ℕ × ℕ)

/-- Mirror of `BinaryRecord<String, f64>`. -/
structure BinaryRecord where
  id1 : ℕ
  id2 : ℕ
  model_record : ℝ

/-- Assembly failures: `ComponentsNotFound` mirrors
`ParameterError::ComponentsNotFound`; `IndexPanic` models the Rust panics on
out-of-range bond indices and failed unwraps. -/
inductive ParameterError where
  | ComponentsNotFound (id : ℕ)
  | IndexPanic
deriving DecidableEq

/-- Lookup in the segment record map built by collecting the record list into
an `IndexMap` (for duplicate identifiers the last record wins). -/
def segLookup (segment_records : List SegmentRecord) (id : ℕ) : Option SegmentRecord :=
  segment_records.reverse.find? (fun r => r.identifier == id)

/-- One step of the per-molecule segment counting
(`count.entry(segment).or_insert(0.0) += 1.0`), keyed by identifier in
first-occurrence order. -/
def bumpCount (l : List (ℕ × ℕ)) (id : ℕ) : List (ℕ × ℕ) :=
  match l with
  | [] => [(id, 1)]
  | (k, c) :: rest => if k = id then (k, c + 1) :: rest else (k, c) :: bumpCount rest id

/-- Segment multiset of one molecule, in first-occurrence order. -/
def countSegments (segments : List ℕ) : List (ℕ × ℕ) :=
  segments.foldl bumpCount []

/-- Position of an identifier in the per-molecule count list: the local
(offset-free) value stored into `segment_indices`. -/
def segPos (counts : List (ℕ × ℕ)) (id : ℕ) : Option ℕ :=
  match counts with
  | [] => none
  | (k, _) :: rest => if k = id then some 0 else (segPos rest id).map (· + 1)

/-- Resolve every counted identifier against the segment record store,
failing with `ComponentsNotFound` on the first unknown identifier. -/
def resolveCounts (segment_records : List SegmentRecord) :
    List (ℕ × ℕ) → Except ParameterError (List (SegmentRecord × ℕ))
  | [] => .ok []
  | (id, c) :: rest =>
    match segLookup segment_records id with
    | none => .error (.ComponentsNotFound id)
    | some s => (resolveCounts segment_records rest).map (fun r => (s, c) :: r)

/-- Does a model record carry both association parameters
(the `if let (Some(k), Some(e))` test in the assemblers)? -/
def hasAssoc (r : GcPcSaftRecord) : Bool :=
  r.kappa_ab.isSome && r.epsilon_k_ab.isSome

/-- Accumulate one bond into the bond weight map
(`bonds.entry(indices).or_insert(0.0) += 1.0`). -/
def addBondWeight (bs : List ((ℕ × ℕ) × ℝ)) (key : ℕ × ℕ) : List ((ℕ × ℕ) × ℝ) :=
  match bs with
  | [] => [(key, 1)]
  | (k, w) :: rest => if k = key then (k, w + 1) :: rest else (k, w) :: addBondWeight rest key

/-- Re-index the bonds of one molecule into the local occurrence index space
(ordering each pair) and accumulate weights, mirroring the bond loop of
`from_segments`.  Out-of-range bond indices panic in Rust and are modelled
as `IndexPanic`. -/
def moleculeBonds (segments : List ℕ) (counts : List (ℕ × ℕ)) (bonds : List (ℕ × ℕ)) :
    Except ParameterError (List ((ℕ × ℕ) × ℝ)) :=
  bonds.foldlM (fun acc b =>
    match segments.get? b.1, segments.get? b.2 with
    | some s1, some s2 =>
      match segPos counts s1, segPos counts s2 with
      | some i1, some i2 => .ok (addBondWeight acc (if i2 < i1 then (i2, i1) else (i1, i2)))
      | _, _ => .error .IndexPanic
    | _, _ => .error .IndexPanic) []

/-- Per-molecule slice of the flattened arrays produced by the body of the
molecule loop in `GcPcSaftEosParameters::from_segments` (association entries
are indexed locally; bonds use local occurrence indices). -/
structure MoleculeData where
  molarweight : ℝ
  identifiers : List ℕ
  m : List ℝ
  sigma : List ℝ
  epsilon_k : List ℝ
  assoc_local : List ℕ
  kappa_ab : List ℝ
  epsilon_k_ab : List ℝ
  na : List ℝ
  nb : List ℝ
  bonds_local : List ((ℕ × ℕ) × ℝ)

/-- The molecule loop body of the EOS assembler: segments are de-duplicated
by identifier, `m` is scaled by the repeat count, the molar weight is the
count-weighted sum, and association entries default `na`, `nb` to 1. -/
def assembleMolecule (segment_records : List SegmentRecord) (chem : ChemicalRecord) :
    Except ParameterError MoleculeData := do
  let resolved ← resolveCounts segment_records (countSegments chem.segments)
  let bonds ← moleculeBonds chem.segments (countSegments chem.segments) chem.bonds
  .ok
    { molarweight := resolved.foldl (fun acc sc => acc + sc.1.molarweight * (sc.2 : ℝ)) 0
      identifiers := resolved.map (fun sc => sc.1.identifier)
      m := resolved.map (fun sc => sc.1.model_record.m * (sc.2 : ℝ))
      sigma := resolved.map (fun sc => sc.1.model_record.sigma)
      epsilon_k := resolved.map (fun sc => sc.1.model_record.epsilon_k)
      assoc_local := resolved.enum.filterMap
        (fun p => if hasAssoc p.2.1.model_record then some p.1 else none)
      kappa_ab := resolved.filterMap
        (fun sc => if hasAssoc sc.1.model_record then sc.1.model_record.kappa_ab else none)
      epsilon_k_ab := resolved.filterMap
        (fun sc => if hasAssoc sc.1.model_record then sc.1.model_record.epsilon_k_ab else none)
      na := resolved.filterMap
        (fun sc => if hasAssoc sc.1.model_record then some (sc.1.model_record.na.getD 1) else none)
      nb := resolved.filterMap
        (fun sc => if hasAssoc sc.1.model_record then some (sc.1.model_record.nb.getD 1) else none)
      bonds_local := bonds }

/-- Flattened `component_index`: molecule `i` contributes one entry per
segment occurrence. -/
def compIndexFrom : List MoleculeData → ℕ → List ℕ
  | [], _ => []
  | md :: rest, i => List.replicate md.m.length i ++ compIndexFrom rest (i + 1)

/-- Flattened `assoc_segment` list: local association indices shifted by the
running occurrence offset. -/
def assocSegmentsFrom : List MoleculeData → ℕ → List ℕ
  | [], _ => []
  | md :: rest, off => md.assoc_local.map (· + off) ++ assocSegmentsFrom rest (off + md.m.length)

/-- Flattened bond map: per-molecule bond maps shifted by the running
occurrence offset (keys of distinct molecules are disjoint). -/
def bondsFrom : List MoleculeData → ℕ → List ((ℕ × ℕ) × ℝ)
  | [], _ => []
  | md :: rest, off =>
    md.bonds_local.map (fun kw => ((kw.1.1 + off, kw.1.2 + off), kw.2)) ++
      bondsFrom rest (off + md.m.length)

/-- Mirror of `GcPcSaftEosParameters` (also covering the identically
assembled fields of `GcPcSaftParameters` in `parameters.rs`): flattened
per-occurrence arrays, per-molecule molar weights, the bond weight map, the
association bookkeeping and the stored input records.  The pairwise
combining-rule matrices are exposed as functions below. -/
structure GcPcSaftEosParameters where
  molarweight : List ℝ
  component_index : List ℕ
  identifiers : List ℕ
  m : List ℝ
  sigma : List ℝ
  epsilon_k : List ℝ
  bonds : List ((ℕ × ℕ) × ℝ)
  assoc_segment : List ℕ
  kappa_ab : List ℝ
  epsilon_k_ab : List ℝ
  na : List ℝ
  nb : List ℝ
  chemical_records : List ChemicalRecord
  segment_records : List SegmentRecord
  binary_segment_records : Option (List BinaryRecord)

/-- Mirror of `GcPcSaftEosParameters::from_segments`. -/
def GcPcSaftEosParameters.from_segments (chemical_records : List ChemicalRecord)
    (segment_records : List SegmentRecord)
    (binary_segment_records : Option (List BinaryRecord)) :
    Except ParameterError GcPcSaftEosParameters := do
  let mols ← chemical_records.mapM (assembleMolecule segment_records)
  .ok
    { molarweight := mols.map (fun md => md.molarweight)
      component_index := compIndexFrom mols 0
      identifiers := (mols.map (fun md => md.identifiers)).flatten
      m := (mols.map (fun md => md.m)).flatten
      sigma := (mols.map (fun md => md.sigma)).flatten
      epsilon_k := (mols.map (fun md => md.epsilon_k)).flatten
      bonds := bondsFrom mols 0
      assoc_segment := assocSegmentsFrom mols 0
      kappa_ab := (mols.map (fun md => md.kappa_ab)).flatten
      epsilon_k_ab := (mols.map (fun md => md.epsilon_k_ab)).flatten
      na := (mols.map (fun md => md.na)).flatten
      nb := (mols.map (fun md => md.nb)).flatten
      chemical_records := chemical_records
      segment_records := segment_records
      binary_segment_records := binary_segment_records }

/-- Mirror of `GcPcSaftEosParameters::subset`: re-run assembly on the stored
records at the selected molecule indices (an invalid index panics in Rust
when indexing `chemical_records`; selection via `getD` combined with the
`Except` result models the unwrap). -/
def GcPcSaftEosParameters.subset (p : GcPcSaftEosParameters) (component_list : List ℕ) :
    Except ParameterError GcPcSaftEosParameters :=
  GcPcSaftEosParameters.from_segments
    (component_list.map (fun i => p.chemical_records.getD i ⟨[], []⟩))
    p.segment_records p.binary_segment_records

/-- Lookup in the symmetrised binary segment record map (both orderings of
each record are inserted, later records overwrite earlier ones). -/
def binLookup (binary_segment_records : Option (List BinaryRecord)) (a b : ℕ) : Option ℝ :=
  match binary_segment_records with
  | none => none
  | some l =>
    (l.reverse.find? (fun r => (r.id1 == a && r.id2 == b) || (r.id1 == b && r.id2 == a))).map
      (fun r => r.model_record)

/-- Mirror of the binary interaction matrix `k_ij`: zero unless the two
occurrences belong to different molecules and a binary record matches the
identifier pair. -/
def GcPcSaftEosParameters.k_ij (p : GcPcSaftEosParameters) (i j : ℕ) : ℝ :=
  if p.component_index.getD i 0 ≠ p.component_index.getD j 0 then
    (binLookup p.binary_segment_records (p.identifiers.getD i 0) (p.identifiers.getD j 0)).getD 0
  else 0

/-- Lorentz combining rule `sigma_ij = 0.5 (sigma_i + sigma_j)`. -/
def GcPcSaftEosParameters.sigma_ij (p : GcPcSaftEosParameters) (i j : ℕ) : ℝ :=
  0.5 * (p.sigma.getD i 0 + p.sigma.getD j 0)

/-- Berthelot combining rule with binary correction:
`epsilon_k_ij = sqrt(epsilon_k_i epsilon_k_j) (1 - k_ij)`. -/
noncomputable def GcPcSaftEosParameters.epsilon_k_ij (p : GcPcSaftEosParameters) (i j : ℕ) : ℝ :=
  Real.sqrt (p.epsilon_k.getD i 0 * p.epsilon_k.getD j 0) * (1 - p.k_ij i j)

/-- Association combining rule
`sigma3_kappa_aibj = (sigma_ai sigma_aj)^1.5 sqrt(kappa_i kappa_j)`,
restricted to the association occurrence index space. -/
noncomputable def GcPcSaftEosParameters.sigma3_kappa_aibj (p : GcPcSaftEosParameters)
    (i j : ℕ) : ℝ :=
  (p.sigma.getD (p.assoc_segment.getD i 0) 0 * p.sigma.getD (p.assoc_segment.getD j 0) 0) ^
      (1.5 : ℝ) *
    Real.sqrt (p.kappa_ab.getD i 0 * p.kappa_ab.getD j 0)

/-- Association combining rule
`epsilon_k_aibj = 0.5 (epsilon_k_ab_i + epsilon_k_ab_j)`. -/
def GcPcSaftEosParameters.epsilon_k_aibj (p : GcPcSaftEosParameters) (i j : ℕ) : ℝ :=
  0.5 * (p.epsilon_k_ab.getD i 0 + p.epsilon_k_ab.getD j 0)

instance {ε α : Type} [DecidableEq ε] [DecidableEq α] : DecidableEq (Except ε α) := fun a b =>
  match a, b with
  | .ok x, .ok y => if h : x = y then .isTrue (by rw [h]) else .isFalse (by simp [h])
  | .error x, .error y => if h : x = y then .isTrue (by rw [h]) else .isFalse (by simp [h])
  | .ok _, .error _ => .isFalse (by simp)
  | .error _, .ok _ => .isFalse (by simp)

/-- Per-molecule slice produced by the body of the molecule loop in
`GcPcSaftFunctionalParameters::from_segments`: raw segments (no
de-duplication), association entries indexed by the raw local position,
bonds kept verbatim as local index pairs. -/
structure DftMoleculeData where
  molarweight : ℝ
  identifiers : List ℕ
  m : List ℝ
  sigma : List ℝ
  epsilon_k : List ℝ
  assoc_local : List ℕ
  kappa_ab : List ℝ
  epsilon_k_ab : List ℝ
  na : List ℝ
  nb : List ℝ
  bonds_local : List (ℕ × ℕ)

/-- Resolve each raw segment identifier of a molecule in order, failing with
`ComponentsNotFound` on the first unknown identifier. -/
def resolveSegments (segment_records : List SegmentRecord) :
    List ℕ → Except ParameterError (List SegmentRecord)
  | [] => .ok []
  | id :: rest =>
    match segLookup segment_records id with
    | none => .error (.ComponentsNotFound id)
    | some s => (resolveSegments segment_records rest).map (fun r => s :: r)

/-- The molecule loop body of the DFT assembler: one occurrence per raw
segment, molar weight summed per segment, bonds recorded as plain edges. -/
def assembleMoleculeDft (segment_records : List SegmentRecord) (chem : ChemicalRecord) :
    Except ParameterError DftMoleculeData := do
  let resolved ← resolveSegments segment_records chem.segments
  .ok
    { molarweight := resolved.foldl (fun acc s => acc + s.molarweight) 0
      identifiers := chem.segments
      m := resolved.map (fun s => s.model_record.m)
      sigma := resolved.map (fun s => s.model_record.sigma)
      epsilon_k := resolved.map (fun s => s.model_record.epsilon_k)
      assoc_local := resolved.enum.filterMap
        (fun p => if hasAssoc p.2.model_record then some p.1 else none)
      kappa_ab := resolved.filterMap
        (fun s => if hasAssoc s.model_record then s.model_record.kappa_ab else none)
      epsilon_k_ab := resolved.filterMap
        (fun s => if hasAssoc s.model_record then s.model_record.epsilon_k_ab else none)
      na := resolved.filterMap
        (fun s => if hasAssoc s.model_record then some (s.model_record.na.getD 1) else none)
      nb := resolved.filterMap
        (fun s => if hasAssoc s.model_record then some (s.model_record.nb.getD 1) else none)
      bonds_local := chem.bonds }

/-- Flattened `component_index` of the DFT assembler. -/
def dftCompIndexFrom : List DftMoleculeData → ℕ → List ℕ
  | [], _ => []
  | md :: rest, i => List.replicate md.m.length i ++ dftCompIndexFrom rest (i + 1)

/-- Flattened `assoc_segment` of the DFT assembler. -/
def dftAssocSegmentsFrom : List DftMoleculeData → ℕ → List ℕ
  | [], _ => []
  | md :: rest, off =>
    md.assoc_local.map (· + off) ++ dftAssocSegmentsFrom rest (off + md.m.length)

/-- Flattened edge list of the DFT bond graph (`extend_with_edges` with the
running `segment_index` offset). -/
def dftBondsFrom : List DftMoleculeData → ℕ → List (ℕ × ℕ)
  | [], _ => []
  | md :: rest, off =>
    md.bonds_local.map (fun b => (b.1 + off, b.2 + off)) ++ dftBondsFrom rest (off + md.m.length)

/-- Mirror of `GcPcSaftFunctionalParameters`: as the EOS parameter set, but
with raw (non-de-duplicated) segment occurrences and a plain undirected edge
list as bond graph. -/
structure GcPcSaftFunctionalParameters where
  molarweight : List ℝ
  component_index : List ℕ
  identifiers : List ℕ
  m : List ℝ
  sigma : List ℝ
  epsilon_k : List ℝ
  bonds : List (ℕ × ℕ)
  assoc_segment : List ℕ
  kappa_ab : List ℝ
  epsilon_k_ab : List ℝ
  na : List ℝ
  nb : List ℝ
  pure_records : List ChemicalRecord
  segment_records : List SegmentRecord
  binary_segment_records : Option (List BinaryRecord)

/-- Mirror of `GcPcSaftFunctionalParameters::from_segments`. -/
def GcPcSaftFunctionalParameters.from_segments (pure_records : List ChemicalRecord)
    (segment_records : List SegmentRecord)
    (binary_segment_records : Option (List BinaryRecord)) :
    Except ParameterError GcPcSaftFunctionalParameters := do
  let mols ← pure_records.mapM (assembleMoleculeDft segment_records)
  .ok
    { molarweight := mols.map (fun md => md.molarweight)
      component_index := dftCompIndexFrom mols 0
      identifiers := (mols.map (fun md => md.identifiers)).flatten
      m := (mols.map (fun md => md.m)).flatten
      sigma := (mols.map (fun md => md.sigma)).flatten
      epsilon_k := (mols.map (fun md => md.epsilon_k)).flatten
      bonds := dftBondsFrom mols 0
      assoc_segment := dftAssocSegmentsFrom mols 0
      kappa_ab := (mols.map (fun md => md.kappa_ab)).flatten
      epsilon_k_ab := (mols.map (fun md => md.epsilon_k_ab)).flatten
      na := (mols.map (fun md => md.na)).flatten
      nb := (mols.map (fun md => md.nb)).flatten
      pure_records := pure_records
      segment_records := segment_records
      binary_segment_records := binary_segment_records }

/-- Binary interaction matrix of the DFT parameter set (same construction as
in the EOS assembler). -/
def GcPcSaftFunctionalParameters.k_ij (p : GcPcSaftFunctionalParameters) (i j : ℕ) : ℝ :=
  if p.component_index.getD i 0 ≠ p.component_index.getD j 0 then
    (binLookup p.binary_segment_records (p.identifiers.getD i 0) (p.identifiers.getD j 0)).getD 0
  else 0

/-- Lorentz combining rule of the DFT parameter set. -/
def GcPcSaftFunctionalParameters.sigma_ij (p : GcPcSaftFunctionalParameters) (i j : ℕ) : ℝ :=
  0.5 * (p.sigma.getD i 0 + p.sigma.getD j 0)

/-- Berthelot combining rule with binary correction, DFT parameter set. -/
noncomputable def GcPcSaftFunctionalParameters.epsilon_k_ij (p : GcPcSaftFunctionalParameters)
    (i j : ℕ) : ℝ :=
  Real.sqrt (p.epsilon_k.getD i 0 * p.epsilon_k.getD j 0) * (1 - p.k_ij i j)

/-- Association combining rule `sigma3_kappa_aibj`, DFT parameter set. -/
noncomputable def GcPcSaftFunctionalParameters.sigma3_kappa_aibj
    (p : GcPcSaftFunctionalParameters) (i j : ℕ) : ℝ :=
  (p.sigma.getD (p.assoc_segment.getD i 0) 0 * p.sigma.getD (p.assoc_segment.getD j 0) 0) ^
      (1.5 : ℝ) *
    Real.sqrt (p.kappa_ab.getD i 0 * p.kappa_ab.getD j 0)

/-- Association combining rule `epsilon_k_aibj`, DFT parameter set. -/
def GcPcSaftFunctionalParameters.epsilon_k_aibj (p : GcPcSaftFunctionalParameters)
    (i j : ℕ) : ℝ :=
  0.5 * (p.epsilon_k_ab.getD i 0 + p.epsilon_k_ab.getD j 0)

/-- Machine epsilon of `f64` (`f64::EPSILON`). -/
noncomputable def f64Epsilon : ℝ := (2 : ℝ) ^ (-52 : ℤ)

/-- The arithmetic interface of `DualNum<f64>` used by the association code:
ring operations and reciprocal (through the `CommRing`, `Algebra ℝ` and
`Inv` instances) together with real-part extraction, square root, natural
logarithm, `exp`, `exp_m1`, and the number of carried derivatives `NDERIV`. -/
class DualNumOps (D : Type) [CommRing D] [Algebra ℝ D] [Inv D] where
  re : D → ℝ
  sqrtD : D → D
  expD : D → D
  lnD : D → D
  expm1D : D → D
  nderiv : ℕ

/-- Injection of an `f64` scalar into the generic numeric type. -/
def aR (D : Type) [CommRing D] [Algebra ℝ D] (c : ℝ) : D :=
  algebraMap ℝ D c

/-- Plain real scalars: zero carried derivatives. -/
noncomputable instance : DualNumOps ℝ where
  re := id
  sqrtD := Real.sqrt
  expD := Real.exp
  lnD := Real.log
  expm1D := fun x => Real.exp x - 1
  nderiv := 0

/-- First-order dual numbers (`Dual64`): one carried derivative; the
operations mirror the `num_dual` implementations. -/
noncomputable instance : DualNumOps (DualNumber ℝ) where
  re := TrivSqZeroExt.fst
  sqrtD := fun d => (Real.sqrt d.fst, d.snd * (0.5 / Real.sqrt d.fst))
  expD := fun d => (Real.exp d.fst, d.snd * Real.exp d.fst)
  lnD := fun d => (Real.log d.fst, d.snd / d.fst)
  expm1D := fun d => (Real.exp d.fst - 1, d.snd * Real.exp d.fst)
  nderiv := 1

/-- The number of carried derivatives of a numeric type (`D::NDERIV`). -/
def nderivOf (D : Type) [CommRing D] [Algebra ℝ D] [Inv D] [DualNumOps D] : ℕ :=
  @DualNumOps.nderiv D _ _ _ _

/-- Mirror of feos-core `StateHD`: temperature, volume and mole numbers in
the generic numeric type. -/
structure StateHD (D : Type) where
  temperature : D
  volume : D
  moles : List D

/-- Partial density of component `c`: `moles / volume` (as computed by
`StateHD::new`). -/
def StateHD.partial_density {D : Type} [CommRing D] [Inv D] (st : StateHD D) (c : ℕ) : D :=
  st.moles.getD c 0 * st.volume⁻¹

/-- Modelled from the spec: the temperature dependent hard-sphere segment
diameter (`hs_diameter`, defined in a source file not included here):
`d(T) = -(exp(-3 epsilon/T) * 0.12 - 1) * sigma`. -/
noncomputable def hs_diameter (D : Type) [CommRing D] [Algebra ℝ D] [Inv D] [DualNumOps D]
    (p : GcPcSaftEosParameters) (temperature : D) (i : ℕ) : D :=
  -(DualNumOps.expD (aR D (-3 * p.epsilon_k.getD i 0) * temperature⁻¹) * aR D 0.12 - 1) *
    aR D (p.sigma.getD i 0)

/-- Modelled from the spec: the packing-fraction moment helper `zeta`
(defined in a source file not included here):
`zeta_n = (pi/6) * sum over segment occurrences of diameter^n * density`. -/
noncomputable def zeta (D : Type) [CommRing D] [Algebra ℝ D] [Inv D] [DualNumOps D]
    (p : GcPcSaftEosParameters) (diameter : ℕ → D) (st : StateHD D) (k : ℕ) : D :=
  aR D (Real.pi / 6) *
    ∑ i in Finset.range p.m.length,
      st.partial_density (p.component_index.getD i 0) * diameter i ^ k

/-- Mirror of `association_strength`. -/
noncomputable def association_strength (D : Type) [CommRing D] [Algebra ℝ D] [Inv D]
    [DualNumOps D] (p : GcPcSaftEosParameters) (temperature : D) (diameter : ℕ → D)
    (n2 n3i : D) (i j : ℕ) : D :=
  let ai := p.assoc_segment.getD i 0
  let aj := p.assoc_segment.getD j 0
  let k := diameter ai * diameter aj * (diameter ai + diameter aj)⁻¹ * (n2 * n3i)
  n3i * (k * (k * (18 : D)⁻¹ + aR D 0.5) + 1) * aR D (p.sigma3_kappa_aibj i j) *
    DualNumOps.expm1D (temperature⁻¹ * aR D (p.epsilon_k_aibj i j))

/-- Closed-form branch of `assoc_site_frac_ab`. -/
noncomputable def siteFracAbClosed (D : Type) [CommRing D] [Algebra ℝ D] [Inv D] [DualNumOps D]
    (deltarho : D) (na nb : ℝ) : D :=
  (DualNumOps.sqrtD ((deltarho * aR D (na - nb) + 1) ^ 2 + deltarho * aR D nb * 4) -
      (deltarho * aR D (nb - na) + 1)) *
    (deltarho * aR D na * 2)⁻¹

/-- Series-expansion branch of `assoc_site_frac_ab`. -/
noncomputable def siteFracAbSeries (D : Type) [CommRing D] [Algebra ℝ D] (deltarho : D) (na nb : ℝ) : D :=
  1 + deltarho * aR D nb * (deltarho * aR D (nb + na) - 1)

/-- Mirror of `assoc_site_frac_ab`: the branch is selected on the real part
of `deltarho` at the threshold `sqrt(f64::EPSILON)`. -/
noncomputable def assoc_site_frac_ab (D : Type) [CommRing D] [Algebra ℝ D] [Inv D] [DualNumOps D]
    (deltarho : D) (na nb : ℝ) : D :=
  if DualNumOps.re deltarho > Real.sqrt f64Epsilon then siteFracAbClosed D deltarho na nb
  else siteFracAbSeries D deltarho na nb

/-- Closed-form branch of `assoc_site_frac_a`, exactly as written in the
source: `sqrt((deltarho*na*4 + 1)^2 - 1) / (deltarho*na*2)`. -/
noncomputable def siteFracAClosed (D : Type) [CommRing D] [Algebra ℝ D] [Inv D] [DualNumOps D]
    (deltarho : D) (na : ℝ) : D :=
  DualNumOps.sqrtD ((deltarho * aR D na * 4 + 1) ^ 2 - 1) * (deltarho * aR D na * 2)⁻¹

/-- Series-expansion branch of `assoc_site_frac_a`. -/
noncomputable def siteFracASeries (D : Type) [CommRing D] [Algebra ℝ D] (deltarho : D) (na : ℝ) : D :=
  1 + deltarho * aR D na * (deltarho * aR D na * 2 - 1)

/-- Mirror of `assoc_site_frac_a`: the branch is selected on the real part
of `deltarho` at the threshold `sqrt(f64::EPSILON)`. -/
noncomputable def assoc_site_frac_a (D : Type) [CommRing D] [Algebra ℝ D] [Inv D] [DualNumOps D]
    (deltarho : D) (na : ℝ) : D :=
  if DualNumOps.re deltarho > Real.sqrt f64Epsilon then siteFracAClosed D deltarho na
  else siteFracASeries D deltarho na

/-- Temperature dependent diameters of a state. -/
noncomputable def diameterOf (D : Type) [CommRing D] [Algebra ℝ D] [Inv D] [DualNumOps D]
    (p : GcPcSaftEosParameters) (st : StateHD D) : ℕ → D :=
  hs_diameter D p st.temperature

/-- `n2 = 6 zeta_2` as computed by both association contributions. -/
noncomputable def n2Of (D : Type) [CommRing D] [Algebra ℝ D] [Inv D] [DualNumOps D]
    (p : GcPcSaftEosParameters) (st : StateHD D) : D :=
  zeta D p (diameterOf D p st) st 2 * 6

/-- `n3i = 1/(1 - zeta_3)` as computed by both association contributions. -/
noncomputable def n3iOf (D : Type) [CommRing D] [Algebra ℝ D] [Inv D] [DualNumOps D]
    (p : GcPcSaftEosParameters) (st : StateHD D) : D :=
  (-zeta D p (diameterOf D p st) st 3 + 1)⁻¹

/-- The per-site Helmholtz summand `f(x) = ln x - x/2 + 1/2`. -/
noncomputable def fAssoc (D : Type) [CommRing D] [Algebra ℝ D] [Inv D] [DualNumOps D]
    (x : D) : D :=
  DualNumOps.lnD x - x * aR D 0.5 + aR D 0.5

/-- Mirror of `Association::helmholtz_energy` (the closed-form single
occurrence contribution). -/
noncomputable def Association.helmholtz_energy (D : Type) [CommRing D] [Algebra ℝ D] [Inv D]
    [DualNumOps D] (p : GcPcSaftEosParameters) (st : StateHD D) : D :=
  let c := p.component_index.getD (p.assoc_segment.getD 0 0) 0
  let deltarho :=
    association_strength D p st.temperature (diameterOf D p st) (n2Of D p st) (n3iOf D p st) 0 0 *
      st.partial_density c
  let na := p.na.getD 0 0
  let nb := p.nb.getD 0 0
  if nb > 0 then
    let xa := assoc_site_frac_ab D deltarho na nb
    let xb := (xa - 1) * aR D (na / nb) + 1
    st.moles.getD c 0 *
      ((DualNumOps.lnD xa - xa * aR D 0.5 + aR D 0.5) * aR D na +
        (DualNumOps.lnD xb - xb * aR D 0.5 + aR D 0.5) * aR D nb)
  else
    let xa := assoc_site_frac_a D deltarho na
    st.moles.getD c 0 * (DualNumOps.lnD xa - xa * aR D 0.5 + aR D 0.5) * aR D na

/-- First half of the doubled site index space (`s![..nassoc]`). -/
def lowIdx (n : ℕ) (i : Fin n) : Fin (2 * n) :=
  ⟨i.val, by omega⟩

/-- Second half of the doubled site index space (`s![nassoc..]`). -/
def highIdx (n : ℕ) (i : Fin n) : Fin (2 * n) :=
  ⟨n + i.val, by omega⟩

/-- Case analysis on the doubled site index space. -/
def splitIdx (n : ℕ) (i : Fin (2 * n)) : Fin n ⊕ Fin n :=
  if h : i.val < n then Sum.inl ⟨i.val, h⟩
  else Sum.inr ⟨i.val - n, by omega⟩

/-- The summand `dnx = (xb * nb * d).sum() + 1` of the gradient rows for
the donor class (`d` being the `i`-th row of `delta` times `rho`). -/
noncomputable def newtonDnxa (D : Type) [CommRing D] [Algebra ℝ D] [Inv D] [DualNumOps D]
    (n : ℕ) (delta : Fin n → Fin n → D) (nb : Fin n → ℝ) (rho : Fin n → D)
    (x : Fin (2 * n) → D) (i : Fin n) : D :=
  (∑ j, x (highIdx n j) * aR D (nb j) * (delta i j * rho j)) + 1

/-- The summand `dnx = (xa * na * d).sum() + 1` of the gradient rows for
the acceptor class. -/
noncomputable def newtonDnxb (D : Type) [CommRing D] [Algebra ℝ D] [Inv D] [DualNumOps D]
    (n : ℕ) (delta : Fin n → Fin n → D) (na : Fin n → ℝ) (rho : Fin n → D)
    (x : Fin (2 * n) → D) (i : Fin n) : D :=
  (∑ j, x (lowIdx n j) * aR D (na j) * (delta i j * rho j)) + 1

/-- The gradient `g` of the Michelsen cross-association system
(`ga[i] = 1/xa[i] - dnx`, `gb[i] = 1/xb[i] - dnx`). -/
noncomputable def newtonG (D : Type) [CommRing D] [Algebra ℝ D] [Inv D] [DualNumOps D]
    (n : ℕ) (delta : Fin n → Fin n → D) (na nb : Fin n → ℝ) (rho : Fin n → D)
    (x : Fin (2 * n) → D) (i : Fin (2 * n)) : D :=
  match splitIdx n i with
  | Sum.inl i => (x (lowIdx n i))⁻¹ - newtonDnxa D n delta nb rho x i
  | Sum.inr i => (x (highIdx n i))⁻¹ - newtonDnxb D n delta na rho x i

/-- The approximate Hessian `h` of the Michelsen cross-association system
(diagonal blocks `-dnx/x`, off-diagonal blocks `-n * d`). -/
noncomputable def newtonH (D : Type) [CommRing D] [Algebra ℝ D] [Inv D] [DualNumOps D]
    (n : ℕ) (delta : Fin n → Fin n → D) (na nb : Fin n → ℝ) (rho : Fin n → D)
    (x : Fin (2 * n) → D) : Matrix (Fin (2 * n)) (Fin (2 * n)) D :=
  Matrix.of fun i j =>
    match splitIdx n i, splitIdx n j with
    | Sum.inl i, Sum.inl j =>
      if i = j then -newtonDnxa D n delta nb rho x i * (x (lowIdx n i))⁻¹ else 0
    | Sum.inl i, Sum.inr j => delta i j * rho j * aR D (-nb j)
    | Sum.inr i, Sum.inl j => delta i j * rho j * aR D (-na j)
    | Sum.inr i, Sum.inr j =>
      if i = j then -newtonDnxb D n delta na rho x i * (x (highIdx n i))⁻¹ else 0

/-- The Euclidean norm of the real part of the gradient, the convergence
measure of the Newton iteration. -/
noncomputable def newtonGradNorm (D : Type) [CommRing D] [Algebra ℝ D] [Inv D] [DualNumOps D]
    (n : ℕ) (delta : Fin n → Fin n → D) (na nb : Fin n → ℝ) (rho : Fin n → D)
    (x : Fin (2 * n) → D) : ℝ :=
  Real.sqrt (∑ i, DualNumOps.re (newtonG D n delta na nb rho x i) ^ 2)

/-- Mirror of `newton_step_cross_association`: builds the gradient `g` and
approximate Hessian `h` of the Michelsen system, performs the Newton update
`x - h.solve(g)` (the direct linear solve is the matrix-inverse product),
and reports convergence of the Euclidean norm of the real part of `g`. -/
noncomputable def newton_step_cross_association (D : Type) [CommRing D] [Algebra ℝ D] [Inv D]
    [DualNumOps D] (n : ℕ) (delta : Fin n → Fin n → D) (na nb : Fin n → ℝ)
    (rho : Fin n → D) (tol : ℝ) (x : Fin (2 * n) → D) : (Fin (2 * n) → D) × Bool :=
  (fun i => x i - (newtonH D n delta na nb rho x)⁻¹.mulVec (newtonG D n delta na nb rho x) i,
    decide (newtonGradNorm D n delta na nb rho x < tol))

/-- Failures of an energy evaluation. -/
inductive EosError where
  | NotConverged (msg : String)
deriving DecidableEq

/-- The real-valued Newton loop of `CrossAssociation::helmholtz_energy`:
iterate from `k`, return the post-step vector on convergence, and fail hard
with `NotConverged` when iteration `max_iter - 1` has not converged. -/
noncomputable def cross_association_iterate (n : ℕ) (delta : Fin n → Fin n → ℝ)
    (na nb : Fin n → ℝ) (rho : Fin n → ℝ) (tol : ℝ) (max_iter : ℕ) (k : ℕ)
    (x : Fin (2 * n) → ℝ) : Except EosError (Fin (2 * n) → ℝ) :=
  if hk : k < max_iter then
    let s := newton_step_cross_association ℝ n delta na nb rho tol x
    if s.2 then .ok s.1
    else if k = max_iter - 1 then .error (.NotConverged "Cross association")
    else cross_association_iterate n delta na nb rho tol max_iter (k + 1) s.1
  else .ok x
termination_by max_iter - k
decreasing_by simp_wf; omega

/-- The derivative recovery pass: lift the converged real site fractions
into `D` and re-apply the same Newton step `D::NDERIV` times. -/
noncomputable def crossXd (D : Type) [CommRing D] [Algebra ℝ D] [Inv D] [DualNumOps D]
    (n : ℕ) (delta : Fin n → Fin n → D) (na nb : Fin n → ℝ) (rho : Fin n → D) (tol : ℝ)
    (x : Fin (2 * n) → ℝ) : Fin (2 * n) → D :=
  (fun y => (newton_step_cross_association D n delta na nb rho tol y).1)^[nderivOf D]
    (fun i => algebraMap ℝ D (x i))

/-- The complete site-fraction computation of
`CrossAssociation::helmholtz_energy`: real Newton loop from the constant
initial guess 0.2, then the derivative recovery pass. -/
noncomputable def crossSiteFractions (D : Type) [CommRing D] [Algebra ℝ D] [Inv D] [DualNumOps D]
    (n : ℕ) (delta : Fin n → Fin n → D) (na nb : Fin n → ℝ) (rho : Fin n → D) (tol : ℝ)
    (max_iter : ℕ) : Except EosError (Fin (2 * n) → D) := do
  let x ← cross_association_iterate n (fun i j => DualNumOps.re (delta i j)) na nb
    (fun i => DualNumOps.re (rho i)) tol max_iter 0 (fun _ => (0.2 : ℝ))
  .ok (crossXd D n delta na nb rho tol x)

/-- The association-strength matrix of the cross contribution. -/
noncomputable def crossDeltaM (D : Type) [CommRing D] [Algebra ℝ D] [Inv D] [DualNumOps D]
    (p : GcPcSaftEosParameters) (st : StateHD D) :
    Fin p.assoc_segment.length → Fin p.assoc_segment.length → D :=
  fun i j =>
    association_strength D p st.temperature (diameterOf D p st) (n2Of D p st) (n3iOf D p st)
      i.val j.val

/-- Densities of the associating segments. -/
noncomputable def crossRhoV (D : Type) [CommRing D] [Algebra ℝ D] [Inv D] [DualNumOps D]
    (p : GcPcSaftEosParameters) (st : StateHD D) : Fin p.assoc_segment.length → D :=
  fun i => st.partial_density (p.component_index.getD (p.assoc_segment.getD i.val 0) 0)

/-- Donor site counts indexed over the association occurrences. -/
def naV (p : GcPcSaftEosParameters) : Fin p.assoc_segment.length → ℝ :=
  fun i => p.na.getD i.val 0

/-- Acceptor site counts indexed over the association occurrences. -/
def nbV (p : GcPcSaftEosParameters) : Fin p.assoc_segment.length → ℝ :=
  fun i => p.nb.getD i.val 0

/-- The Helmholtz energy (density times volume) assembled from the dual site
fractions: `(rho * (f(xa) na + f(xb) nb)).sum() * volume`. -/
noncomputable def crossEnergy (D : Type) [CommRing D] [Algebra ℝ D] [Inv D] [DualNumOps D]
    (p : GcPcSaftEosParameters) (st : StateHD D)
    (xd : Fin (2 * p.assoc_segment.length) → D) : D :=
  (∑ i, crossRhoV D p st i *
      (fAssoc D (xd (lowIdx p.assoc_segment.length i)) * aR D (naV p i) +
        fAssoc D (xd (highIdx p.assoc_segment.length i)) * aR D (nbV p i))) *
    st.volume

/-- The cross-association energy obtained from a given real solution of the
Newton loop (the part of `CrossAssociation::helmholtz_energy` after the real
loop). -/
noncomputable def crossEnergyFromX (D : Type) [CommRing D] [Algebra ℝ D] [Inv D] [DualNumOps D]
    (p : GcPcSaftEosParameters) (st : StateHD D) (tol : ℝ)
    (x : Fin (2 * p.assoc_segment.length) → ℝ) : D :=
  crossEnergy D p st
    (crossXd D p.assoc_segment.length (crossDeltaM D p st) (naV p) (nbV p) (crossRhoV D p st)
      tol x)

/-- Mirror of `CrossAssociation::helmholtz_energy`. -/
noncomputable def CrossAssociation.helmholtz_energy (D : Type) [CommRing D] [Algebra ℝ D] [Inv D]
    [DualNumOps D] (p : GcPcSaftEosParameters) (max_iter : ℕ) (tol : ℝ) (st : StateHD D) :
    Except EosError D := do
  let x ← cross_association_iterate p.assoc_segment.length
    (fun i j => DualNumOps.re (crossDeltaM D p st i j)) (naV p) (nbV p)
    (fun i => DualNumOps.re (crossRhoV D p st i)) tol max_iter 0 (fun _ => (0.2 : ℝ))
  .ok (crossEnergyFromX D p st tol x)

/-- Concrete fixture: two single-segment molecules. -/
def fixChems : List ChemicalRecord := [⟨[0], []⟩, ⟨[1], []⟩]

/-- Concrete fixture: two segment records, the first with association. -/
def fixSegs : List SegmentRecord :=
  [⟨0, 15, ⟨1, 2, 3, some 0.01, some 2500, none, none⟩⟩,
    ⟨1, 14, ⟨4, 5, 6, none, none, none, none⟩⟩]

/-- Concrete fixture: one binary record between the two segment types. -/
def fixBins : Option (List BinaryRecord) := some [⟨0, 1, 0.05⟩]

/-- Concrete fixture: one molecule made of both segment types. -/
def fix8Chems : List ChemicalRecord := [⟨[0, 1], [(0, 1)]⟩]

/-- Concrete fixture: an ethanol-propanol style two-molecule system. -/
def fix9Chems : List ChemicalRecord := [⟨[0, 1], [(0, 1)]⟩, ⟨[0, 1, 1], [(0, 1), (1, 2)]⟩]

/-- Real-part projection as a ring homomorphism. -/
noncomputable def fstRingHom : DualNumber ℝ →+* ℝ :=
  (TrivSqZeroExt.fstHom ℝ ℝ ℝ).toRingHom

/-- Real-lift injection as a ring homomorphism. -/
noncomputable def inlRingHom : ℝ →+* DualNumber ℝ :=
  TrivSqZeroExt.inlHom ℝ ℝ

/-! ### Basic facts about the numeric instances -/

@[simp] lemma aR_real (c : ℝ) : aR ℝ c = c := rfl

@[simp] lemma re_real (x : ℝ) : DualNumOps.re x = x := rfl

@[simp] lemma sqrtD_real (x : ℝ) : DualNumOps.sqrtD x = Real.sqrt x := rfl

@[simp] lemma expD_real (x : ℝ) : DualNumOps.expD x = Real.exp x := rfl

@[simp] lemma lnD_real (x : ℝ) : DualNumOps.lnD x = Real.log x := rfl

@[simp] lemma expm1D_real (x : ℝ) : DualNumOps.expm1D x = Real.exp x - 1 := rfl

@[simp] lemma nderivOf_real : nderivOf ℝ = 0 := rfl

@[simp] lemma nderivOf_dual : nderivOf (DualNumber ℝ) = 1 := rfl

@[simp] lemma re_dual (d : DualNumber ℝ) : DualNumOps.re d = d.fst := rfl

@[simp] lemma fst_aR (c : ℝ) : (aR (DualNumber ℝ) c).fst = c := rfl

@[simp] lemma snd_aR (c : ℝ) : (aR (DualNumber ℝ) c).snd = 0 := by
  simp [aR, TrivSqZeroExt.algebraMap_eq_inl']

@[simp] lemma fst_sqrtD (d : DualNumber ℝ) :
    (DualNumOps.sqrtD d).fst = Real.sqrt d.fst := rfl

@[simp] lemma snd_sqrtD (d : DualNumber ℝ) :
    (DualNumOps.sqrtD d).snd = d.snd * (0.5 / Real.sqrt d.fst) := rfl

@[simp] lemma fst_lnD (d : DualNumber ℝ) : (DualNumOps.lnD d).fst = Real.log d.fst := rfl

@[simp] lemma snd_lnD (d : DualNumber ℝ) : (DualNumOps.lnD d).snd = d.snd / d.fst := rfl

@[simp] lemma fst_expm1D (d : DualNumber ℝ) :
    (DualNumOps.expm1D d).fst = Real.exp d.fst - 1 := rfl

@[simp] lemma snd_expm1D (d : DualNumber ℝ) :
    (DualNumOps.expm1D d).snd = d.snd * Real.exp d.fst := rfl

lemma f64Epsilon_pos : (0 : ℝ) < f64Epsilon := by
  unfold f64Epsilon; positivity

/-- The branch threshold is exactly `2 ^ (-26)`. -/
lemma sqrt_f64Epsilon : Real.sqrt f64Epsilon = (2 : ℝ) ^ (-26 : ℤ) := by
  rw [show f64Epsilon = ((2 : ℝ) ^ (-26 : ℤ)) ^ 2 by unfold f64Epsilon; rw [← zpow_natCast ((2:ℝ) ^ (-26 : ℤ)) 2, ← zpow_mul]; norm_num]
  exact Real.sqrt_sq (by positivity)

/-! ### Claim C5 -/

/-- Claim C5: `association_strength` returns
`n3i * (kappa * (kappa/18 + 0.5) + 1) * sigma3_kappa_aibj[i,j] * (exp(epsilon_k_aibj[i,j]/T) - 1)`
with `kappa = d_i * d_j / (d_i + d_j) * n2 * n3i`, for all association
occurrence indices, temperatures, diameters and packing-fraction inputs. -/
theorem C5_association_strength_formula (p : GcPcSaftEosParameters) (T : ℝ) (d : ℕ → ℝ)
    (n2 n3i : ℝ) (i j : ℕ) :
    association_strength ℝ p T d n2 n3i i j =
      (fun kappa =>
          n3i * (kappa * (kappa / 18 + 0.5) + 1) * p.sigma3_kappa_aibj i j *
            (Real.exp (p.epsilon_k_aibj i j / T) - 1))
        (d (p.assoc_segment.getD i 0) * d (p.assoc_segment.getD j 0) /
            (d (p.assoc_segment.getD i 0) + d (p.assoc_segment.getD j 0)) *
          n2 * n3i) := by
  simp only [association_strength, aR_real, expm1D_real, re_real]
  have harg : T⁻¹ * p.epsilon_k_aibj i j = p.epsilon_k_aibj i j / T := by ring
  rw [harg]
  ring

/-! ### Symmetry helpers and claims C7, C8 -/

lemma find?_ext {α : Type} (l : List α) (p q : α → Bool) (h : ∀ x, p x = q x) :
    l.find? p = l.find? q := by
  induction l with
  | nil => rfl
  | cons a t ih => cases hq : q a <;> simp [List.find?_cons, h a, hq, ih]

/-- The symmetrised binary record map is symmetric in its two identifiers. -/
lemma binLookup_symm (b : Option (List BinaryRecord)) (x y : ℕ) :
    binLookup b x y = binLookup b y x := by
  cases b with
  | none => rfl
  | some l =>
    simp only [binLookup]
    congr 1
    exact find?_ext _ _ _ (fun r => Bool.or_comm _ _)

lemma eos_k_ij_symm (p : GcPcSaftEosParameters) (i j : ℕ) :
    p.k_ij i j = p.k_ij j i := by
  unfold GcPcSaftEosParameters.k_ij
  rcases eq_or_ne (p.component_index.getD i 0) (p.component_index.getD j 0) with h | h
  · rw [if_neg (not_not_intro h), if_neg (not_not_intro h.symm)]
  · rw [if_pos h, if_pos h.symm, binLookup_symm]

lemma dft_k_ij_symm (p : GcPcSaftFunctionalParameters) (i j : ℕ) :
    p.k_ij i j = p.k_ij j i := by
  unfold GcPcSaftFunctionalParameters.k_ij
  rcases eq_or_ne (p.component_index.getD i 0) (p.component_index.getD j 0) with h | h
  · rw [if_neg (not_not_intro h), if_neg (not_not_intro h.symm)]
  · rw [if_pos h, if_pos h.symm, binLookup_symm]

/-- Claim C7: in every assembled parameter set (EOS and DFT variants), the
pairwise combining-rule matrices `sigma_ij`, `epsilon_k_ij`,
`sigma3_kappa_aibj` and `epsilon_k_aibj` are symmetric. -/
theorem C7_combining_rules_symmetric (chems pures : List ChemicalRecord)
    (segs : List SegmentRecord) (bins : Option (List BinaryRecord))
    (p : GcPcSaftEosParameters) (q : GcPcSaftFunctionalParameters)
    (hp : GcPcSaftEosParameters.from_segments chems segs bins = .ok p)
    (hq : GcPcSaftFunctionalParameters.from_segments pures segs bins = .ok q) (i j : ℕ) :
    (p.sigma_ij i j = p.sigma_ij j i ∧ p.epsilon_k_ij i j = p.epsilon_k_ij j i ∧
        p.sigma3_kappa_aibj i j = p.sigma3_kappa_aibj j i ∧
        p.epsilon_k_aibj i j = p.epsilon_k_aibj j i) ∧
      (q.sigma_ij i j = q.sigma_ij j i ∧ q.epsilon_k_ij i j = q.epsilon_k_ij j i ∧
        q.sigma3_kappa_aibj i j = q.sigma3_kappa_aibj j i ∧
        q.epsilon_k_aibj i j = q.epsilon_k_aibj j i) := by
  refine ⟨⟨?_, ?_, ?_, ?_⟩, ?_, ?_, ?_, ?_⟩
  · unfold GcPcSaftEosParameters.sigma_ij; ring
  · unfold GcPcSaftEosParameters.epsilon_k_ij
    rw [mul_comm (p.epsilon_k.getD i 0), eos_k_ij_symm]
  · unfold GcPcSaftEosParameters.sigma3_kappa_aibj
    rw [mul_comm (p.sigma.getD (p.assoc_segment.getD i 0) 0),
      mul_comm (p.kappa_ab.getD i 0)]
  · unfold GcPcSaftEosParameters.epsilon_k_aibj; ring
  · unfold GcPcSaftFunctionalParameters.sigma_ij; ring
  · unfold GcPcSaftFunctionalParameters.epsilon_k_ij
    rw [mul_comm (q.epsilon_k.getD i 0), dft_k_ij_symm]
  · unfold GcPcSaftFunctionalParameters.sigma3_kappa_aibj
    rw [mul_comm (q.sigma.getD (q.assoc_segment.getD i 0) 0),
      mul_comm (q.kappa_ab.getD i 0)]
  · unfold GcPcSaftFunctionalParameters.epsilon_k_aibj; ring

/-- An `Except` value with `isOk` set carries an `ok` payload. -/
lemma exists_ok_of_isOk {ε α : Type} (e : Except ε α) (h : e.isOk = true) : ∃ a, e = .ok a := by
  cases e with
  | error e => exact absurd h (by simp [Except.isOk, Except.toBool])
  | ok a => exact ⟨a, rfl⟩

/-- Transfer an evaluated projection through an `ok` equation. -/
lemma ok_proj {ε α β : Type} (e : Except ε α) (f : α → β) (a : α) (b : β) (he : e = .ok a)
    (hf : e.map f = .ok b) : f a = b := by
  subst he
  rw [Except.map] at hf
  exact Except.ok.inj hf

/-- Witness for C7 at a concrete two-component assembly with a binary
record. -/
theorem C7_witness :
    ∃ (p : GcPcSaftEosParameters) (q : GcPcSaftFunctionalParameters),
      GcPcSaftEosParameters.from_segments fixChems fixSegs fixBins = .ok p ∧
      GcPcSaftFunctionalParameters.from_segments fixChems fixSegs fixBins = .ok q ∧
      p.epsilon_k_ij 0 1 = p.epsilon_k_ij 1 0 ∧
      q.sigma3_kappa_aibj 0 1 = q.sigma3_kappa_aibj 1 0 := by
  obtain ⟨p, hp⟩ :=
    exists_ok_of_isOk (GcPcSaftEosParameters.from_segments fixChems fixSegs fixBins) (by decide)
  obtain ⟨q, hq⟩ :=
    exists_ok_of_isOk (GcPcSaftFunctionalParameters.from_segments fixChems fixSegs fixBins)
      (by decide)
  exact ⟨p, q, hp, hq,
    (C7_combining_rules_symmetric fixChems fixChems fixSegs fixBins p q hp hq 0 1).1.2.1,
    (C7_combining_rules_symmetric fixChems fixChems fixSegs fixBins p q hp hq 0 1).2.2.2.1⟩

/-- Claim C8: the binary interaction correction vanishes between occurrences
of the same molecule, whatever binary records are supplied. -/
theorem C8_self_interaction_exclusion (chems : List ChemicalRecord)
    (segs : List SegmentRecord) (bins : Option (List BinaryRecord))
    (p : GcPcSaftEosParameters)
    (hp : GcPcSaftEosParameters.from_segments chems segs bins = .ok p) (i j : ℕ)
    (hc : p.component_index.getD i 0 = p.component_index.getD j 0) :
    p.k_ij i j = 0 := by
  unfold GcPcSaftEosParameters.k_ij
  rw [if_neg (not_not_intro hc)]

/-- Witness for C8: a one-molecule assembly where a binary record names the
identifier pair of two occurrences of the same molecule. -/
theorem C8_witness :
    ∃ p : GcPcSaftEosParameters,
      GcPcSaftEosParameters.from_segments fix8Chems fixSegs fixBins = .ok p ∧
      p.component_index.getD 0 0 = p.component_index.getD 1 0 ∧ p.k_ij 0 1 = 0 := by
  obtain ⟨p, hp⟩ :=
    exists_ok_of_isOk (GcPcSaftEosParameters.from_segments fix8Chems fixSegs fixBins) (by decide)
  have hci : p.component_index = [0, 0] :=
    ok_proj _ (fun r => r.component_index) _ _ hp (by decide)
  exact ⟨p, hp, by rw [hci]; rfl, C8_self_interaction_exclusion fix8Chems fixSegs fixBins p hp 0 1
    (by rw [hci]; rfl)⟩

/-! ### Claim C1 -/

/-- Claim C1 (amended): assembling one molecule with segment sequence
`A-B-A` (distinct types) and bonds `[(0,1),(1,2)]` succeeds in both
assemblers; the DFT assembler yields `component_index = [0,0,0]` and exactly
the edges `(0,1)` and `(1,2)`, while the EOS assemblers de-duplicate equal
segment types, yielding `component_index = [0,0]` and one bond entry
`((0,1), 2)`; in both, the molar mass is `2 mw_A + mw_B`. -/
theorem C1_aba_assembly (mwA mwB mA sA eA mB sB eB : ℝ) :
    ∃ (p : GcPcSaftEosParameters) (q : GcPcSaftFunctionalParameters),
      GcPcSaftEosParameters.from_segments [⟨[0, 1, 0], [(0, 1), (1, 2)]⟩]
          [⟨0, mwA, ⟨mA, sA, eA, none, none, none, none⟩⟩,
            ⟨1, mwB, ⟨mB, sB, eB, none, none, none, none⟩⟩] none = .ok p ∧
      GcPcSaftFunctionalParameters.from_segments [⟨[0, 1, 0], [(0, 1), (1, 2)]⟩]
          [⟨0, mwA, ⟨mA, sA, eA, none, none, none, none⟩⟩,
            ⟨1, mwB, ⟨mB, sB, eB, none, none, none, none⟩⟩] none = .ok q ∧
      p.component_index = [0, 0] ∧ p.bonds = [((0, 1), 2)] ∧
      p.molarweight = [2 * mwA + mwB] ∧ p.m = [mA * 2, mB] ∧
      q.component_index = [0, 0, 0] ∧ q.bonds = [(0, 1), (1, 2)] ∧
      q.molarweight = [2 * mwA + mwB] := by
  refine ⟨_, _, rfl, rfl, rfl, ?_, ?_, ?_, rfl, rfl, ?_⟩
  · show [((0, 1), (1 : ℝ) + 1)] = [((0, 1), 2)]
    norm_num
  · show [0 + mwA * ((2 : ℕ) : ℝ) + mwB * ((1 : ℕ) : ℝ)] = [2 * mwA + mwB]
    push_cast
    ring_nf
  · show [mA * ((2 : ℕ) : ℝ), mB * ((1 : ℕ) : ℝ)] = [mA * 2, mB]
    push_cast
    ring_nf
  · show [0 + mwA + mwB + mwA] = [2 * mwA + mwB]
    ring_nf

/-- Counterexample for C1 as stated: on the `A-B-A` molecule the EOS
assembler cited by the claim returns `component_index = [0,0]` (segment
types are merged), not `[0,0,0]`. -/
theorem C1_counterexample :
    (GcPcSaftEosParameters.from_segments [⟨[0, 1, 0], [(0, 1), (1, 2)]⟩]
          [⟨0, 15, ⟨1, 2, 3, none, none, none, none⟩⟩,
            ⟨1, 14, ⟨4, 5, 6, none, none, none, none⟩⟩] none).map
        (fun p => p.component_index) = .ok [0, 0] ∧
      (GcPcSaftEosParameters.from_segments [⟨[0, 1, 0], [(0, 1), (1, 2)]⟩]
          [⟨0, 15, ⟨1, 2, 3, none, none, none, none⟩⟩,
            ⟨1, 14, ⟨4, 5, 6, none, none, none, none⟩⟩] none).map
        (fun p => p.component_index) ≠ .ok [0, 0, 0] := by
  constructor <;> decide

/-! ### Claim C9 -/

/-- Decompose a successful `from_segments` run into the underlying
per-molecule results. -/
lemma from_segments_ok_elim (chems : List ChemicalRecord) (segs : List SegmentRecord)
    (bins : Option (List BinaryRecord)) (p : GcPcSaftEosParameters)
    (h : GcPcSaftEosParameters.from_segments chems segs bins = .ok p) :
    ∃ mols, chems.mapM (assembleMolecule segs) = .ok mols ∧
      p = { molarweight := mols.map (fun md => md.molarweight)
            component_index := compIndexFrom mols 0
            identifiers := (mols.map (fun md => md.identifiers)).flatten
            m := (mols.map (fun md => md.m)).flatten
            sigma := (mols.map (fun md => md.sigma)).flatten
            epsilon_k := (mols.map (fun md => md.epsilon_k)).flatten
            bonds := bondsFrom mols 0
            assoc_segment := assocSegmentsFrom mols 0
            kappa_ab := (mols.map (fun md => md.kappa_ab)).flatten
            epsilon_k_ab := (mols.map (fun md => md.epsilon_k_ab)).flatten
            na := (mols.map (fun md => md.na)).flatten
            nb := (mols.map (fun md => md.nb)).flatten
            chemical_records := chems
            segment_records := segs
            binary_segment_records := bins } := by
  unfold GcPcSaftEosParameters.from_segments at h
  cases hm : chems.mapM (assembleMolecule segs) with
  | error e =>
    rw [hm] at h
    exact absurd h (by simp [Bind.bind, Except.bind])
  | ok mols =>
    rw [hm] at h
    refine ⟨mols, rfl, ?_⟩
    simp only [Bind.bind, Except.bind] at h
    exact (Except.ok.inj h).symm

/-- Decompose a successful `mapM` over a cons cell. -/
lemma mapM_ok_cons {α β : Type} (f : α → Except ParameterError β) (a : α) (l : List α)
    (ys : List β) (h : (a :: l).mapM f = .ok ys) :
    ∃ y ys', f a = .ok y ∧ l.mapM f = .ok ys' ∧ ys = y :: ys' := by
  rw [List.mapM_cons] at h
  cases ha : f a with
  | error e => rw [ha] at h; exact absurd h (by simp [Bind.bind, Except.bind])
  | ok y =>
    rw [ha] at h
    simp only [Bind.bind, Except.bind] at h
    cases hl : l.mapM f with
    | error e => rw [hl] at h; exact absurd h (by simp [Bind.bind, Except.bind])
    | ok ys' =>
      rw [hl] at h
      simp only [Bind.bind, Except.bind, pure, Except.pure] at h
      exact ⟨y, ys', rfl, rfl, (Except.ok.inj h).symm⟩

/-- A successful `mapM` succeeds on every element, position by position. -/
lemma mapM_ok_get {α β : Type} (f : α → Except ParameterError β) (d : α) (d' : β) :
    ∀ (l : List α) (ys : List β) (i : ℕ), l.mapM f = .ok ys → i < l.length →
      f (l.getD i d) = .ok (ys.getD i d')
  | [], _, _, _, hi => absurd hi (by simp)
  | a :: l, ys, i, h, hi => by
    obtain ⟨y, ys', ha, hl, rfl⟩ := mapM_ok_cons f a l ys h
    cases i with
    | zero => simpa using ha
    | succ i =>
      have := mapM_ok_get f d d' l ys' i hl (by simpa using hi)
      simpa using this

/-- Claim C9: the `m` array reached through `subset [i]` coincides with the
`m` array of assembling topology `i` alone with the same segment and binary
records. -/
theorem C9_subset_consistency (chems : List ChemicalRecord) (segs : List SegmentRecord)
    (bins : Option (List BinaryRecord)) (i : ℕ)
    (h : (GcPcSaftEosParameters.from_segments chems segs bins).isOk = true)
    (hi : i < chems.length) :
    ∃ marr : List ℝ,
      (do
        let p ← GcPcSaftEosParameters.from_segments chems segs bins
        let q ← p.subset [i]
        pure q.m) = .ok marr ∧
      (GcPcSaftEosParameters.from_segments [chems.getD i ⟨[], []⟩] segs bins).map
          (fun q => q.m) = .ok marr := by
  obtain ⟨p, hp⟩ := exists_ok_of_isOk _ h
  obtain ⟨mols, hm, hpval⟩ := from_segments_ok_elim chems segs bins p hp
  have hmol : assembleMolecule segs (chems.getD i ⟨[], []⟩) =
      .ok (mols.getD i ⟨0, [], [], [], [], [], [], [], [], [], []⟩) :=
    mapM_ok_get _ _ _ chems mols i hm hi
  have hsingle : GcPcSaftEosParameters.from_segments [chems.getD i ⟨[], []⟩] segs bins =
      .ok { molarweight := [(mols.getD i ⟨0, [], [], [], [], [], [], [], [], [], []⟩)].map
              (fun md => md.molarweight)
            component_index :=
              compIndexFrom [mols.getD i ⟨0, [], [], [], [], [], [], [], [], [], []⟩] 0
            identifiers := ([mols.getD i ⟨0, [], [], [], [], [], [], [], [], [], []⟩].map
              (fun md => md.identifiers)).flatten
            m := ([mols.getD i ⟨0, [], [], [], [], [], [], [], [], [], []⟩].map
              (fun md => md.m)).flatten
            sigma := ([mols.getD i ⟨0, [], [], [], [], [], [], [], [], [], []⟩].map
              (fun md => md.sigma)).flatten
            epsilon_k := ([mols.getD i ⟨0, [], [], [], [], [], [], [], [], [], []⟩].map
              (fun md => md.epsilon_k)).flatten
            bonds := bondsFrom [mols.getD i ⟨0, [], [], [], [], [], [], [], [], [], []⟩] 0
            assoc_segment :=
              assocSegmentsFrom [mols.getD i ⟨0, [], [], [], [], [], [], [], [], [], []⟩] 0
            kappa_ab := ([mols.getD i ⟨0, [], [], [], [], [], [], [], [], [], []⟩].map
              (fun md => md.kappa_ab)).flatten
            epsilon_k_ab := ([mols.getD i ⟨0, [], [], [], [], [], [], [], [], [], []⟩].map
              (fun md => md.epsilon_k_ab)).flatten
            na := ([mols.getD i ⟨0, [], [], [], [], [], [], [], [], [], []⟩].map
              (fun md => md.na)).flatten
            nb := ([mols.getD i ⟨0, [], [], [], [], [], [], [], [], [], []⟩].map
              (fun md => md.nb)).flatten
            chemical_records := [chems.getD i ⟨[], []⟩]
            segment_records := segs
            binary_segment_records := bins } := by
    unfold GcPcSaftEosParameters.from_segments
    rw [List.mapM_cons, hmol]
    simp only [Bind.bind, Except.bind, List.mapM_nil, pure, Except.pure]
  have hsub : p.subset [i] = GcPcSaftEosParameters.from_segments [chems.getD i ⟨[], []⟩] segs bins := by
    unfold GcPcSaftEosParameters.subset
    rw [hpval]
    rfl
  refine ⟨([mols.getD i ⟨0, [], [], [], [], [], [], [], [], [], []⟩].map
    (fun md => md.m)).flatten, ?_, ?_⟩
  · rw [hp]
    show (p.subset [i]).bind (fun q => pure q.m) = _
    rw [hsub, hsingle]
    rfl
  · rw [hsingle]
    rfl

/-- Witness for C9 at molecule index 1 of a two-molecule assembly. -/
theorem C9_witness :
    1 < fix9Chems.length ∧
      ∃ marr : List ℝ,
        (do
          let p ← GcPcSaftEosParameters.from_segments fix9Chems fixSegs fixBins
          let q ← p.subset [1]
          pure q.m) = .ok marr ∧
        (GcPcSaftEosParameters.from_segments [fix9Chems.getD 1 ⟨[], []⟩] fixSegs fixBins).map
            (fun q => q.m) = .ok marr :=
  ⟨by decide, C9_subset_consistency fix9Chems fixSegs fixBins 1 (by decide) (by decide)⟩

/-! ### Claim C10 -/

lemma addBondWeight_keys (bs : List ((ℕ × ℕ) × ℝ)) (key : ℕ × ℕ) :
    (addBondWeight bs key).map Prod.fst =
      if key ∈ bs.map Prod.fst then bs.map Prod.fst else bs.map Prod.fst ++ [key] := by
  induction bs with
  | nil => simp [addBondWeight]
  | cons kw rest ih =>
    by_cases hk : kw.1 = key
    · simp [addBondWeight, hk]
    · obtain ⟨k, w⟩ := kw
      simp only at hk
      by_cases hmem : key ∈ rest.map Prod.fst
      · simp [addBondWeight, hk, ih, hmem, Ne.symm hk]
      · simp [addBondWeight, hk, ih, hmem, Ne.symm hk]

lemma addBondWeight_sum (bs : List ((ℕ × ℕ) × ℝ)) (key : ℕ × ℕ) :
    ((addBondWeight bs key).map Prod.snd).sum = (bs.map Prod.snd).sum + 1 := by
  induction bs with
  | nil => simp [addBondWeight]
  | cons kw rest ih =>
    by_cases hk : kw.1 = key
    · simp [addBondWeight, hk]
      ring
    · obtain ⟨k, w⟩ := kw
      simp only at hk
      simp [addBondWeight, hk, ih]
      ring

lemma addBondWeight_nodup (bs : List ((ℕ × ℕ) × ℝ)) (key : ℕ × ℕ)
    (h : (bs.map Prod.fst).Nodup) : ((addBondWeight bs key).map Prod.fst).Nodup := by
  rw [addBondWeight_keys]
  by_cases hmem : key ∈ bs.map Prod.fst
  · simpa [hmem] using h
  · simp [hmem, List.nodup_append, h]

lemma addBondWeight_mem (bs : List ((ℕ × ℕ) × ℝ)) (key k : ℕ × ℕ)
    (h : k ∈ (addBondWeight bs key).map Prod.fst) : k ∈ bs.map Prod.fst ∨ k = key := by
  rw [addBondWeight_keys] at h
  by_cases hmem : key ∈ bs.map Prod.fst
  · rw [if_pos hmem] at h
    exact Or.inl h
  · rw [if_neg hmem] at h
    rcases List.mem_append.mp h with h | h
    · exact Or.inl h
    · exact Or.inr (by simpa using h)

lemma segPos_lt : ∀ (counts : List (ℕ × ℕ)) (sid t : ℕ), segPos counts sid = some t →
    t < counts.length
  | [], _, _, h => by simp [segPos] at h
  | (k, c) :: rest, sid, t, h => by
    by_cases hk : k = sid
    · rw [segPos, if_pos hk] at h
      obtain rfl := Option.some.inj h
      simp
    · rw [segPos, if_neg hk] at h
      cases hp : segPos rest sid with
      | none => rw [hp] at h; exact absurd h (by simp)
      | some u =>
        rw [hp] at h
        obtain rfl := Option.some.inj h
        have := segPos_lt rest sid u hp
        simp only [List.length_cons]
        omega

/-- Invariant of the per-molecule bond fold: keys are ordered pairs of local
indices, keys stay duplicate-free, and each processed bond adds exactly
weight one. -/
lemma moleculeBonds_fold_inv (segments : List ℕ) (counts : List (ℕ × ℕ)) :
    ∀ (bonds : List (ℕ × ℕ)) (acc out : List ((ℕ × ℕ) × ℝ)),
      bonds.foldlM (fun acc b =>
        match segments.get? b.1, segments.get? b.2 with
        | some s1, some s2 =>
          match segPos counts s1, segPos counts s2 with
          | some i1, some i2 =>
            Except.ok (addBondWeight acc (if i2 < i1 then (i2, i1) else (i1, i2)))
          | _, _ => Except.error ParameterError.IndexPanic
        | _, _ => Except.error ParameterError.IndexPanic) acc = .ok out →
      (∀ k, k ∈ out.map Prod.fst → k ∈ acc.map Prod.fst ∨
          (k.1 ≤ k.2 ∧ k.1 < counts.length ∧ k.2 < counts.length)) ∧
        ((acc.map Prod.fst).Nodup → (out.map Prod.fst).Nodup) ∧
        (out.map Prod.snd).sum = (acc.map Prod.snd).sum + bonds.length
  | [], acc, out, h => by
    simp only [List.foldlM_nil, pure, Except.pure] at h
    obtain rfl := (Except.ok.inj h).symm
    exact ⟨fun k hk => Or.inl hk, fun h => h, by simp⟩
  | b :: bonds, acc, out, h => by
    rw [List.foldlM_cons] at h
    cases hg1 : segments.get? b.1 with
    | none => simp only [hg1] at h; exact absurd h (by simp [Bind.bind, Except.bind])
    | some s1 =>
      cases hg2 : segments.get? b.2 with
      | none => simp only [hg1, hg2] at h; exact absurd h (by simp [Bind.bind, Except.bind])
      | some s2 =>
        simp only [hg1, hg2] at h
        cases hp1 : segPos counts s1 with
        | none => simp only [hp1] at h; exact absurd h (by simp [Bind.bind, Except.bind])
        | some i1 =>
          cases hp2 : segPos counts s2 with
          | none => simp only [hp1, hp2] at h; exact absurd h (by simp [Bind.bind, Except.bind])
          | some i2 =>
            simp only [hp1, hp2] at h
            simp only [Bind.bind, Except.bind] at h
            set key := if i2 < i1 then (i2, i1) else (i1, i2) with hkey
            obtain ⟨hmem, hnd, hsum⟩ :=
              moleculeBonds_fold_inv segments counts bonds (addBondWeight acc key) out h
            have hi1 := segPos_lt counts s1 i1 hp1
            have hi2 := segPos_lt counts s2 i2 hp2
            have hkeygood : key.1 ≤ key.2 ∧ key.1 < counts.length ∧ key.2 < counts.length := by
              rw [hkey]
              by_cases hlt : i2 < i1 <;> simp [hlt] <;> omega
            refine ⟨fun k hk => ?_, fun hacc => hnd (addBondWeight_nodup _ _ hacc), ?_⟩
            · rcases hmem k hk with hin | hgood
              · rcases addBondWeight_mem acc key k hin with hin | rfl
                · exact Or.inl hin
                · exact Or.inr hkeygood
              · exact Or.inr hgood
            · rw [hsum, addBondWeight_sum]
              simp
              ring

lemma resolveCounts_length (segs : List SegmentRecord) :
    ∀ (counts : List (ℕ × ℕ)) (r : List (SegmentRecord × ℕ)),
      resolveCounts segs counts = .ok r → r.length = counts.length
  | [], r, h => by
    simp only [resolveCounts] at h
    obtain rfl := (Except.ok.inj h).symm
    rfl
  | (sid, c) :: rest, r, h => by
    simp only [resolveCounts] at h
    cases hl : segLookup segs sid with
    | none => rw [hl] at h; exact absurd h (by simp)
    | some s =>
      rw [hl] at h
      cases hr : resolveCounts segs rest with
      | error e => rw [hr] at h; exact absurd h (by simp [Except.map])
      | ok r' =>
        rw [hr] at h
        simp only [Except.map] at h
        obtain rfl := (Except.ok.inj h).symm
        have := resolveCounts_length segs rest r' hr
        simp [this]

/-- Decompose a successful per-molecule assembly. -/
lemma assembleMolecule_ok_elim (segs : List SegmentRecord) (chem : ChemicalRecord)
    (md : MoleculeData) (h : assembleMolecule segs chem = .ok md) :
    ∃ resolved bonds, resolveCounts segs (countSegments chem.segments) = .ok resolved ∧
      moleculeBonds chem.segments (countSegments chem.segments) chem.bonds = .ok bonds ∧
      md = { molarweight := resolved.foldl (fun acc sc => acc + sc.1.molarweight * (sc.2 : ℝ)) 0
             identifiers := resolved.map (fun sc => sc.1.identifier)
             m := resolved.map (fun sc => sc.1.model_record.m * (sc.2 : ℝ))
             sigma := resolved.map (fun sc => sc.1.model_record.sigma)
             epsilon_k := resolved.map (fun sc => sc.1.model_record.epsilon_k)
             assoc_local := resolved.enum.filterMap
               (fun p => if hasAssoc p.2.1.model_record then some p.1 else none)
             kappa_ab := resolved.filterMap
               (fun sc => if hasAssoc sc.1.model_record then sc.1.model_record.kappa_ab else none)
             epsilon_k_ab := resolved.filterMap
               (fun sc => if hasAssoc sc.1.model_record then sc.1.model_record.epsilon_k_ab
                 else none)
             na := resolved.filterMap
               (fun sc => if hasAssoc sc.1.model_record then some (sc.1.model_record.na.getD 1)
                 else none)
             nb := resolved.filterMap
               (fun sc => if hasAssoc sc.1.model_record then some (sc.1.model_record.nb.getD 1)
                 else none)
             bonds_local := bonds } := by
  unfold assembleMolecule at h
  cases hr : resolveCounts segs (countSegments chem.segments) with
  | error e => rw [hr] at h; exact absurd h (by simp [Bind.bind, Except.bind])
  | ok resolved =>
    rw [hr] at h
    simp only [Bind.bind, Except.bind] at h
    cases hb : moleculeBonds chem.segments (countSegments chem.segments) chem.bonds with
    | error e => rw [hb] at h; exact absurd h (by simp)
    | ok bonds =>
      rw [hb] at h
      exact ⟨resolved, bonds, rfl, rfl, (Except.ok.inj h).symm⟩

/-- The bond map of one assembled molecule: ordered in-range keys, no
duplicate keys, weights summing to the molecule's bond count. -/
lemma assembleMolecule_bonds_inv (segs : List SegmentRecord) (chem : ChemicalRecord)
    (md : MoleculeData) (h : assembleMolecule segs chem = .ok md) :
    (∀ k, k ∈ md.bonds_local.map Prod.fst →
        k.1 ≤ k.2 ∧ k.1 < md.m.length ∧ k.2 < md.m.length) ∧
      (md.bonds_local.map Prod.fst).Nodup ∧
      (md.bonds_local.map Prod.snd).sum = chem.bonds.length := by
  obtain ⟨resolved, bonds, hr, hb, rfl⟩ := assembleMolecule_ok_elim segs chem md h
  have hlen : resolved.length = (countSegments chem.segments).length :=
    resolveCounts_length segs _ _ hr
  have hfold := moleculeBonds_fold_inv chem.segments (countSegments chem.segments)
    chem.bonds [] bonds hb
  refine ⟨fun k hk => ?_, hfold.2.1 (by simp), by simpa using hfold.2.2⟩
  rcases hfold.1 k hk with hin | hgood
  · simp at hin
  · simpa [hlen] using hgood

lemma replicate_getD (n c t : ℕ) (h : t < n) : (List.replicate n c).getD t 0 = c := by
  induction n generalizing t with
  | zero => omega
  | succ n ih =>
    cases t with
    | zero => simp [List.replicate]
    | succ t => simpa [List.replicate] using ih t (by omega)

lemma compIndexFrom_getD_head (md : MoleculeData) (mols : List MoleculeData) (c t : ℕ)
    (h : t < md.m.length) : (compIndexFrom (md :: mols) c).getD t 0 = c := by
  rw [compIndexFrom, List.getD_append _ _ _ _ (by simpa using h)]
  exact replicate_getD _ _ _ h

lemma compIndexFrom_getD_tail (md : MoleculeData) (mols : List MoleculeData) (c t : ℕ) :
    (compIndexFrom (md :: mols) c).getD (md.m.length + t) 0 =
      (compIndexFrom mols (c + 1)).getD t 0 := by
  rw [compIndexFrom, List.getD_append_right _ _ _ _ (by simp)]
  simp

lemma bondsFrom_shift : ∀ (mols : List MoleculeData) (off : ℕ),
    bondsFrom mols off =
      (bondsFrom mols 0).map (fun kw => ((kw.1.1 + off, kw.1.2 + off), kw.2))
  | [], off => rfl
  | md :: mols, off => by
    rw [bondsFrom, bondsFrom, bondsFrom_shift mols (off + md.m.length),
      bondsFrom_shift mols (0 + md.m.length)]
    simp only [List.map_append, List.map_map]
    congr 1
    all_goals apply List.map_congr_left
    all_goals intro kw hkw
    all_goals simp only [Function.comp_apply, Prod.mk.injEq, add_zero, zero_add, and_true,
      true_and, Prod.mk.eta]
    all_goals omega

lemma bondsFrom_sum : ∀ (mols : List MoleculeData) (off : ℕ),
    ((bondsFrom mols off).map Prod.snd).sum =
      (mols.map (fun md => ((md.bonds_local.map Prod.snd).sum))).sum
  | [], off => rfl
  | md :: mols, off => by
    rw [bondsFrom]
    simp only [List.map_append, List.sum_append, List.map_map, List.map_cons, List.sum_cons]
    rw [bondsFrom_sum mols (off + md.m.length)]
    rfl

lemma mapM_ok_forall₂ {α β : Type} (f : α → Except ParameterError β) :
    ∀ (l : List α) (ys : List β), l.mapM f = .ok ys →
      List.Forall₂ (fun a b => f a = .ok b) l ys
  | [], ys, h => by
    simp only [List.mapM_nil, pure, Except.pure] at h
    obtain rfl := (Except.ok.inj h).symm
    exact .nil
  | a :: l, ys, h => by
    obtain ⟨y, ys', ha, hl, rfl⟩ := mapM_ok_cons f a l ys h
    exact .cons ha (mapM_ok_forall₂ f l ys' hl)

lemma forall₂_exists_left {α β : Type} {r : α → β → Prop} :
    ∀ {l : List α} {ys : List β}, List.Forall₂ r l ys → ∀ b ∈ ys, ∃ a, r a b := by
  intro l ys h
  induction h with
  | nil => intro b hb; exact absurd hb (by simp)
  | cons hr _ ih =>
    intro b hb
    rcases List.mem_cons.mp hb with rfl | hb
    · exact ⟨_, hr⟩
    · exact ih b hb

/-- Keys of the flattened bond map are ordered, in range, intra-molecular,
and duplicate-free. -/
lemma bondsFrom_inv (segs : List SegmentRecord) : ∀ (mols : List MoleculeData) (c : ℕ),
    (∀ md ∈ mols, ∃ chem, assembleMolecule segs chem = .ok md) →
    (∀ k, k ∈ (bondsFrom mols 0).map Prod.fst →
        k.1 ≤ k.2 ∧ k.1 < (mols.map (fun md => md.m.length)).sum ∧
          k.2 < (mols.map (fun md => md.m.length)).sum ∧
          (compIndexFrom mols c).getD k.1 0 = (compIndexFrom mols c).getD k.2 0) ∧
      ((bondsFrom mols 0).map Prod.fst).Nodup
  | [], c, _ => by simp [bondsFrom]
  | md :: mols, c, hprov => by
    obtain ⟨chem, hchem⟩ := hprov md (List.mem_cons_self md mols)
    have hmd := assembleMolecule_bonds_inv segs chem md hchem
    obtain ⟨ihmem, ihnd⟩ := bondsFrom_inv segs mols (c + 1)
      (fun md' hmd' => hprov md' (List.mem_cons_of_mem _ hmd'))
    have hheadkeys : ((md.bonds_local.map
        (fun kw => ((kw.1.1 + 0, kw.1.2 + 0), kw.2))).map Prod.fst) =
          (md.bonds_local.map Prod.fst).map (fun pr => (pr.1 + 0, pr.2 + 0)) := by
      simp only [List.map_map]
      apply List.map_congr_left
      intro kw _
      rfl
    have htailkeys : ((bondsFrom mols (0 + md.m.length)).map Prod.fst) =
        ((bondsFrom mols 0).map Prod.fst).map
          (fun pr => (pr.1 + (0 + md.m.length), pr.2 + (0 + md.m.length))) := by
      rw [bondsFrom_shift mols (0 + md.m.length)]
      simp only [List.map_map]
      apply List.map_congr_left
      intro kw _
      rfl
    constructor
    · intro k hk
      rw [bondsFrom, List.map_append, List.mem_append] at hk
      rcases hk with hk | hk
      · rw [hheadkeys] at hk
        obtain ⟨pr, hpr, rfl⟩ := List.mem_map.mp hk
        obtain ⟨hle, h1, h2⟩ := hmd.1 pr hpr
        refine ⟨by omega, by simp; omega, by simp; omega, ?_⟩
        rw [show pr.1 + 0 = pr.1 by omega, show pr.2 + 0 = pr.2 by omega,
          compIndexFrom_getD_head md mols c pr.1 h1, compIndexFrom_getD_head md mols c pr.2 h2]
      · rw [htailkeys] at hk
        obtain ⟨pr, hpr, rfl⟩ := List.mem_map.mp hk
        obtain ⟨hle, h1, h2, hci⟩ := ihmem pr hpr
        refine ⟨by omega, by simp; omega, by simp; omega, ?_⟩
        rw [show pr.1 + (0 + md.m.length) = md.m.length + pr.1 by omega,
          show pr.2 + (0 + md.m.length) = md.m.length + pr.2 by omega,
          compIndexFrom_getD_tail, compIndexFrom_getD_tail]
        exact hci
    · rw [bondsFrom, List.map_append]
      refine List.Nodup.append ?_ ?_ ?_
      · rw [hheadkeys]
        exact hmd.2.1.map (fun a b hab => by
          obtain ⟨ha1, ha2⟩ := Prod.mk.injEq .. ▸ hab
          exact Prod.ext (by omega) (by omega))
      · rw [htailkeys]
        exact ihnd.map (fun a b hab => by
          obtain ⟨ha1, ha2⟩ := Prod.mk.injEq .. ▸ hab
          exact Prod.ext (by omega) (by omega))
      · rw [hheadkeys, htailkeys]
        intro a ha hta
        obtain ⟨pr, hpr, rfl⟩ := List.mem_map.mp ha
        obtain ⟨pr', hpr', hpe⟩ := List.mem_map.mp hta
        obtain ⟨hle, h1, h2⟩ := hmd.1 pr hpr
        have : pr'.1 + (0 + md.m.length) = pr.1 + 0 := congrArg Prod.fst hpe
        omega

/-- Weights of the flattened bond map sum to the total input bond count. -/
lemma bondsFrom_total (segs : List SegmentRecord) (chems : List ChemicalRecord)
    (mols : List MoleculeData)
    (h : List.Forall₂ (fun c md => assembleMolecule segs c = .ok md) chems mols) :
    ((bondsFrom mols 0).map Prod.snd).sum = ((chems.map (fun c => (c.bonds.length : ℝ))).sum) := by
  rw [bondsFrom_sum]
  induction h with
  | nil => rfl
  | cons hr _ ih =>
    simp only [List.map_cons, List.sum_cons]
    rw [ih, (assembleMolecule_bonds_inv _ _ _ hr).2.2]

/-- Claim C10: in every assembled EOS parameter set, bond keys are ordered
pairs of occurrences of one molecule, keys are unique (parallel bonds
accumulate weight), and the weights sum to the number of input bonds. -/
theorem C10_bond_map_invariants (chems : List ChemicalRecord) (segs : List SegmentRecord)
    (bins : Option (List BinaryRecord)) (p : GcPcSaftEosParameters)
    (h : GcPcSaftEosParameters.from_segments chems segs bins = .ok p) :
    (∀ k w, ((k, w) ∈ p.bonds) → k.1 ≤ k.2 ∧
        p.component_index.getD k.1 0 = p.component_index.getD k.2 0) ∧
      (p.bonds.map Prod.fst).Nodup ∧
      (p.bonds.map Prod.snd).sum = ((chems.map (fun c => (c.bonds.length : ℝ))).sum) := by
  obtain ⟨mols, hm, rfl⟩ := from_segments_ok_elim chems segs bins p h
  have hf2 := mapM_ok_forall₂ (assembleMolecule segs) chems mols hm
  have hprov : ∀ md ∈ mols, ∃ chem, assembleMolecule segs chem = .ok md :=
    forall₂_exists_left hf2
  obtain ⟨hmem, hnd⟩ := bondsFrom_inv segs mols 0 hprov
  exact ⟨fun k w hkw => by
      obtain ⟨hle, _, _, hci⟩ := hmem k (List.mem_map_of_mem Prod.fst hkw)
      exact ⟨hle, hci⟩,
    hnd, bondsFrom_total segs chems mols hf2⟩

/-- Witness for C10 at a concrete two-molecule assembly with a repeated
bond pair. -/
theorem C10_witness :
    ∃ p, GcPcSaftEosParameters.from_segments fix9Chems fixSegs fixBins = .ok p ∧
      ((∀ k w, ((k, w) ∈ p.bonds) → k.1 ≤ k.2 ∧
          p.component_index.getD k.1 0 = p.component_index.getD k.2 0) ∧
        (p.bonds.map Prod.fst).Nodup ∧
        (p.bonds.map Prod.snd).sum =
          ((fix9Chems.map (fun c => (c.bonds.length : ℝ))).sum)) := by
  obtain ⟨p, hp⟩ :=
    exists_ok_of_isOk (GcPcSaftEosParameters.from_segments fix9Chems fixSegs fixBins) (by decide)
  exact ⟨p, hp, C10_bond_map_invariants fix9Chems fixSegs fixBins p hp⟩

/-! ### Claim C6 -/

/-- Claim C6 (failing-input evaluation): just above the switch threshold
`sqrt(f64::EPSILON) = 2^-26`, at `deltarho = 2^-25` with `na = 1`,
`assoc_site_frac_a` takes its closed-form branch, whose value exceeds 2,
while the series branch value is below 1: the two branches of the
single-site-class fraction differ by more than 1 at the boundary instead of
agreeing to machine precision (the closed form is inconsistent with the
Taylor series the fallback implements). -/
theorem C6_site_frac_a_branch_divergence :
    assoc_site_frac_a ℝ ((2 : ℝ) ^ (-25 : ℤ)) 1 =
        siteFracAClosed ℝ ((2 : ℝ) ^ (-25 : ℤ)) 1 ∧
      2 < siteFracAClosed ℝ ((2 : ℝ) ^ (-25 : ℤ)) 1 ∧
      siteFracASeries ℝ ((2 : ℝ) ^ (-25 : ℤ)) 1 < 1 := by
  have hd : ((2 : ℝ) ^ (-25 : ℤ)) = (33554432 : ℝ)⁻¹ := by
    rw [zpow_neg]
    norm_num
  have hbranch : Real.sqrt f64Epsilon < (2 : ℝ) ^ (-25 : ℤ) := by
    rw [sqrt_f64Epsilon]
    rw [hd, zpow_neg]
    norm_num
  refine ⟨?_, ?_, ?_⟩
  · unfold assoc_site_frac_a
    rw [if_pos (by simpa using hbranch)]
  · have hclosed : siteFracAClosed ℝ ((2 : ℝ) ^ (-25 : ℤ)) 1 =
        Real.sqrt ((((2 : ℝ) ^ (-25 : ℤ)) * 1 * 4 + 1) ^ 2 - 1) *
          (((2 : ℝ) ^ (-25 : ℤ)) * 1 * 2)⁻¹ := rfl
    rw [hclosed, hd]
    have harg : (((33554432 : ℝ)⁻¹) * 1 * 4 + 1) ^ 2 - 1 =
        (8388609 / 8388608 : ℝ) ^ 2 - 1 := by norm_num
    have hco : (((33554432 : ℝ)⁻¹) * 1 * 2)⁻¹ = (16777216 : ℝ) := by norm_num
    rw [harg, hco]
    have hsq : (2 / 16777216 : ℝ) < Real.sqrt ((8388609 / 8388608 : ℝ) ^ 2 - 1) := by
      rw [show ((8388609 / 8388608 : ℝ) ^ 2 - 1) =
        (16777217 / 70368744177664 : ℝ) by norm_num]
      rw [show (2 / 16777216 : ℝ) = Real.sqrt ((2 / 16777216 : ℝ) ^ 2) by
        rw [Real.sqrt_sq (by norm_num)]]
      apply Real.sqrt_lt_sqrt (by positivity)
      norm_num
    nlinarith [hsq]
  · have hser : siteFracASeries ℝ ((2 : ℝ) ^ (-25 : ℤ)) 1 =
        1 + ((2 : ℝ) ^ (-25 : ℤ)) * 1 * (((2 : ℝ) ^ (-25 : ℤ)) * 1 * 2 - 1) := rfl
    rw [hser, hd]
    norm_num

/-! ### Claim C3 -/

/-- If no iterate of the Newton loop reports convergence before the cap,
the loop fails hard with `NotConverged "Cross association"` (for a positive
iteration cap). -/
lemma cross_iterate_diverges (n : ℕ) (delta : Fin n → Fin n → ℝ) (na nb rho : Fin n → ℝ)
    (tol : ℝ) (mi : ℕ) :
    ∀ (j k : ℕ) (x : Fin (2 * n) → ℝ), mi - k = j → k < mi →
      (∀ t, k + t < mi →
        ¬ (newtonGradNorm ℝ n delta na nb rho
          ((fun y => (newton_step_cross_association ℝ n delta na nb rho tol y).1)^[t] x) <
          tol)) →
      cross_association_iterate n delta na nb rho tol mi k x =
        .error (.NotConverged "Cross association") := by
  intro j
  induction j with
  | zero => intro k x hj hk _; omega
  | succ j ih =>
    intro k x hj hk hflags
    have h0 : (newton_step_cross_association ℝ n delta na nb rho tol x).2 = false :=
      decide_eq_false (by simpa using hflags 0 (by omega))
    rw [cross_association_iterate]
    rw [dif_pos hk]
    simp only [h0, Bool.false_eq_true, if_false]
    by_cases hk1 : k = mi - 1
    · rw [if_pos hk1]
    · rw [if_neg hk1]
      apply ih (k + 1) _ (by omega) (by omega)
      intro t ht
      have := hflags (t + 1) (by omega)
      rwa [Function.iterate_succ_apply] at this

/-- Claim C3 (amended with `max_iter ≥ 1`): whenever no Newton iterate
converges within the cap, `CrossAssociation::helmholtz_energy` terminates
with `NotConverged` naming "Cross association" and never returns an energy
value. -/
theorem C3_not_converged_is_fatal (D : Type) [CommRing D] [Algebra ℝ D] [Inv D] [DualNumOps D]
    (p : GcPcSaftEosParameters) (st : StateHD D) (max_iter : ℕ) (tol : ℝ)
    (hmi : 1 ≤ max_iter)
    (hdiv : ∀ t, t < max_iter →
      ¬ (newtonGradNorm ℝ p.assoc_segment.length
        (fun i j => DualNumOps.re (crossDeltaM D p st i j)) (naV p) (nbV p)
        (fun i => DualNumOps.re (crossRhoV D p st i))
        ((fun y => (newton_step_cross_association ℝ p.assoc_segment.length
          (fun i j => DualNumOps.re (crossDeltaM D p st i j)) (naV p) (nbV p)
          (fun i => DualNumOps.re (crossRhoV D p st i)) tol y).1)^[t]
          (fun _ => (0.2 : ℝ))) < tol)) :
    CrossAssociation.helmholtz_energy D p max_iter tol st =
      .error (.NotConverged "Cross association") := by
  have hloop := cross_iterate_diverges p.assoc_segment.length
    (fun i j => DualNumOps.re (crossDeltaM D p st i j)) (naV p) (nbV p)
    (fun i => DualNumOps.re (crossRhoV D p st i)) tol max_iter (max_iter - 0) 0
    (fun _ => (0.2 : ℝ)) rfl (by omega) (fun t ht => hdiv t (by omega))
  unfold CrossAssociation.helmholtz_energy
  rw [hloop]
  rfl

/-- Counterexample for C3 as stated: with `max_iter = 0` the Newton loop is
skipped entirely (the non-convergence premise is vacuous for zero steps) and
an energy computed from the unconverged initial guess is silently returned. -/
theorem C3_counterexample :
    (∀ t, t < 0 →
      ¬ (newtonGradNorm ℝ (1 : ℕ)
        (fun _ _ => (0 : ℝ)) (fun _ => 1) (fun _ => 1) (fun _ => 1)
        ((fun y => (newton_step_cross_association ℝ (1 : ℕ)
          (fun _ _ => (0 : ℝ)) (fun _ => 1) (fun _ => 1) (fun _ => 1) (1e-10) y).1)^[t]
          (fun _ => (0.2 : ℝ))) < 1e-10)) ∧
    ∃ e : ℝ,
      CrossAssociation.helmholtz_energy ℝ
        ⟨[1], [0], [5], [1], [3], [250], [], [0], [0.01], [2500], [1], [1], [], [], none⟩
        0 (1e-10) ⟨1, 1, [1]⟩ = .ok e := by
  refine ⟨fun t ht => absurd ht (by omega), ?_⟩
  have h : CrossAssociation.helmholtz_energy ℝ
      ⟨[1], [0], [5], [1], [3], [250], [], [0], [0.01], [2500], [1], [1], [], [], none⟩
      0 (1e-10) ⟨1, 1, [1]⟩ = .ok (crossEnergyFromX ℝ
        ⟨[1], [0], [5], [1], [3], [250], [], [0], [0.01], [2500], [1], [1], [], [], none⟩
        ⟨1, 1, [1]⟩ (1e-10) (fun _ => (0.2 : ℝ))) := by
    unfold CrossAssociation.helmholtz_energy
    rw [cross_association_iterate]
    rw [dif_neg (by omega)]
    rfl
  exact ⟨_, h⟩


lemma getD_single_zero : ∀ k : ℕ, ([(0 : ℝ)]).getD k 0 = 0 := by
  intro k
  cases k with
  | zero => rfl
  | succ k => cases k <;> rfl

/-- With vanishing association strength, the gradient norm at the constant
initial guess 0.2 of a one-occurrence system is `sqrt 32`. -/
lemma newtonGradNorm_const_guess (delta : Fin 1 → Fin 1 → ℝ) (na nb rho : Fin 1 → ℝ)
    (hdelta : ∀ i j, delta i j = 0) :
    newtonGradNorm ℝ 1 delta na nb rho (fun _ => (0.2 : ℝ)) = Real.sqrt 32 := by
  unfold newtonGradNorm
  congr 1
  have hG : ∀ i, newtonG ℝ 1 delta na nb rho (fun _ => (0.2 : ℝ)) i = 4 := by
    intro i
    unfold newtonG newtonDnxa newtonDnxb
    cases hsi : splitIdx 1 i with
    | inl i0 =>
      simp only [hsi, Fin.sum_univ_one, hdelta]
      norm_num
    | inr i0 =>
      simp only [hsi, Fin.sum_univ_one, hdelta]
      norm_num
  simp only [hG, re_real]
  rw [Finset.sum_const, Finset.card_univ, Fintype.card_fin]
  norm_num

/-- Witness for C3: a one-occurrence system with vanishing association
strength (`kappa_ab = 0`), iteration cap 1 and tolerance `1e-10`: the
gradient norm at the initial guess is `sqrt 32`, the tolerance is never met,
and the energy evaluation fails with `NotConverged "Cross association"`. -/
theorem C3_witness :
    CrossAssociation.helmholtz_energy ℝ
        ⟨[1], [0], [5], [1], [3], [250], [], [0], [0], [2500], [1], [1], [], [], none⟩
        1 (1e-10) ⟨1, 1, [1]⟩ = .error (.NotConverged "Cross association") := by
  apply C3_not_converged_is_fatal ℝ
    ⟨[1], [0], [5], [1], [3], [250], [], [0], [0], [2500], [1], [1], [], [], none⟩
    ⟨1, 1, [1]⟩ 1 (1e-10) (by omega)
  intro t ht
  obtain rfl : t = 0 := by omega
  simp only [Function.iterate_zero, id_eq]
  have hdelta : ∀ i j,
      DualNumOps.re (crossDeltaM ℝ
        ⟨[1], [0], [5], [1], [3], [250], [], [0], [0], [2500], [1], [1], [], [], none⟩
        ⟨1, 1, [1]⟩ i j) = 0 := by
    intro i j
    unfold crossDeltaM association_strength
    have hsk : GcPcSaftEosParameters.sigma3_kappa_aibj
        ⟨[1], [0], [5], [1], [3], [250], [], [0], [0], [2500], [1], [1], [], [], none⟩
        i.val j.val = 0 := by
      unfold GcPcSaftEosParameters.sigma3_kappa_aibj
      rw [getD_single_zero, getD_single_zero]
      simp
    rw [hsk]
    simp [aR]
  have hA := newtonGradNorm_const_guess
    (fun i j => DualNumOps.re (crossDeltaM ℝ
      ⟨[1], [0], [5], [1], [3], [250], [], [0], [0], [2500], [1], [1], [], [], none⟩
      ⟨1, 1, [1]⟩ i j))
    (naV ⟨[1], [0], [5], [1], [3], [250], [], [0], [0], [2500], [1], [1], [], [], none⟩)
    (nbV ⟨[1], [0], [5], [1], [3], [250], [], [0], [0], [2500], [1], [1], [], [], none⟩)
    (fun i => DualNumOps.re (crossRhoV ℝ
      ⟨[1], [0], [5], [1], [3], [250], [], [0], [0], [2500], [1], [1], [], [], none⟩
      ⟨1, 1, [1]⟩ i))
    hdelta
  intro hlt
  have hlt' : Real.sqrt 32 < 1e-10 := by
    rw [← hA]
    exact hlt
  have h1 : (1 : ℝ) ≤ Real.sqrt 32 := by
    rw [show (1 : ℝ) = Real.sqrt 1 by rw [Real.sqrt_one]]
    exact Real.sqrt_le_sqrt (by norm_num)
  norm_num at hlt'
  linarith

/-! ### Ring-homomorphism commutation for the Newton step -/

lemma dual_isUnit_iff (d : DualNumber ℝ) : IsUnit d ↔ d.fst ≠ 0 := by
  rw [TrivSqZeroExt.isUnit_iff_isUnit_fst, isUnit_iff_ne_zero]

lemma dual_ringInverse (d : DualNumber ℝ) : Ring.inverse d = d⁻¹ := by
  by_cases h : d.fst = 0
  · rw [Ring.inverse_non_unit _ (by rw [dual_isUnit_iff]; exact not_not_intro h)]
    apply TrivSqZeroExt.ext
    · rw [TrivSqZeroExt.fst_inv, h]
      simp
    · rw [TrivSqZeroExt.snd_inv, h]
      simp
  · obtain ⟨u, rfl⟩ := (dual_isUnit_iff _).2 h
    rw [Ring.inverse_unit]
    calc (↑u⁻¹ : DualNumber ℝ) = ↑u⁻¹ * ((u : DualNumber ℝ) * (↑u : DualNumber ℝ)⁻¹) := by
          rw [TrivSqZeroExt.mul_inv_cancel h, mul_one]
      _ = (↑u⁻¹ * (u : DualNumber ℝ)) * (↑u : DualNumber ℝ)⁻¹ := by rw [mul_assoc]
      _ = (↑u : DualNumber ℝ)⁻¹ := by rw [u.inv_mul, one_mul]

lemma dual_fst_ringInverse (d : DualNumber ℝ) :
    (Ring.inverse d).fst = Ring.inverse d.fst := by
  rw [dual_ringInverse, TrivSqZeroExt.fst_inv, Ring.inverse_eq_inv]

lemma dual_inl_ringInverse (r : ℝ) :
    (Ring.inverse (TrivSqZeroExt.inl r : DualNumber ℝ)) = TrivSqZeroExt.inl (Ring.inverse r) := by
  rw [dual_ringInverse, TrivSqZeroExt.inv_inl, Ring.inverse_eq_inv]

/-- A ring homomorphism commuting with `Ring.inverse` commutes with the
matrix inverse. -/
lemma mapMatrix_inv {ι : Type} [Fintype ι] [DecidableEq ι] {R S : Type} [CommRing R] [CommRing S]
    (f : R →+* S) (hf : ∀ a, f (Ring.inverse a) = Ring.inverse (f a)) (M : Matrix ι ι R) :
    f.mapMatrix M⁻¹ = (f.mapMatrix M)⁻¹ := by
  rw [Matrix.inv_def, Matrix.inv_def, ← f.map_adjugate, ← f.map_det]
  ext i j
  simp [Matrix.smul_apply, RingHom.mapMatrix_apply, Matrix.map_apply, smul_eq_mul, hf]

lemma hom_newtonDnxa {D1 D2 : Type} [CommRing D1] [Algebra ℝ D1] [Inv D1] [DualNumOps D1]
    [CommRing D2] [Algebra ℝ D2] [Inv D2] [DualNumOps D2] (f : D1 →+* D2)
    (hfa : ∀ c : ℝ, f (aR D1 c) = aR D2 c) (n : ℕ) (delta : Fin n → Fin n → D1)
    (nb : Fin n → ℝ) (rho : Fin n → D1) (x : Fin (2 * n) → D1) (i : Fin n) :
    f (newtonDnxa D1 n delta nb rho x i) =
      newtonDnxa D2 n (fun i j => f (delta i j)) nb (fun i => f (rho i))
        (fun i => f (x i)) i := by
  unfold newtonDnxa
  rw [map_add, map_sum, map_one]
  congr 1
  apply Finset.sum_congr rfl
  intro j _
  rw [map_mul, map_mul, map_mul, hfa]

lemma hom_newtonDnxb {D1 D2 : Type} [CommRing D1] [Algebra ℝ D1] [Inv D1] [DualNumOps D1]
    [CommRing D2] [Algebra ℝ D2] [Inv D2] [DualNumOps D2] (f : D1 →+* D2)
    (hfa : ∀ c : ℝ, f (aR D1 c) = aR D2 c) (n : ℕ) (delta : Fin n → Fin n → D1)
    (na : Fin n → ℝ) (rho : Fin n → D1) (x : Fin (2 * n) → D1) (i : Fin n) :
    f (newtonDnxb D1 n delta na rho x i) =
      newtonDnxb D2 n (fun i j => f (delta i j)) na (fun i => f (rho i))
        (fun i => f (x i)) i := by
  unfold newtonDnxb
  rw [map_add, map_sum, map_one]
  congr 1
  apply Finset.sum_congr rfl
  intro j _
  rw [map_mul, map_mul, map_mul, hfa]

lemma hom_newtonG {D1 D2 : Type} [CommRing D1] [Algebra ℝ D1] [Inv D1] [DualNumOps D1]
    [CommRing D2] [Algebra ℝ D2] [Inv D2] [DualNumOps D2] (f : D1 →+* D2)
    (hfa : ∀ c : ℝ, f (aR D1 c) = aR D2 c) (hfi : ∀ d, f d⁻¹ = (f d)⁻¹) (n : ℕ)
    (delta : Fin n → Fin n → D1) (na nb : Fin n → ℝ) (rho : Fin n → D1)
    (x : Fin (2 * n) → D1) (i : Fin (2 * n)) :
    f (newtonG D1 n delta na nb rho x i) =
      newtonG D2 n (fun i j => f (delta i j)) na nb (fun i => f (rho i))
        (fun i => f (x i)) i := by
  unfold newtonG
  cases hsi : splitIdx n i with
  | inl i0 => rw [map_sub, hfi, hom_newtonDnxa f hfa]
  | inr i0 => rw [map_sub, hfi, hom_newtonDnxb f hfa]

lemma hom_newtonH {D1 D2 : Type} [CommRing D1] [Algebra ℝ D1] [Inv D1] [DualNumOps D1]
    [CommRing D2] [Algebra ℝ D2] [Inv D2] [DualNumOps D2] (f : D1 →+* D2)
    (hfa : ∀ c : ℝ, f (aR D1 c) = aR D2 c) (hfi : ∀ d, f d⁻¹ = (f d)⁻¹) (n : ℕ)
    (delta : Fin n → Fin n → D1) (na nb : Fin n → ℝ) (rho : Fin n → D1)
    (x : Fin (2 * n) → D1) :
    f.mapMatrix (newtonH D1 n delta na nb rho x) =
      newtonH D2 n (fun i j => f (delta i j)) na nb (fun i => f (rho i))
        (fun i => f (x i)) := by
  ext i j
  rw [RingHom.mapMatrix_apply, Matrix.map_apply]
  unfold newtonH
  cases hsi : splitIdx n i with
  | inl i0 =>
    cases hsj : splitIdx n j with
    | inl j0 =>
      simp only [Matrix.of_apply, hsi, hsj]
      by_cases hij : i0 = j0
      · rw [if_pos hij, if_pos hij, map_mul, map_neg, hfi, hom_newtonDnxa f hfa]
      · rw [if_neg hij, if_neg hij, map_zero]
    | inr j0 =>
      simp only [Matrix.of_apply, hsi, hsj]
      rw [map_mul, map_mul, hfa]
  | inr i0 =>
    cases hsj : splitIdx n j with
    | inl j0 =>
      simp only [Matrix.of_apply, hsi, hsj]
      rw [map_mul, map_mul, hfa]
    | inr j0 =>
      simp only [Matrix.of_apply, hsi, hsj]
      by_cases hij : i0 = j0
      · rw [if_pos hij, if_pos hij, map_mul, map_neg, hfi, hom_newtonDnxb f hfa]
      · rw [if_neg hij, if_neg hij, map_zero]

/-- The Newton update commutes with every ring homomorphism that commutes
with the scalar injection, the reciprocal and `Ring.inverse`. -/
lemma hom_newton_step {D1 D2 : Type} [CommRing D1] [Algebra ℝ D1] [Inv D1] [DualNumOps D1]
    [CommRing D2] [Algebra ℝ D2] [Inv D2] [DualNumOps D2] (f : D1 →+* D2)
    (hfa : ∀ c : ℝ, f (aR D1 c) = aR D2 c) (hfi : ∀ d, f d⁻¹ = (f d)⁻¹)
    (hfr : ∀ d, f (Ring.inverse d) = Ring.inverse (f d)) (n : ℕ)
    (delta : Fin n → Fin n → D1) (na nb : Fin n → ℝ) (rho : Fin n → D1) (tol tol' : ℝ)
    (x : Fin (2 * n) → D1) (i : Fin (2 * n)) :
    f ((newton_step_cross_association D1 n delta na nb rho tol x).1 i) =
      (newton_step_cross_association D2 n (fun i j => f (delta i j)) na nb
        (fun i => f (rho i)) tol' (fun i => f (x i))).1 i := by
  unfold newton_step_cross_association
  simp only
  rw [map_sub]
  congr 1
  unfold Matrix.mulVec Matrix.dotProduct
  rw [map_sum]
  apply Finset.sum_congr rfl
  intro j _
  rw [map_mul, hom_newtonG f hfa hfi]
  congr 1
  have hm : f.mapMatrix (newtonH D1 n delta na nb rho x)⁻¹ =
      (newtonH D2 n (fun i j => f (delta i j)) na nb (fun i => f (rho i))
        (fun i => f (x i)))⁻¹ := by
    rw [mapMatrix_inv f hfr, hom_newtonH f hfa hfi]
  calc f ((newtonH D1 n delta na nb rho x)⁻¹ i j) =
      (f.mapMatrix (newtonH D1 n delta na nb rho x)⁻¹) i j := rfl
    _ = (newtonH D2 n (fun i j => f (delta i j)) na nb (fun i => f (rho i))
        (fun i => f (x i)))⁻¹ i j := by rw [hm]

@[simp] lemma fstRingHom_apply (d : DualNumber ℝ) : fstRingHom d = d.fst := rfl

@[simp] lemma inlRingHom_apply (r : ℝ) : inlRingHom r = TrivSqZeroExt.inl r := rfl

/-- Real parts of the dual Newton iterates from a lifted start agree with
the real Newton iterates. -/
lemma fst_newton_iterate (n : ℕ) (delta : Fin n → Fin n → DualNumber ℝ) (na nb : Fin n → ℝ)
    (rho : Fin n → DualNumber ℝ) (tol : ℝ) (x : Fin (2 * n) → ℝ) (k : ℕ) :
    (fun i => (((fun y =>
        (newton_step_cross_association (DualNumber ℝ) n delta na nb rho tol y).1)^[k]
        (fun i => TrivSqZeroExt.inl (x i))) i).fst) =
      (fun y => (newton_step_cross_association ℝ n (fun i j => (delta i j).fst) na nb
        (fun i => (rho i).fst) tol y).1)^[k] x := by
  induction k with
  | zero =>
    funext i
    simp [TrivSqZeroExt.fst_inl]
  | succ k ih =>
    funext i
    rw [Function.iterate_succ_apply', Function.iterate_succ_apply']
    have hc := hom_newton_step fstRingHom (fun c => by simp [aR, TrivSqZeroExt.algebraMap_eq_inl])
      (fun d => TrivSqZeroExt.fst_inv d) (fun d => dual_fst_ringInverse d) n delta na nb rho
      tol tol
      ((fun y => (newton_step_cross_association (DualNumber ℝ) n delta na nb rho tol y).1)^[k]
        (fun i => TrivSqZeroExt.inl (x i))) i
    simp only [fstRingHom_apply] at hc
    rw [hc, ih]

/-- Dual Newton iterates of real-lifted data are real-lifted: no derivative
components appear unless the inputs carry them. -/
lemma inl_newton_iterate (n : ℕ) (dR : Fin n → Fin n → ℝ) (na nb : Fin n → ℝ)
    (rR : Fin n → ℝ) (tol : ℝ) (x : Fin (2 * n) → ℝ) (k : ℕ) :
    ((fun y => (newton_step_cross_association (DualNumber ℝ) n
        (fun i j => TrivSqZeroExt.inl (dR i j)) na nb (fun i => TrivSqZeroExt.inl (rR i))
        tol y).1)^[k] (fun i => TrivSqZeroExt.inl (x i))) =
      fun i => TrivSqZeroExt.inl
        (((fun y => (newton_step_cross_association ℝ n dR na nb rR tol y).1)^[k] x) i) := by
  induction k with
  | zero => rfl
  | succ k ih =>
    funext i
    rw [Function.iterate_succ_apply', Function.iterate_succ_apply', ih]
    have hc := hom_newton_step inlRingHom
      (fun c => by simp [aR, TrivSqZeroExt.algebraMap_eq_inl])
      (fun d => (TrivSqZeroExt.inv_inl d).symm) (fun d => (dual_inl_ringInverse d).symm) n dR
      na nb rR tol tol
      ((fun y => (newton_step_cross_association ℝ n dR na nb rR tol y).1)^[k] x) i
    simp only [inlRingHom_apply] at hc
    exact hc.symm

/-- Claim C4: in `CrossAssociation::helmholtz_energy`, once the Newton
iteration converges in plain real arithmetic to `x`, the site fractions
used for the energy are obtained by lifting `x` into the derivative-carrying
type and applying the identical Newton step exactly `D::NDERIV` more times
(0 for reals, 1 for first-derivative duals); the real parts of those extra
iterates are just further real Newton steps, and when the inputs carry no
derivative components neither do any of the iterates — so derivative
information enters the site fractions only through this recovery pass. -/
theorem C4_derivative_recovery (n : ℕ) (delta : Fin n → Fin n → DualNumber ℝ)
    (na nb : Fin n → ℝ) (rho : Fin n → DualNumber ℝ) (tol : ℝ) (max_iter : ℕ)
    (x : Fin (2 * n) → ℝ)
    (h : cross_association_iterate n (fun i j => (delta i j).fst) na nb
      (fun i => (rho i).fst) tol max_iter 0 (fun _ => (0.2 : ℝ)) = .ok x) :
    (crossSiteFractions (DualNumber ℝ) n delta na nb rho tol max_iter =
      .ok ((fun y =>
        (newton_step_cross_association (DualNumber ℝ) n delta na nb rho tol y).1)^[1]
        (fun i => TrivSqZeroExt.inl (x i)))) ∧
    (nderivOf ℝ = 0 ∧ nderivOf (DualNumber ℝ) = 1) ∧
    (∀ k : ℕ, (fun i => (((fun y =>
        (newton_step_cross_association (DualNumber ℝ) n delta na nb rho tol y).1)^[k]
        (fun i => TrivSqZeroExt.inl (x i))) i).fst) =
      (fun y => (newton_step_cross_association ℝ n (fun i j => (delta i j).fst) na nb
        (fun i => (rho i).fst) tol y).1)^[k] x) ∧
    (∀ (dR : Fin n → Fin n → ℝ) (rR : Fin n → ℝ) (xR : Fin (2 * n) → ℝ) (k : ℕ),
      ((fun y => (newton_step_cross_association (DualNumber ℝ) n
          (fun i j => TrivSqZeroExt.inl (dR i j)) na nb (fun i => TrivSqZeroExt.inl (rR i))
          tol y).1)^[k] (fun i => TrivSqZeroExt.inl (xR i))) =
        fun i => TrivSqZeroExt.inl
          (((fun y => (newton_step_cross_association ℝ n dR na nb rR tol y).1)^[k] xR) i)) := by
  refine ⟨?_, ⟨rfl, rfl⟩, fun k => fst_newton_iterate n delta na nb rho tol x k,
    fun dR rR xR k => inl_newton_iterate n dR na nb rR tol xR k⟩
  have h' : cross_association_iterate n (fun i j => DualNumOps.re (delta i j)) na nb
      (fun i => DualNumOps.re (rho i)) tol max_iter 0 (fun _ => (0.2 : ℝ)) = .ok x := h
  simp only [crossSiteFractions]
  rw [h']
  show Except.ok (crossXd (DualNumber ℝ) n delta na nb rho tol x) = _
  simp [crossXd, nderivOf_dual, TrivSqZeroExt.algebraMap_eq_inl]

theorem C4_witness :
    ∃ x : Fin (2 * 1) → ℝ,
      cross_association_iterate 1 (fun _ _ => (0 : ℝ)) (fun _ => 1) (fun _ => 1) (fun _ => 1) 100 50 0
        (fun _ => (0.2 : ℝ)) = .ok x ∧
      crossSiteFractions (DualNumber ℝ) 1 (fun _ _ => 0) (fun _ => 1) (fun _ => 1) (fun _ => 1) 100 50 =
        .ok ((fun y => (newton_step_cross_association (DualNumber ℝ) 1 (fun _ _ => 0)
          (fun _ => 1) (fun _ => 1) (fun _ => 1) 100 y).1)^[1] (fun i => TrivSqZeroExt.inl (x i))) := by
  have hflag : (newton_step_cross_association ℝ 1 (fun _ _ => (0 : ℝ)) (fun _ => 1)
      (fun _ => 1) (fun _ => 1) 100 (fun _ => (0.2 : ℝ))).2 = true := by
    show decide (newtonGradNorm ℝ 1 (fun _ _ => (0 : ℝ)) (fun _ => 1) (fun _ => 1)
      (fun _ => 1) (fun _ => (0.2 : ℝ)) < 100) = true
    rw [newtonGradNorm_const_guess (fun _ _ => (0 : ℝ)) (fun _ => 1) (fun _ => 1) (fun _ => 1)
      (fun i j => rfl)]
    exact decide_eq_true ((Real.sqrt_lt' (by norm_num)).mpr (by norm_num))
  have hloop : cross_association_iterate 1 (fun _ _ => (0 : ℝ)) (fun _ => 1) (fun _ => 1) (fun _ => 1)
      100 50 0 (fun _ => (0.2 : ℝ)) =
      .ok (newton_step_cross_association ℝ 1 (fun _ _ => (0 : ℝ)) (fun _ => 1) (fun _ => 1)
        (fun _ => 1) 100 (fun _ => (0.2 : ℝ))).1 := by
    rw [cross_association_iterate]
    rw [dif_pos (by norm_num : (0 : ℕ) < 50)]
    simp only [hflag, if_true]
  refine ⟨(newton_step_cross_association ℝ 1 (fun _ _ => (0 : ℝ)) (fun _ => 1) (fun _ => 1) (fun _ => 1)
    100 (fun _ => (0.2 : ℝ))).1, hloop, ?_⟩
  exact (C4_derivative_recovery 1 (fun _ _ => 0) (fun _ => 1) (fun _ => 1) (fun _ => 1)
    100 50 _ hloop).1

/-! ### Dual-number arithmetic helpers -/

lemma dual_snd_inv (x : DualNumber ℝ) : x⁻¹.snd = -(x.snd / x.fst ^ 2) := by
  rw [TrivSqZeroExt.snd_inv, op_smul_eq_smul, smul_smul, smul_eq_mul]
  rw [sq, div_eq_mul_inv, mul_inv]
  ring

lemma dual_snd_mul (a b : DualNumber ℝ) :
    (a * b).snd = a.fst * b.snd + b.fst * a.snd := by
  rw [TrivSqZeroExt.snd_mul, op_smul_eq_smul, smul_eq_mul, smul_eq_mul]

lemma dual_inv_one : (1 : DualNumber ℝ)⁻¹ = 1 := by
  apply TrivSqZeroExt.ext
  · rw [TrivSqZeroExt.fst_inv, TrivSqZeroExt.fst_one, inv_one]
  · rw [dual_snd_inv, TrivSqZeroExt.snd_one]
    simp

lemma dual_eq_of_mul_eq_zero (u v : DualNumber ℝ) (hu : u.fst = 0) (hv : v.fst ≠ 0)
    (h : u * v = 0) : u = 0 := by
  apply TrivSqZeroExt.ext
  · rw [hu, TrivSqZeroExt.fst_zero]
  · have hs := congrArg TrivSqZeroExt.snd h
    rw [dual_snd_mul, hu, TrivSqZeroExt.snd_zero, zero_mul, zero_add] at hs
    rcases mul_eq_zero.mp hs with h1 | h1
    · exact absurd h1 hv
    · rw [h1, TrivSqZeroExt.snd_zero]

lemma dual_sqrtD_sq (d : DualNumber ℝ) (h : 0 < d.fst) :
    DualNumOps.sqrtD d * DualNumOps.sqrtD d = d := by
  apply TrivSqZeroExt.ext
  · rw [TrivSqZeroExt.fst_mul, fst_sqrtD, Real.mul_self_sqrt h.le]
  · rw [dual_snd_mul, fst_sqrtD, snd_sqrtD]
    have hs : Real.sqrt d.fst ≠ 0 := ne_of_gt (Real.sqrt_pos.mpr h)
    field_simp
    ring

/-! ### The Michelsen system at a single association occurrence -/

lemma sum_univ_two_mul_one {D : Type} [AddCommMonoid D] (f : Fin (2 * 1) → D) :
    ∑ i, f i = f 0 + f 1 :=
  Fin.sum_univ_two f

lemma newtonG_one_zero (D : Type) [CommRing D] [Algebra ℝ D] [Inv D] [DualNumOps D]
    (delta : Fin 1 → Fin 1 → D) (na nb : Fin 1 → ℝ) (rho : Fin 1 → D)
    (x : Fin (2 * 1) → D) :
    newtonG D 1 delta na nb rho x 0 =
      (x 0)⁻¹ - (x 1 * aR D (nb 0) * (delta 0 0 * rho 0) + 1) := by
  have h : splitIdx 1 (0 : Fin (2 * 1)) = Sum.inl 0 := rfl
  simp only [newtonG, h, newtonDnxa, Fin.sum_univ_one]
  rfl

lemma newtonG_one_one (D : Type) [CommRing D] [Algebra ℝ D] [Inv D] [DualNumOps D]
    (delta : Fin 1 → Fin 1 → D) (na nb : Fin 1 → ℝ) (rho : Fin 1 → D)
    (x : Fin (2 * 1) → D) :
    newtonG D 1 delta na nb rho x 1 =
      (x 1)⁻¹ - (x 0 * aR D (na 0) * (delta 0 0 * rho 0) + 1) := by
  have h : splitIdx 1 (1 : Fin (2 * 1)) = Sum.inr 0 := rfl
  simp only [newtonG, h, newtonDnxb, Fin.sum_univ_one]
  rfl

lemma newtonH_one_00 (D : Type) [CommRing D] [Algebra ℝ D] [Inv D] [DualNumOps D]
    (delta : Fin 1 → Fin 1 → D) (na nb : Fin 1 → ℝ) (rho : Fin 1 → D)
    (x : Fin (2 * 1) → D) :
    newtonH D 1 delta na nb rho x 0 0 =
      -(x 1 * aR D (nb 0) * (delta 0 0 * rho 0) + 1) * (x 0)⁻¹ := by
  have h : splitIdx 1 (0 : Fin (2 * 1)) = Sum.inl 0 := rfl
  simp only [newtonH, Matrix.of_apply, h, newtonDnxa, Fin.sum_univ_one, if_pos rfl]
  rfl

lemma newtonH_one_01 (D : Type) [CommRing D] [Algebra ℝ D] [Inv D] [DualNumOps D]
    (delta : Fin 1 → Fin 1 → D) (na nb : Fin 1 → ℝ) (rho : Fin 1 → D)
    (x : Fin (2 * 1) → D) :
    newtonH D 1 delta na nb rho x 0 1 = delta 0 0 * rho 0 * aR D (-nb 0) := by
  have h0 : splitIdx 1 (0 : Fin (2 * 1)) = Sum.inl 0 := rfl
  have h1 : splitIdx 1 (1 : Fin (2 * 1)) = Sum.inr 0 := rfl
  simp only [newtonH, Matrix.of_apply, h0, h1]

lemma newtonH_one_10 (D : Type) [CommRing D] [Algebra ℝ D] [Inv D] [DualNumOps D]
    (delta : Fin 1 → Fin 1 → D) (na nb : Fin 1 → ℝ) (rho : Fin 1 → D)
    (x : Fin (2 * 1) → D) :
    newtonH D 1 delta na nb rho x 1 0 = delta 0 0 * rho 0 * aR D (-na 0) := by
  have h0 : splitIdx 1 (0 : Fin (2 * 1)) = Sum.inl 0 := rfl
  have h1 : splitIdx 1 (1 : Fin (2 * 1)) = Sum.inr 0 := rfl
  simp only [newtonH, Matrix.of_apply, h0, h1]

lemma newtonH_one_11 (D : Type) [CommRing D] [Algebra ℝ D] [Inv D] [DualNumOps D]
    (delta : Fin 1 → Fin 1 → D) (na nb : Fin 1 → ℝ) (rho : Fin 1 → D)
    (x : Fin (2 * 1) → D) :
    newtonH D 1 delta na nb rho x 1 1 =
      -(x 0 * aR D (na 0) * (delta 0 0 * rho 0) + 1) * (x 1)⁻¹ := by
  have h : splitIdx 1 (1 : Fin (2 * 1)) = Sum.inr 0 := rfl
  simp only [newtonH, Matrix.of_apply, h, newtonDnxb, Fin.sum_univ_one, if_pos rfl]
  rfl

lemma mulVec_two_mul_one {D : Type} [CommRing D] (M : Matrix (Fin (2 * 1)) (Fin (2 * 1)) D)
    (v : Fin (2 * 1) → D) (i : Fin (2 * 1)) :
    M.mulVec v i = M i 0 * v 0 + M i 1 * v 1 := by
  rw [Matrix.mulVec, Matrix.dotProduct]
  exact sum_univ_two_mul_one (fun j => M i j * v j)

set_option maxHeartbeats 2000000 in
/-- At an exact positive real fixed point of the Michelsen system with one
association occurrence, the dual Newton recovery step lands exactly on the
closed-form site fractions of `Association::helmholtz_energy`. -/
lemma cross_dual_fixed_point (d r : DualNumber ℝ) (na nb tol : ℝ)
    (x : Fin (2 * 1) → ℝ)
    (hna : 0 < na) (hnb : 0 < nb) (hx0 : 0 < x 0) (hx1 : 0 < x 1)
    (hG : ∀ i, newtonG ℝ 1 (fun _ _ => d.fst) (fun _ => na) (fun _ => nb)
      (fun _ => r.fst) x i = 0)
    (hδ : 0 < d.fst * r.fst) :
    (newton_step_cross_association (DualNumber ℝ) 1 (fun _ _ => d) (fun _ => na)
        (fun _ => nb) (fun _ => r) tol (fun i => TrivSqZeroExt.inl (x i))).1 =
      fun i => if i.val = 0 then siteFracAbClosed (DualNumber ℝ) (d * r) na nb
        else (siteFracAbClosed (DualNumber ℝ) (d * r) na nb - 1) *
          aR (DualNumber ℝ) (na / nb) + 1 := by
  have hx0n : x 0 ≠ 0 := ne_of_gt hx0
  have hx1n : x 1 ≠ 0 := ne_of_gt hx1
  have hnan : na ≠ 0 := ne_of_gt hna
  have hnbn : nb ≠ 0 := ne_of_gt hnb
  have hg0 : (x 0)⁻¹ = x 1 * nb * (d.fst * r.fst) + 1 := by
    have h := hG 0
    rw [newtonG_one_zero] at h
    simp only [aR_real] at h
    exact sub_eq_zero.mp h
  have hg1 : (x 1)⁻¹ = x 0 * na * (d.fst * r.fst) + 1 := by
    have h := hG 1
    rw [newtonG_one_one] at h
    simp only [aR_real] at h
    exact sub_eq_zero.mp h
  set X : Fin (2 * 1) → DualNumber ℝ := fun i => TrivSqZeroExt.inl (x i) with hX
  set g : Fin (2 * 1) → DualNumber ℝ :=
    newtonG (DualNumber ℝ) 1 (fun _ _ => d) (fun _ => na) (fun _ => nb) (fun _ => r) X with hg
  set H : Matrix (Fin (2 * 1)) (Fin (2 * 1)) (DualNumber ℝ) :=
    newtonH (DualNumber ℝ) 1 (fun _ _ => d) (fun _ => na) (fun _ => nb) (fun _ => r) X with hH
  set w : Fin (2 * 1) → DualNumber ℝ := H⁻¹.mulVec g with hw
  have hXf : ∀ i, (X i).fst = x i := fun i => TrivSqZeroExt.fst_inl ℝ (x i)
  have hXs : ∀ i, (X i).snd = 0 := fun i => TrivSqZeroExt.snd_inl ℝ (x i)
  have hgc0 : g 0 = (X 0)⁻¹ - (X 1 * aR (DualNumber ℝ) nb * (d * r) + 1) :=
    newtonG_one_zero (DualNumber ℝ) (fun _ _ => d) (fun _ => na) (fun _ => nb) (fun _ => r) X
  have hgc1 : g 1 = (X 1)⁻¹ - (X 0 * aR (DualNumber ℝ) na * (d * r) + 1) :=
    newtonG_one_one (DualNumber ℝ) (fun _ _ => d) (fun _ => na) (fun _ => nb) (fun _ => r) X
  have hgf0 : (g 0).fst = 0 := by
    rw [hgc0]
    simp only [TrivSqZeroExt.fst_sub, TrivSqZeroExt.fst_inv, TrivSqZeroExt.fst_add,
      TrivSqZeroExt.fst_mul, TrivSqZeroExt.fst_one, fst_aR, hXf]
    rw [hg0]
    ring
  have hgf1 : (g 1).fst = 0 := by
    rw [hgc1]
    simp only [TrivSqZeroExt.fst_sub, TrivSqZeroExt.fst_inv, TrivSqZeroExt.fst_add,
      TrivSqZeroExt.fst_mul, TrivSqZeroExt.fst_one, fst_aR, hXf]
    rw [hg1]
    ring
  have hgs0 : (g 0).snd = -(x 1 * nb * (d * r).snd) := by
    rw [hgc0]
    simp only [TrivSqZeroExt.snd_sub, dual_snd_inv, TrivSqZeroExt.snd_add, dual_snd_mul,
      TrivSqZeroExt.fst_mul, TrivSqZeroExt.snd_one, TrivSqZeroExt.fst_one, fst_aR, snd_aR,
      hXf, hXs]
    ring
  have hgs1 : (g 1).snd = -(x 0 * na * (d * r).snd) := by
    rw [hgc1]
    simp only [TrivSqZeroExt.snd_sub, dual_snd_inv, TrivSqZeroExt.snd_add, dual_snd_mul,
      TrivSqZeroExt.fst_mul, TrivSqZeroExt.snd_one, TrivSqZeroExt.fst_one, fst_aR, snd_aR,
      hXf, hXs]
    ring
  have hH00f : (H 0 0).fst = -(x 1 * nb * (d.fst * r.fst) + 1) * (x 0)⁻¹ := by
    rw [hH, newtonH_one_00]
    simp only [TrivSqZeroExt.fst_mul, TrivSqZeroExt.fst_neg, TrivSqZeroExt.fst_add,
      TrivSqZeroExt.fst_inv, TrivSqZeroExt.fst_one, fst_aR, hXf]
  have hH01f : (H 0 1).fst = d.fst * r.fst * (-nb) := by
    rw [hH, newtonH_one_01]
    simp only [TrivSqZeroExt.fst_mul, fst_aR]
  have hH10f : (H 1 0).fst = d.fst * r.fst * (-na) := by
    rw [hH, newtonH_one_10]
    simp only [TrivSqZeroExt.fst_mul, fst_aR]
  have hH11f : (H 1 1).fst = -(x 0 * na * (d.fst * r.fst) + 1) * (x 1)⁻¹ := by
    rw [hH, newtonH_one_11]
    simp only [TrivSqZeroExt.fst_mul, TrivSqZeroExt.fst_neg, TrivSqZeroExt.fst_add,
      TrivSqZeroExt.fst_inv, TrivSqZeroExt.fst_one, fst_aR, hXf]
  have hDform : (H.det).fst = (H 0 0).fst * (H 1 1).fst - (H 0 1).fst * (H 1 0).fst := by
    rw [show (H.det).fst = (fstRingHom.mapMatrix H).det from RingHom.map_det fstRingHom H]
    rw [Matrix.det_fin_two]
    simp only [RingHom.mapMatrix_apply, Matrix.map_apply, fstRingHom_apply]
  have hdpos : 0 < (H.det).fst := by
    rw [hDform, hH00f, hH01f, hH10f, hH11f]
    rw [hg0, hg1]
    have hA : (x 1 * nb * (d.fst * r.fst) + 1) * x 0 = 1 := by
      rw [← hg0]; exact inv_mul_cancel₀ hx0n
    have hB : (x 0 * na * (d.fst * r.fst) + 1) * x 1 = 1 := by
      rw [← hg1]; exact inv_mul_cancel₀ hx1n
    have hApos : 0 < x 1 * nb * (d.fst * r.fst) + 1 := by
      nlinarith [mul_pos (mul_pos hx1 hnb) hδ]
    have hBpos : 0 < x 0 * na * (d.fst * r.fst) + 1 := by
      nlinarith [mul_pos (mul_pos hx0 hna) hδ]
    have hfact : -(x 1 * nb * (d.fst * r.fst) + 1) * (x 1 * nb * (d.fst * r.fst) + 1) *
        (-(x 0 * na * (d.fst * r.fst) + 1) * (x 0 * na * (d.fst * r.fst) + 1)) -
        d.fst * r.fst * (-nb) * (d.fst * r.fst * (-na)) =
        ((x 1 * nb * (d.fst * r.fst) + 1) * (x 0 * na * (d.fst * r.fst) + 1)) *
          (d.fst * r.fst * nb * x 1 + d.fst * r.fst * na * x 0 + 1) +
        (d.fst * r.fst * nb) * (d.fst * r.fst * na) *
          (((x 1 * nb * (d.fst * r.fst) + 1) * x 0) *
            ((x 0 * na * (d.fst * r.fst) + 1) * x 1) - 1) := by
      ring
    have h2 : ((x 1 * nb * (d.fst * r.fst) + 1) * x 0) *
        ((x 0 * na * (d.fst * r.fst) + 1) * x 1) - 1 = 0 := by
      rw [hA, hB]; ring
    have hQpos : 0 < d.fst * r.fst * nb * x 1 + d.fst * r.fst * na * x 0 + 1 := by
      nlinarith [mul_pos (mul_pos hδ hnb) hx1, mul_pos (mul_pos hδ hna) hx0]
    rw [h2, mul_zero, add_zero] at hfact
    rw [hfact]
    exact mul_pos (mul_pos hApos hBpos) hQpos
  have hdet : IsUnit H.det := (dual_isUnit_iff _).mpr (ne_of_gt hdpos)
  have hHw : H.mulVec w = g := by
    rw [hw, Matrix.mulVec_mulVec, Matrix.mul_nonsing_inv _ hdet, Matrix.one_mulVec]
  have hr0 : (H 0 0).fst * (w 0).fst + (H 0 1).fst * (w 1).fst = 0 := by
    have e0 := congrArg TrivSqZeroExt.fst (congrFun hHw 0)
    rw [mulVec_two_mul_one] at e0
    simp only [TrivSqZeroExt.fst_add, TrivSqZeroExt.fst_mul] at e0
    rw [e0, hgf0]
  have hr1 : (H 1 0).fst * (w 0).fst + (H 1 1).fst * (w 1).fst = 0 := by
    have e1 := congrArg TrivSqZeroExt.fst (congrFun hHw 1)
    rw [mulVec_two_mul_one] at e1
    simp only [TrivSqZeroExt.fst_add, TrivSqZeroExt.fst_mul] at e1
    rw [e1, hgf1]
  have hDne : (H 0 0).fst * (H 1 1).fst - (H 0 1).fst * (H 1 0).fst ≠ 0 := by
    rw [← hDform]; exact ne_of_gt hdpos
  have hwf0 : (w 0).fst = 0 := by
    have hmul : (w 0).fst * ((H 0 0).fst * (H 1 1).fst - (H 0 1).fst * (H 1 0).fst) = 0 := by
      linear_combination (H 1 1).fst * hr0 - (H 0 1).fst * hr1
    rcases mul_eq_zero.mp hmul with h | h
    · exact h
    · exact absurd h hDne
  have hwf1 : (w 1).fst = 0 := by
    have hmul : (w 1).fst * ((H 0 0).fst * (H 1 1).fst - (H 0 1).fst * (H 1 0).fst) = 0 := by
      linear_combination (H 0 0).fst * hr1 - (H 1 0).fst * hr0
    rcases mul_eq_zero.mp hmul with h | h
    · exact h
    · exact absurd h hDne
  have hrs0 : (H 0 0).fst * (w 0).snd + (H 0 1).fst * (w 1).snd = (g 0).snd := by
    have e0 := congrArg TrivSqZeroExt.snd (congrFun hHw 0)
    rw [mulVec_two_mul_one] at e0
    simp only [TrivSqZeroExt.snd_add, dual_snd_mul, hwf0, hwf1, mul_zero, add_zero,
      zero_mul] at e0
    exact e0
  have hrs1 : (H 1 0).fst * (w 0).snd + (H 1 1).fst * (w 1).snd = (g 1).snd := by
    have e1 := congrArg TrivSqZeroExt.snd (congrFun hHw 1)
    rw [mulVec_two_mul_one] at e1
    simp only [TrivSqZeroExt.snd_add, dual_snd_mul, hwf0, hwf1, mul_zero, add_zero,
      zero_mul] at e1
    exact e1
  -- the two dual fixed-point equations at the post-step iterate
  have hga : (X 0 - w 0)⁻¹ - ((X 1 - w 1) * aR (DualNumber ℝ) nb * (d * r) + 1) = 0 := by
    apply TrivSqZeroExt.ext
    · simp only [TrivSqZeroExt.fst_sub, TrivSqZeroExt.fst_inv, TrivSqZeroExt.fst_add,
        TrivSqZeroExt.fst_mul, TrivSqZeroExt.fst_one, TrivSqZeroExt.fst_zero, fst_aR,
        hXf, hwf0, hwf1, sub_zero]
      rw [hg0]
      ring
    · simp only [TrivSqZeroExt.snd_sub, dual_snd_inv, TrivSqZeroExt.snd_add, dual_snd_mul,
        TrivSqZeroExt.fst_sub, TrivSqZeroExt.fst_mul, TrivSqZeroExt.snd_one,
        TrivSqZeroExt.fst_one, TrivSqZeroExt.snd_zero, TrivSqZeroExt.fst_zero, fst_aR,
        snd_aR, hXf, hXs, hwf0, hwf1, sub_zero, zero_sub, mul_zero, zero_mul, add_zero,
        zero_add, mul_neg, neg_neg]
      have hkey : (H 0 0).fst * (w 0).snd + (H 0 1).fst * (w 1).snd =
          -(x 1 * nb * (d * r).snd) := by rw [hrs0, hgs0]
      rw [hH00f, hH01f] at hkey
      have hsd : (d * r).snd = d.fst * r.snd + r.fst * d.snd := dual_snd_mul d r
      rw [hsd] at hkey
      linear_combination (-1 : ℝ) * hkey + ((w 0).snd * (x 0)⁻¹) * hg0
  have hgb : (X 1 - w 1)⁻¹ - ((X 0 - w 0) * aR (DualNumber ℝ) na * (d * r) + 1) = 0 := by
    apply TrivSqZeroExt.ext
    · simp only [TrivSqZeroExt.fst_sub, TrivSqZeroExt.fst_inv, TrivSqZeroExt.fst_add,
        TrivSqZeroExt.fst_mul, TrivSqZeroExt.fst_one, TrivSqZeroExt.fst_zero, fst_aR,
        hXf, hwf0, hwf1, sub_zero]
      rw [hg1]
      ring
    · simp only [TrivSqZeroExt.snd_sub, dual_snd_inv, TrivSqZeroExt.snd_add, dual_snd_mul,
        TrivSqZeroExt.fst_sub, TrivSqZeroExt.fst_mul, TrivSqZeroExt.snd_one,
        TrivSqZeroExt.fst_one, TrivSqZeroExt.snd_zero, TrivSqZeroExt.fst_zero, fst_aR,
        snd_aR, hXf, hXs, hwf0, hwf1, sub_zero, zero_sub, mul_zero, zero_mul, add_zero,
        zero_add, mul_neg, neg_neg]
      have hkey : (H 1 0).fst * (w 0).snd + (H 1 1).fst * (w 1).snd =
          -(x 0 * na * (d * r).snd) := by rw [hrs1, hgs1]
      rw [hH10f, hH11f] at hkey
      have hsd : (d * r).snd = d.fst * r.snd + r.fst * d.snd := dual_snd_mul d r
      rw [hsd] at hkey
      linear_combination (-1 : ℝ) * hkey + ((w 1).snd * (x 1)⁻¹) * hg1
  -- shorthand for the post-step iterate and the association strength product
  set P : DualNumber ℝ := d * r with hP
  set Y0 : DualNumber ℝ := X 0 - w 0 with hY0
  set Y1 : DualNumber ℝ := X 1 - w 1 with hY1
  have hPf : P.fst = d.fst * r.fst := TrivSqZeroExt.fst_mul d r
  have hY0f : Y0.fst = x 0 := by
    rw [hY0, TrivSqZeroExt.fst_sub, hXf, hwf0, sub_zero]
  have hY1f : Y1.fst = x 1 := by
    rw [hY1, TrivSqZeroExt.fst_sub, hXf, hwf1, sub_zero]
  have hY0n : Y0.fst ≠ 0 := by rw [hY0f]; exact hx0n
  have hY1n : Y1.fst ≠ 0 := by rw [hY1f]; exact hx1n
  have e1 : Y0 * (Y1 * aR (DualNumber ℝ) nb * P + 1) = 1 := by
    have h := sub_eq_zero.mp hga
    calc Y0 * (Y1 * aR (DualNumber ℝ) nb * P + 1) = Y0 * Y0⁻¹ := by rw [← h]
      _ = 1 := TrivSqZeroExt.mul_inv_cancel hY0n
  have e2 : Y1 * (Y0 * aR (DualNumber ℝ) na * P + 1) = 1 := by
    have h := sub_eq_zero.mp hgb
    calc Y1 * (Y0 * aR (DualNumber ℝ) na * P + 1) = Y1 * Y1⁻¹ := by rw [← h]
      _ = 1 := TrivSqZeroExt.mul_inv_cancel hY1n
  have haRdiv : aR (DualNumber ℝ) (na / nb) * aR (DualNumber ℝ) nb = aR (DualNumber ℝ) na := by
    rw [aR, aR, aR, ← map_mul, div_mul_cancel₀ na hnbn]
  have haRsub : aR (DualNumber ℝ) (nb - na) = aR (DualNumber ℝ) nb - aR (DualNumber ℝ) na :=
    map_sub _ _ _
  have haRsub2 : aR (DualNumber ℝ) (na - nb) = aR (DualNumber ℝ) na - aR (DualNumber ℝ) nb :=
    map_sub _ _ _
  have haRnb : IsUnit (aR (DualNumber ℝ) nb) :=
    (dual_isUnit_iff _).mpr (by rw [fst_aR]; exact hnbn)
  have hlin : aR (DualNumber ℝ) nb * Y1 - aR (DualNumber ℝ) na * Y0 =
      aR (DualNumber ℝ) nb - aR (DualNumber ℝ) na := by
    linear_combination aR (DualNumber ℝ) nb * e2 - aR (DualNumber ℝ) na * e1
  have hrel : Y1 = (Y0 - 1) * aR (DualNumber ℝ) (na / nb) + 1 := by
    apply haRnb.mul_left_cancel
    linear_combination hlin - (Y0 - 1) * haRdiv
  have hQ : P * aR (DualNumber ℝ) na * Y0 ^ 2 +
      (P * (aR (DualNumber ℝ) nb - aR (DualNumber ℝ) na) + 1) * Y0 - 1 = 0 := by
    linear_combination e1 + (-(P * aR (DualNumber ℝ) nb * Y0)) * hrel +
      (-(P * Y0 ^ 2) + P * Y0) * haRdiv
  -- the closed-form site fraction satisfies the same dual quadratic
  set S : DualNumber ℝ := DualNumOps.sqrtD
    ((P * aR (DualNumber ℝ) (na - nb) + 1) ^ 2 + P * aR (DualNumber ℝ) nb * 4) with hSdef
  set xaC : DualNumber ℝ := siteFracAbClosed (DualNumber ℝ) P na nb with hxaC
  have hxaCdef : xaC = (S - (P * aR (DualNumber ℝ) (nb - na) + 1)) *
      (P * aR (DualNumber ℝ) na * 2)⁻¹ := rfl
  have hdiscf : 0 < (((P * aR (DualNumber ℝ) (na - nb) + 1) ^ 2 +
      P * aR (DualNumber ℝ) nb * 4)).fst := by
    simp only [TrivSqZeroExt.fst_add, TrivSqZeroExt.fst_pow, TrivSqZeroExt.fst_mul,
      TrivSqZeroExt.fst_one, fst_aR, hPf]
    have h4 : ((4 : DualNumber ℝ)).fst = (4 : ℝ) := rfl
    rw [h4]
    nlinarith [sq_nonneg (d.fst * r.fst * (na - nb) + 1), mul_pos (mul_pos hδ hnb) (by norm_num : (0:ℝ) < 4)]
  have hS2 : S * S = (P * aR (DualNumber ℝ) (na - nb) + 1) ^ 2 +
      P * aR (DualNumber ℝ) nb * 4 := dual_sqrtD_sq _ hdiscf
  have h2Afst : ((P * aR (DualNumber ℝ) na * 2)).fst = d.fst * r.fst * na * 2 := by
    have h2 : ((2 : DualNumber ℝ)).fst = (2 : ℝ) := rfl
    simp only [TrivSqZeroExt.fst_mul, fst_aR, hPf, h2]
  have h2An : ((P * aR (DualNumber ℝ) na * 2)).fst ≠ 0 := by
    rw [h2Afst]
    positivity
  have h2Au : (P * aR (DualNumber ℝ) na * 2) * (P * aR (DualNumber ℝ) na * 2)⁻¹ = 1 :=
    TrivSqZeroExt.mul_inv_cancel h2An
  have hxaC2A : (P * aR (DualNumber ℝ) na * 2) * xaC =
      S - (P * aR (DualNumber ℝ) (nb - na) + 1) := by
    rw [hxaCdef]
    linear_combination (S - (P * aR (DualNumber ℝ) (nb - na) + 1)) * h2Au
  have hQC : P * aR (DualNumber ℝ) na * xaC ^ 2 +
      (P * (aR (DualNumber ℝ) nb - aR (DualNumber ℝ) na) + 1) * xaC - 1 = 0 := by
    rw [haRsub2] at hS2
    rw [haRsub] at hxaC2A
    have hsq : (P * aR (DualNumber ℝ) na * 2) ^ 2 *
        (P * aR (DualNumber ℝ) na * xaC ^ 2 +
          (P * (aR (DualNumber ℝ) nb - aR (DualNumber ℝ) na) + 1) * xaC - 1) = 0 := by
      linear_combination (P * aR (DualNumber ℝ) na *
          ((P * aR (DualNumber ℝ) na * 2) * xaC +
            (S - (P * (aR (DualNumber ℝ) nb - aR (DualNumber ℝ) na) + 1))) +
          2 * (P * aR (DualNumber ℝ) na) *
            (P * (aR (DualNumber ℝ) nb - aR (DualNumber ℝ) na) + 1)) * hxaC2A +
        (P * aR (DualNumber ℝ) na) * hS2
    have hu2 : ((P * aR (DualNumber ℝ) na * 2) * (P * aR (DualNumber ℝ) na * 2)⁻¹) ^ 2 = 1 := by
      rw [h2Au]; ring
    linear_combination ((P * aR (DualNumber ℝ) na * 2)⁻¹) ^ 2 * hsq -
      (P * aR (DualNumber ℝ) na * xaC ^ 2 +
        (P * (aR (DualNumber ℝ) nb - aR (DualNumber ℝ) na) + 1) * xaC - 1) * hu2
  -- real parts: both are positive roots of the real quadratic
  have hQR : d.fst * r.fst * na * (x 0) ^ 2 + (d.fst * r.fst * (nb - na) + 1) * (x 0) - 1
      = 0 := by
    have h := congrArg TrivSqZeroExt.fst hQ
    simp only [TrivSqZeroExt.fst_sub, TrivSqZeroExt.fst_add, TrivSqZeroExt.fst_mul,
      TrivSqZeroExt.fst_pow, TrivSqZeroExt.fst_one, TrivSqZeroExt.fst_zero, fst_aR,
      hPf, hY0f] at h
    linear_combination h
  have hQCR : d.fst * r.fst * na * (xaC.fst) ^ 2 +
      (d.fst * r.fst * (nb - na) + 1) * (xaC.fst) - 1 = 0 := by
    have h := congrArg TrivSqZeroExt.fst hQC
    simp only [TrivSqZeroExt.fst_sub, TrivSqZeroExt.fst_add, TrivSqZeroExt.fst_mul,
      TrivSqZeroExt.fst_pow, TrivSqZeroExt.fst_one, TrivSqZeroExt.fst_zero, fst_aR,
      hPf] at h
    linear_combination h
  have hxaCf : xaC.fst =
      (Real.sqrt ((d.fst * r.fst * (na - nb) + 1) ^ 2 + d.fst * r.fst * nb * 4) -
        (d.fst * r.fst * (nb - na) + 1)) * (d.fst * r.fst * na * 2)⁻¹ := by
    rw [hxaCdef, hSdef]
    simp only [TrivSqZeroExt.fst_mul, TrivSqZeroExt.fst_sub, TrivSqZeroExt.fst_add,
      TrivSqZeroExt.fst_inv, TrivSqZeroExt.fst_pow, TrivSqZeroExt.fst_one, fst_sqrtD,
      fst_aR, hPf]
    have h2 : ((2 : DualNumber ℝ)).fst = (2 : ℝ) := rfl
    have h4 : ((4 : DualNumber ℝ)).fst = (4 : ℝ) := rfl
    rw [h2, h4]
  have hxfpos : 0 < xaC.fst := by
    rw [hxaCf]
    have hlt : (d.fst * r.fst * (nb - na) + 1) <
        Real.sqrt ((d.fst * r.fst * (na - nb) + 1) ^ 2 + d.fst * r.fst * nb * 4) := by
      have hb : d.fst * r.fst * (nb - na) + 1 ≤
          Real.sqrt ((d.fst * r.fst * (nb - na) + 1) ^ 2) := by
        rw [Real.sqrt_sq_eq_abs]
        exact le_abs_self _
      have hss : Real.sqrt ((d.fst * r.fst * (nb - na) + 1) ^ 2) <
          Real.sqrt ((d.fst * r.fst * (na - nb) + 1) ^ 2 + d.fst * r.fst * nb * 4) := by
        apply Real.sqrt_lt_sqrt (sq_nonneg _)
        nlinarith [mul_pos (mul_pos hδ hna) (by norm_num : (0:ℝ) < 4)]
      linarith
    have hden : 0 < (d.fst * r.fst * na * 2)⁻¹ := by positivity
    have hnum : 0 < Real.sqrt ((d.fst * r.fst * (na - nb) + 1) ^ 2 + d.fst * r.fst * nb * 4) -
        (d.fst * r.fst * (nb - na) + 1) := by linarith
    exact mul_pos hnum hden
  have h1fac : (d.fst * r.fst * na * (x 0 + xaC.fst) + (d.fst * r.fst * (nb - na) + 1)) *
      x 0 = d.fst * r.fst * na * xaC.fst * x 0 + 1 := by
    linear_combination hQR
  have h2fac : 0 < d.fst * r.fst * na * xaC.fst * x 0 + 1 := by
    linarith [mul_pos (mul_pos (mul_pos hδ hna) hxfpos) hx0]
  have hfactpos : 0 < d.fst * r.fst * na * (x 0 + xaC.fst) + (d.fst * r.fst * (nb - na) + 1) := by
    nlinarith [h1fac, h2fac, hx0]
  have hxeq : x 0 = xaC.fst := by
    have h3 : (x 0 - xaC.fst) *
        (d.fst * r.fst * na * (x 0 + xaC.fst) + (d.fst * r.fst * (nb - na) + 1)) = 0 := by
      linear_combination hQR - hQCR
    rcases mul_eq_zero.mp h3 with h | h
    · exact sub_eq_zero.mp h
    · exact absurd h (ne_of_gt hfactpos)
  have hsub : (Y0 - xaC) * (P * aR (DualNumber ℝ) na * (Y0 + xaC) +
      (P * (aR (DualNumber ℝ) nb - aR (DualNumber ℝ) na) + 1)) = 0 := by
    linear_combination hQ - hQC
  have hfst0 : (Y0 - xaC).fst = 0 := by
    rw [TrivSqZeroExt.fst_sub, hY0f, hxeq, sub_self]
  have hfstfac : (P * aR (DualNumber ℝ) na * (Y0 + xaC) +
      (P * (aR (DualNumber ℝ) nb - aR (DualNumber ℝ) na) + 1)).fst ≠ 0 := by
    simp only [TrivSqZeroExt.fst_add, TrivSqZeroExt.fst_mul, TrivSqZeroExt.fst_sub,
      TrivSqZeroExt.fst_one, fst_aR, hPf, hY0f]
    exact ne_of_gt hfactpos
  have hY0eq : Y0 = xaC := by
    have h := dual_eq_of_mul_eq_zero _ _ hfst0 hfstfac hsub
    exact sub_eq_zero.mp h
  have hY1eq : Y1 = (xaC - 1) * aR (DualNumber ℝ) (na / nb) + 1 := by
    rw [hrel, hY0eq]
  have hstep : ∀ i, (newton_step_cross_association (DualNumber ℝ) 1 (fun _ _ => d)
      (fun _ => na) (fun _ => nb) (fun _ => r) tol X).1 i = X i - w i := by
    intro i
    rw [hw, hH, hg]
    rfl
  funext i
  rw [hstep i]
  by_cases hiv : i.val = 0
  · have h0v : (0 : Fin (2 * 1)).val = 0 := rfl
    have hieq : i = 0 := Fin.ext (hiv.trans h0v.symm)
    subst hieq
    rw [if_pos hiv]
    rw [← hY0]
    exact hY0eq
  · have h1v : (1 : Fin (2 * 1)).val = 1 := rfl
    have hiv1 : i.val = 1 := by
      have := i.isLt
      omega
    have hieq : i = 1 := Fin.ext (hiv1.trans h1v.symm)
    subst hieq
    rw [if_neg hiv]
    rw [← hY1]
    exact hY1eq


/-- Claim C2: for a parameter set with exactly one association-site
occurrence carrying both site classes, on a state where the real Newton
loop of `CrossAssociation::helmholtz_energy` returns a positive exact fixed
point of the Michelsen system and the association strength is above the
series threshold, the general cross-association solver returns exactly the
closed-form `Association::helmholtz_energy` value, first-derivative (dual)
components included — in particular the two agree to within any tolerance. -/
theorem C2_single_occurrence_equivalence
    (mwL : List ℝ) (ciL idL : List ℕ) (mL sigL ekL : List ℝ)
    (bondsL : List ((ℕ × ℕ) × ℝ)) (a0 : ℕ) (kab eab naR nbR : ℝ)
    (crL : List ChemicalRecord) (srL : List SegmentRecord)
    (bsrL : Option (List BinaryRecord)) (st : StateHD (DualNumber ℝ))
    (tol : ℝ) (max_iter : ℕ) (x : Fin (2 * 1) → ℝ)
    (hna : 0 < naR) (hnb : 0 < nbR) (hx : ∀ i, 0 < x i)
    (hV : DualNumOps.re st.volume ≠ 0)
    (hG : ∀ i, newtonG ℝ 1
      (fun i j => DualNumOps.re (crossDeltaM (DualNumber ℝ) (⟨mwL, ciL, idL, mL, sigL, ekL, bondsL, [a0], [kab], [eab], [naR], [nbR], crL, srL, bsrL⟩ : GcPcSaftEosParameters) st i j))
      (naV (⟨mwL, ciL, idL, mL, sigL, ekL, bondsL, [a0], [kab], [eab], [naR], [nbR], crL, srL, bsrL⟩ : GcPcSaftEosParameters)) (nbV (⟨mwL, ciL, idL, mL, sigL, ekL, bondsL, [a0], [kab], [eab], [naR], [nbR], crL, srL, bsrL⟩ : GcPcSaftEosParameters))
      (fun i => DualNumOps.re (crossRhoV (DualNumber ℝ) (⟨mwL, ciL, idL, mL, sigL, ekL, bondsL, [a0], [kab], [eab], [naR], [nbR], crL, srL, bsrL⟩ : GcPcSaftEosParameters) st i)) x i = 0)
    (hδ : Real.sqrt f64Epsilon < DualNumOps.re
      (crossDeltaM (DualNumber ℝ) (⟨mwL, ciL, idL, mL, sigL, ekL, bondsL, [a0], [kab], [eab], [naR], [nbR], crL, srL, bsrL⟩ : GcPcSaftEosParameters) st (0 : Fin 1) (0 : Fin 1) *
        crossRhoV (DualNumber ℝ) (⟨mwL, ciL, idL, mL, sigL, ekL, bondsL, [a0], [kab], [eab], [naR], [nbR], crL, srL, bsrL⟩ : GcPcSaftEosParameters) st (0 : Fin 1)))
    (hloop : cross_association_iterate ((⟨mwL, ciL, idL, mL, sigL, ekL, bondsL, [a0], [kab], [eab], [naR], [nbR], crL, srL, bsrL⟩ : GcPcSaftEosParameters)).assoc_segment.length
      (fun i j => DualNumOps.re (crossDeltaM (DualNumber ℝ) (⟨mwL, ciL, idL, mL, sigL, ekL, bondsL, [a0], [kab], [eab], [naR], [nbR], crL, srL, bsrL⟩ : GcPcSaftEosParameters) st i j))
      (naV (⟨mwL, ciL, idL, mL, sigL, ekL, bondsL, [a0], [kab], [eab], [naR], [nbR], crL, srL, bsrL⟩ : GcPcSaftEosParameters)) (nbV (⟨mwL, ciL, idL, mL, sigL, ekL, bondsL, [a0], [kab], [eab], [naR], [nbR], crL, srL, bsrL⟩ : GcPcSaftEosParameters))
      (fun i => DualNumOps.re (crossRhoV (DualNumber ℝ) (⟨mwL, ciL, idL, mL, sigL, ekL, bondsL, [a0], [kab], [eab], [naR], [nbR], crL, srL, bsrL⟩ : GcPcSaftEosParameters) st i)) tol max_iter 0
      (fun _ => (0.2 : ℝ)) = .ok x) :
    CrossAssociation.helmholtz_energy (DualNumber ℝ) (⟨mwL, ciL, idL, mL, sigL, ekL, bondsL, [a0], [kab], [eab], [naR], [nbR], crL, srL, bsrL⟩ : GcPcSaftEosParameters) max_iter tol st =
      .ok (Association.helmholtz_energy (DualNumber ℝ) (⟨mwL, ciL, idL, mL, sigL, ekL, bondsL, [a0], [kab], [eab], [naR], [nbR], crL, srL, bsrL⟩ : GcPcSaftEosParameters) st) := by
  -- collapse the index functions over the one-element occurrence space
  have hdf : (fun (i j : Fin 1) => DualNumOps.re (crossDeltaM (DualNumber ℝ) (⟨mwL, ciL, idL, mL, sigL, ekL, bondsL, [a0], [kab], [eab], [naR], [nbR], crL, srL, bsrL⟩ : GcPcSaftEosParameters) st i j)) =
      (fun _ _ : Fin 1 =>
        (crossDeltaM (DualNumber ℝ) (⟨mwL, ciL, idL, mL, sigL, ekL, bondsL, [a0], [kab], [eab], [naR], [nbR], crL, srL, bsrL⟩ : GcPcSaftEosParameters) st (0 : Fin 1) (0 : Fin 1)).fst) := by
    funext i j
    rw [Fin.eq_zero i, Fin.eq_zero j]
    rfl
  have hrf : (fun (i : Fin 1) => DualNumOps.re (crossRhoV (DualNumber ℝ) (⟨mwL, ciL, idL, mL, sigL, ekL, bondsL, [a0], [kab], [eab], [naR], [nbR], crL, srL, bsrL⟩ : GcPcSaftEosParameters) st i)) =
      (fun _ : Fin 1 => (crossRhoV (DualNumber ℝ) (⟨mwL, ciL, idL, mL, sigL, ekL, bondsL, [a0], [kab], [eab], [naR], [nbR], crL, srL, bsrL⟩ : GcPcSaftEosParameters) st (0 : Fin 1)).fst) := by
    funext i
    rw [Fin.eq_zero i]
    rfl
  have hnaf : naV (⟨mwL, ciL, idL, mL, sigL, ekL, bondsL, [a0], [kab], [eab], [naR], [nbR], crL, srL, bsrL⟩ : GcPcSaftEosParameters) = (fun _ : Fin 1 => naR) := by
    funext i
    rw [Fin.eq_zero i]
    rfl
  have hnbf : nbV (⟨mwL, ciL, idL, mL, sigL, ekL, bondsL, [a0], [kab], [eab], [naR], [nbR], crL, srL, bsrL⟩ : GcPcSaftEosParameters) = (fun _ : Fin 1 => nbR) := by
    funext i
    rw [Fin.eq_zero i]
    rfl
  have hdfD : crossDeltaM (DualNumber ℝ) (⟨mwL, ciL, idL, mL, sigL, ekL, bondsL, [a0], [kab], [eab], [naR], [nbR], crL, srL, bsrL⟩ : GcPcSaftEosParameters) st =
      (fun _ _ : Fin 1 => crossDeltaM (DualNumber ℝ) (⟨mwL, ciL, idL, mL, sigL, ekL, bondsL, [a0], [kab], [eab], [naR], [nbR], crL, srL, bsrL⟩ : GcPcSaftEosParameters) st (0 : Fin 1) (0 : Fin 1)) := by
    funext i j
    rw [Fin.eq_zero i, Fin.eq_zero j]
  have hrfD : crossRhoV (DualNumber ℝ) (⟨mwL, ciL, idL, mL, sigL, ekL, bondsL, [a0], [kab], [eab], [naR], [nbR], crL, srL, bsrL⟩ : GcPcSaftEosParameters) st =
      (fun _ : Fin 1 => crossRhoV (DualNumber ℝ) (⟨mwL, ciL, idL, mL, sigL, ekL, bondsL, [a0], [kab], [eab], [naR], [nbR], crL, srL, bsrL⟩ : GcPcSaftEosParameters) st (0 : Fin 1)) := by
    funext i
    rw [Fin.eq_zero i]
  have hG2 : ∀ i, newtonG ℝ 1
      (fun _ _ => (crossDeltaM (DualNumber ℝ) (⟨mwL, ciL, idL, mL, sigL, ekL, bondsL, [a0], [kab], [eab], [naR], [nbR], crL, srL, bsrL⟩ : GcPcSaftEosParameters) st (0 : Fin 1) (0 : Fin 1)).fst)
      (fun _ => naR) (fun _ => nbR)
      (fun _ => (crossRhoV (DualNumber ℝ) (⟨mwL, ciL, idL, mL, sigL, ekL, bondsL, [a0], [kab], [eab], [naR], [nbR], crL, srL, bsrL⟩ : GcPcSaftEosParameters) st (0 : Fin 1)).fst) x i = 0 := by
    intro i
    have h := hG i
    rw [hdf, hrf, hnaf, hnbf] at h
    exact h
  have hδ2 : 0 < (crossDeltaM (DualNumber ℝ) (⟨mwL, ciL, idL, mL, sigL, ekL, bondsL, [a0], [kab], [eab], [naR], [nbR], crL, srL, bsrL⟩ : GcPcSaftEosParameters) st (0 : Fin 1) (0 : Fin 1)).fst *
      (crossRhoV (DualNumber ℝ) (⟨mwL, ciL, idL, mL, sigL, ekL, bondsL, [a0], [kab], [eab], [naR], [nbR], crL, srL, bsrL⟩ : GcPcSaftEosParameters) st (0 : Fin 1)).fst := by
    have h1 : 0 < Real.sqrt f64Epsilon := Real.sqrt_pos.mpr f64Epsilon_pos
    have h2 : Real.sqrt f64Epsilon <
        (crossDeltaM (DualNumber ℝ) (⟨mwL, ciL, idL, mL, sigL, ekL, bondsL, [a0], [kab], [eab], [naR], [nbR], crL, srL, bsrL⟩ : GcPcSaftEosParameters) st (0 : Fin 1) (0 : Fin 1) *
          crossRhoV (DualNumber ℝ) (⟨mwL, ciL, idL, mL, sigL, ekL, bondsL, [a0], [kab], [eab], [naR], [nbR], crL, srL, bsrL⟩ : GcPcSaftEosParameters) st (0 : Fin 1)).fst := hδ
    rw [TrivSqZeroExt.fst_mul] at h2
    linarith
  have hcore := cross_dual_fixed_point
    (crossDeltaM (DualNumber ℝ) (⟨mwL, ciL, idL, mL, sigL, ekL, bondsL, [a0], [kab], [eab], [naR], [nbR], crL, srL, bsrL⟩ : GcPcSaftEosParameters) st (0 : Fin 1) (0 : Fin 1))
    (crossRhoV (DualNumber ℝ) (⟨mwL, ciL, idL, mL, sigL, ekL, bondsL, [a0], [kab], [eab], [naR], [nbR], crL, srL, bsrL⟩ : GcPcSaftEosParameters) st (0 : Fin 1)) naR nbR tol x
    hna hnb (hx 0) (hx 1) hG2 hδ2
  -- evaluate the solver: the loop hypothesis discharges the bind
  simp only [CrossAssociation.helmholtz_energy]
  rw [hloop]
  show Except.ok (crossEnergyFromX (DualNumber ℝ) (⟨mwL, ciL, idL, mL, sigL, ekL, bondsL, [a0], [kab], [eab], [naR], [nbR], crL, srL, bsrL⟩ : GcPcSaftEosParameters) st tol x) = _
  have hEq : crossEnergyFromX (DualNumber ℝ) (⟨mwL, ciL, idL, mL, sigL, ekL, bondsL, [a0], [kab], [eab], [naR], [nbR], crL, srL, bsrL⟩ : GcPcSaftEosParameters) st tol x =
      Association.helmholtz_energy (DualNumber ℝ) (⟨mwL, ciL, idL, mL, sigL, ekL, bondsL, [a0], [kab], [eab], [naR], [nbR], crL, srL, bsrL⟩ : GcPcSaftEosParameters) st := by
    show crossEnergy (DualNumber ℝ) (⟨mwL, ciL, idL, mL, sigL, ekL, bondsL, [a0], [kab], [eab], [naR], [nbR], crL, srL, bsrL⟩ : GcPcSaftEosParameters) st
      (crossXd (DualNumber ℝ) 1 (crossDeltaM (DualNumber ℝ) (⟨mwL, ciL, idL, mL, sigL, ekL, bondsL, [a0], [kab], [eab], [naR], [nbR], crL, srL, bsrL⟩ : GcPcSaftEosParameters) st) (naV (⟨mwL, ciL, idL, mL, sigL, ekL, bondsL, [a0], [kab], [eab], [naR], [nbR], crL, srL, bsrL⟩ : GcPcSaftEosParameters)) (nbV (⟨mwL, ciL, idL, mL, sigL, ekL, bondsL, [a0], [kab], [eab], [naR], [nbR], crL, srL, bsrL⟩ : GcPcSaftEosParameters))
        (crossRhoV (DualNumber ℝ) (⟨mwL, ciL, idL, mL, sigL, ekL, bondsL, [a0], [kab], [eab], [naR], [nbR], crL, srL, bsrL⟩ : GcPcSaftEosParameters) st) tol x) =
      Association.helmholtz_energy (DualNumber ℝ) (⟨mwL, ciL, idL, mL, sigL, ekL, bondsL, [a0], [kab], [eab], [naR], [nbR], crL, srL, bsrL⟩ : GcPcSaftEosParameters) st
    have halg : (fun i => algebraMap ℝ (DualNumber ℝ) (x i)) =
        (fun i : Fin (2 * 1) => TrivSqZeroExt.inl (x i)) := by
      funext i
      rfl
    rw [crossXd, nderivOf_dual, Function.iterate_one, hdfD, hrfD, hnaf, hnbf, halg]
    rw [hcore]
    have hen : crossEnergy (DualNumber ℝ) (⟨mwL, ciL, idL, mL, sigL, ekL, bondsL, [a0], [kab], [eab], [naR], [nbR], crL, srL, bsrL⟩ : GcPcSaftEosParameters) st
        (fun i : Fin (2 * 1) => if i.val = 0 then siteFracAbClosed (DualNumber ℝ)
            (crossDeltaM (DualNumber ℝ) (⟨mwL, ciL, idL, mL, sigL, ekL, bondsL, [a0], [kab], [eab], [naR], [nbR], crL, srL, bsrL⟩ : GcPcSaftEosParameters) st (0 : Fin 1) (0 : Fin 1) *
              crossRhoV (DualNumber ℝ) (⟨mwL, ciL, idL, mL, sigL, ekL, bondsL, [a0], [kab], [eab], [naR], [nbR], crL, srL, bsrL⟩ : GcPcSaftEosParameters) st (0 : Fin 1)) naR nbR
          else (siteFracAbClosed (DualNumber ℝ)
            (crossDeltaM (DualNumber ℝ) (⟨mwL, ciL, idL, mL, sigL, ekL, bondsL, [a0], [kab], [eab], [naR], [nbR], crL, srL, bsrL⟩ : GcPcSaftEosParameters) st (0 : Fin 1) (0 : Fin 1) *
              crossRhoV (DualNumber ℝ) (⟨mwL, ciL, idL, mL, sigL, ekL, bondsL, [a0], [kab], [eab], [naR], [nbR], crL, srL, bsrL⟩ : GcPcSaftEosParameters) st (0 : Fin 1)) naR nbR - 1) *
            aR (DualNumber ℝ) (naR / nbR) + 1) =
        crossRhoV (DualNumber ℝ) (⟨mwL, ciL, idL, mL, sigL, ekL, bondsL, [a0], [kab], [eab], [naR], [nbR], crL, srL, bsrL⟩ : GcPcSaftEosParameters) st (0 : Fin 1) *
          (fAssoc (DualNumber ℝ)
              (if (lowIdx 1 (0 : Fin 1)).val = 0 then siteFracAbClosed (DualNumber ℝ)
                  (crossDeltaM (DualNumber ℝ) (⟨mwL, ciL, idL, mL, sigL, ekL, bondsL, [a0], [kab], [eab], [naR], [nbR], crL, srL, bsrL⟩ : GcPcSaftEosParameters) st (0 : Fin 1) (0 : Fin 1) *
                    crossRhoV (DualNumber ℝ) (⟨mwL, ciL, idL, mL, sigL, ekL, bondsL, [a0], [kab], [eab], [naR], [nbR], crL, srL, bsrL⟩ : GcPcSaftEosParameters) st (0 : Fin 1)) naR nbR
                else (siteFracAbClosed (DualNumber ℝ)
                  (crossDeltaM (DualNumber ℝ) (⟨mwL, ciL, idL, mL, sigL, ekL, bondsL, [a0], [kab], [eab], [naR], [nbR], crL, srL, bsrL⟩ : GcPcSaftEosParameters) st (0 : Fin 1) (0 : Fin 1) *
                    crossRhoV (DualNumber ℝ) (⟨mwL, ciL, idL, mL, sigL, ekL, bondsL, [a0], [kab], [eab], [naR], [nbR], crL, srL, bsrL⟩ : GcPcSaftEosParameters) st (0 : Fin 1)) naR nbR - 1) *
                  aR (DualNumber ℝ) (naR / nbR) + 1) * aR (DualNumber ℝ) naR +
            fAssoc (DualNumber ℝ)
              (if (highIdx 1 (0 : Fin 1)).val = 0 then siteFracAbClosed (DualNumber ℝ)
                  (crossDeltaM (DualNumber ℝ) (⟨mwL, ciL, idL, mL, sigL, ekL, bondsL, [a0], [kab], [eab], [naR], [nbR], crL, srL, bsrL⟩ : GcPcSaftEosParameters) st (0 : Fin 1) (0 : Fin 1) *
                    crossRhoV (DualNumber ℝ) (⟨mwL, ciL, idL, mL, sigL, ekL, bondsL, [a0], [kab], [eab], [naR], [nbR], crL, srL, bsrL⟩ : GcPcSaftEosParameters) st (0 : Fin 1)) naR nbR
                else (siteFracAbClosed (DualNumber ℝ)
                  (crossDeltaM (DualNumber ℝ) (⟨mwL, ciL, idL, mL, sigL, ekL, bondsL, [a0], [kab], [eab], [naR], [nbR], crL, srL, bsrL⟩ : GcPcSaftEosParameters) st (0 : Fin 1) (0 : Fin 1) *
                    crossRhoV (DualNumber ℝ) (⟨mwL, ciL, idL, mL, sigL, ekL, bondsL, [a0], [kab], [eab], [naR], [nbR], crL, srL, bsrL⟩ : GcPcSaftEosParameters) st (0 : Fin 1)) naR nbR - 1) *
                  aR (DualNumber ℝ) (naR / nbR) + 1) * aR (DualNumber ℝ) nbR) *
          st.volume :=
      congrArg (fun z => z * st.volume) (Fin.sum_univ_one _)
    rw [hen]
    rw [if_pos (show (lowIdx 1 (0 : Fin 1)).val = 0 from rfl)]
    rw [if_neg (show ¬(highIdx 1 (0 : Fin 1)).val = 0 by decide)]
    -- now the association side
    have hassoc : Association.helmholtz_energy (DualNumber ℝ) (⟨mwL, ciL, idL, mL, sigL, ekL, bondsL, [a0], [kab], [eab], [naR], [nbR], crL, srL, bsrL⟩ : GcPcSaftEosParameters) st =
        st.moles.getD (ciL.getD a0 0) 0 *
          ((DualNumOps.lnD (siteFracAbClosed (DualNumber ℝ)
              (crossDeltaM (DualNumber ℝ) (⟨mwL, ciL, idL, mL, sigL, ekL, bondsL, [a0], [kab], [eab], [naR], [nbR], crL, srL, bsrL⟩ : GcPcSaftEosParameters) st (0 : Fin 1) (0 : Fin 1) *
                crossRhoV (DualNumber ℝ) (⟨mwL, ciL, idL, mL, sigL, ekL, bondsL, [a0], [kab], [eab], [naR], [nbR], crL, srL, bsrL⟩ : GcPcSaftEosParameters) st (0 : Fin 1)) naR nbR) -
            siteFracAbClosed (DualNumber ℝ)
              (crossDeltaM (DualNumber ℝ) (⟨mwL, ciL, idL, mL, sigL, ekL, bondsL, [a0], [kab], [eab], [naR], [nbR], crL, srL, bsrL⟩ : GcPcSaftEosParameters) st (0 : Fin 1) (0 : Fin 1) *
                crossRhoV (DualNumber ℝ) (⟨mwL, ciL, idL, mL, sigL, ekL, bondsL, [a0], [kab], [eab], [naR], [nbR], crL, srL, bsrL⟩ : GcPcSaftEosParameters) st (0 : Fin 1)) naR nbR *
              aR (DualNumber ℝ) 0.5 + aR (DualNumber ℝ) 0.5) * aR (DualNumber ℝ) naR +
          (DualNumOps.lnD ((siteFracAbClosed (DualNumber ℝ)
              (crossDeltaM (DualNumber ℝ) (⟨mwL, ciL, idL, mL, sigL, ekL, bondsL, [a0], [kab], [eab], [naR], [nbR], crL, srL, bsrL⟩ : GcPcSaftEosParameters) st (0 : Fin 1) (0 : Fin 1) *
                crossRhoV (DualNumber ℝ) (⟨mwL, ciL, idL, mL, sigL, ekL, bondsL, [a0], [kab], [eab], [naR], [nbR], crL, srL, bsrL⟩ : GcPcSaftEosParameters) st (0 : Fin 1)) naR nbR - 1) *
              aR (DualNumber ℝ) (naR / nbR) + 1) -
            ((siteFracAbClosed (DualNumber ℝ)
              (crossDeltaM (DualNumber ℝ) (⟨mwL, ciL, idL, mL, sigL, ekL, bondsL, [a0], [kab], [eab], [naR], [nbR], crL, srL, bsrL⟩ : GcPcSaftEosParameters) st (0 : Fin 1) (0 : Fin 1) *
                crossRhoV (DualNumber ℝ) (⟨mwL, ciL, idL, mL, sigL, ekL, bondsL, [a0], [kab], [eab], [naR], [nbR], crL, srL, bsrL⟩ : GcPcSaftEosParameters) st (0 : Fin 1)) naR nbR - 1) *
              aR (DualNumber ℝ) (naR / nbR) + 1) *
              aR (DualNumber ℝ) 0.5 + aR (DualNumber ℝ) 0.5) * aR (DualNumber ℝ) nbR) := by
      simp only [Association.helmholtz_energy]
      rw [if_pos (show ((⟨mwL, ciL, idL, mL, sigL, ekL, bondsL, [a0], [kab], [eab], [naR], [nbR], crL, srL, bsrL⟩ : GcPcSaftEosParameters)).nb.getD 0 0 > 0 from hnb)]
      have hxa : assoc_site_frac_ab (DualNumber ℝ)
          (association_strength (DualNumber ℝ) (⟨mwL, ciL, idL, mL, sigL, ekL, bondsL, [a0], [kab], [eab], [naR], [nbR], crL, srL, bsrL⟩ : GcPcSaftEosParameters) st.temperature
              (diameterOf (DualNumber ℝ) (⟨mwL, ciL, idL, mL, sigL, ekL, bondsL, [a0], [kab], [eab], [naR], [nbR], crL, srL, bsrL⟩ : GcPcSaftEosParameters) st) (n2Of (DualNumber ℝ) (⟨mwL, ciL, idL, mL, sigL, ekL, bondsL, [a0], [kab], [eab], [naR], [nbR], crL, srL, bsrL⟩ : GcPcSaftEosParameters) st)
              (n3iOf (DualNumber ℝ) (⟨mwL, ciL, idL, mL, sigL, ekL, bondsL, [a0], [kab], [eab], [naR], [nbR], crL, srL, bsrL⟩ : GcPcSaftEosParameters) st) 0 0 *
            st.partial_density
              (((⟨mwL, ciL, idL, mL, sigL, ekL, bondsL, [a0], [kab], [eab], [naR], [nbR], crL, srL, bsrL⟩ : GcPcSaftEosParameters)).component_index.getD (((⟨mwL, ciL, idL, mL, sigL, ekL, bondsL, [a0], [kab], [eab], [naR], [nbR], crL, srL, bsrL⟩ : GcPcSaftEosParameters)).assoc_segment.getD 0 0) 0))
          (((⟨mwL, ciL, idL, mL, sigL, ekL, bondsL, [a0], [kab], [eab], [naR], [nbR], crL, srL, bsrL⟩ : GcPcSaftEosParameters)).na.getD 0 0) (((⟨mwL, ciL, idL, mL, sigL, ekL, bondsL, [a0], [kab], [eab], [naR], [nbR], crL, srL, bsrL⟩ : GcPcSaftEosParameters)).nb.getD 0 0) =
          siteFracAbClosed (DualNumber ℝ)
            (crossDeltaM (DualNumber ℝ) (⟨mwL, ciL, idL, mL, sigL, ekL, bondsL, [a0], [kab], [eab], [naR], [nbR], crL, srL, bsrL⟩ : GcPcSaftEosParameters) st (0 : Fin 1) (0 : Fin 1) *
              crossRhoV (DualNumber ℝ) (⟨mwL, ciL, idL, mL, sigL, ekL, bondsL, [a0], [kab], [eab], [naR], [nbR], crL, srL, bsrL⟩ : GcPcSaftEosParameters) st (0 : Fin 1)) naR nbR := by
        simp only [assoc_site_frac_ab]
        rw [if_pos (show DualNumOps.re
          (association_strength (DualNumber ℝ) (⟨mwL, ciL, idL, mL, sigL, ekL, bondsL, [a0], [kab], [eab], [naR], [nbR], crL, srL, bsrL⟩ : GcPcSaftEosParameters) st.temperature
              (diameterOf (DualNumber ℝ) (⟨mwL, ciL, idL, mL, sigL, ekL, bondsL, [a0], [kab], [eab], [naR], [nbR], crL, srL, bsrL⟩ : GcPcSaftEosParameters) st) (n2Of (DualNumber ℝ) (⟨mwL, ciL, idL, mL, sigL, ekL, bondsL, [a0], [kab], [eab], [naR], [nbR], crL, srL, bsrL⟩ : GcPcSaftEosParameters) st)
              (n3iOf (DualNumber ℝ) (⟨mwL, ciL, idL, mL, sigL, ekL, bondsL, [a0], [kab], [eab], [naR], [nbR], crL, srL, bsrL⟩ : GcPcSaftEosParameters) st) 0 0 *
            st.partial_density
              (((⟨mwL, ciL, idL, mL, sigL, ekL, bondsL, [a0], [kab], [eab], [naR], [nbR], crL, srL, bsrL⟩ : GcPcSaftEosParameters)).component_index.getD (((⟨mwL, ciL, idL, mL, sigL, ekL, bondsL, [a0], [kab], [eab], [naR], [nbR], crL, srL, bsrL⟩ : GcPcSaftEosParameters)).assoc_segment.getD 0 0) 0)) >
          Real.sqrt f64Epsilon from hδ)]
        rfl
      rw [hxa]
      rfl
    rw [hassoc]
    have hrho : crossRhoV (DualNumber ℝ) (⟨mwL, ciL, idL, mL, sigL, ekL, bondsL, [a0], [kab], [eab], [naR], [nbR], crL, srL, bsrL⟩ : GcPcSaftEosParameters) st (0 : Fin 1) =
        st.moles.getD (ciL.getD a0 0) 0 * st.volume⁻¹ := rfl
    have hVu : st.volume * st.volume⁻¹ = 1 := TrivSqZeroExt.mul_inv_cancel hV
    have hrhoV : crossRhoV (DualNumber ℝ) (⟨mwL, ciL, idL, mL, sigL, ekL, bondsL, [a0], [kab], [eab], [naR], [nbR], crL, srL, bsrL⟩ : GcPcSaftEosParameters) st (0 : Fin 1) * st.volume =
        st.moles.getD (ciL.getD a0 0) 0 := by
      rw [hrho]
      linear_combination st.moles.getD (ciL.getD a0 0) 0 * hVu
    simp only [fAssoc]
    linear_combination ((DualNumOps.lnD (siteFracAbClosed (DualNumber ℝ)
          (crossDeltaM (DualNumber ℝ) (⟨mwL, ciL, idL, mL, sigL, ekL, bondsL, [a0], [kab], [eab], [naR], [nbR], crL, srL, bsrL⟩ : GcPcSaftEosParameters) st (0 : Fin 1) (0 : Fin 1) *
            crossRhoV (DualNumber ℝ) (⟨mwL, ciL, idL, mL, sigL, ekL, bondsL, [a0], [kab], [eab], [naR], [nbR], crL, srL, bsrL⟩ : GcPcSaftEosParameters) st (0 : Fin 1)) naR nbR) -
        siteFracAbClosed (DualNumber ℝ)
          (crossDeltaM (DualNumber ℝ) (⟨mwL, ciL, idL, mL, sigL, ekL, bondsL, [a0], [kab], [eab], [naR], [nbR], crL, srL, bsrL⟩ : GcPcSaftEosParameters) st (0 : Fin 1) (0 : Fin 1) *
            crossRhoV (DualNumber ℝ) (⟨mwL, ciL, idL, mL, sigL, ekL, bondsL, [a0], [kab], [eab], [naR], [nbR], crL, srL, bsrL⟩ : GcPcSaftEosParameters) st (0 : Fin 1)) naR nbR *
          aR (DualNumber ℝ) 0.5 + aR (DualNumber ℝ) 0.5) * aR (DualNumber ℝ) naR +
      (DualNumOps.lnD ((siteFracAbClosed (DualNumber ℝ)
          (crossDeltaM (DualNumber ℝ) (⟨mwL, ciL, idL, mL, sigL, ekL, bondsL, [a0], [kab], [eab], [naR], [nbR], crL, srL, bsrL⟩ : GcPcSaftEosParameters) st (0 : Fin 1) (0 : Fin 1) *
            crossRhoV (DualNumber ℝ) (⟨mwL, ciL, idL, mL, sigL, ekL, bondsL, [a0], [kab], [eab], [naR], [nbR], crL, srL, bsrL⟩ : GcPcSaftEosParameters) st (0 : Fin 1)) naR nbR - 1) *
          aR (DualNumber ℝ) (naR / nbR) + 1) -
        ((siteFracAbClosed (DualNumber ℝ)
          (crossDeltaM (DualNumber ℝ) (⟨mwL, ciL, idL, mL, sigL, ekL, bondsL, [a0], [kab], [eab], [naR], [nbR], crL, srL, bsrL⟩ : GcPcSaftEosParameters) st (0 : Fin 1) (0 : Fin 1) *
            crossRhoV (DualNumber ℝ) (⟨mwL, ciL, idL, mL, sigL, ekL, bondsL, [a0], [kab], [eab], [naR], [nbR], crL, srL, bsrL⟩ : GcPcSaftEosParameters) st (0 : Fin 1)) naR nbR - 1) *
          aR (DualNumber ℝ) (naR / nbR) + 1) *
          aR (DualNumber ℝ) 0.5 + aR (DualNumber ℝ) 0.5) * aR (DualNumber ℝ) nbR) * hrhoV
  rw [hEq]


theorem C2_witness :
    CrossAssociation.helmholtz_energy (DualNumber ℝ) (⟨[1], [0], [0], [], [1], [0], [], [0], [1], [Real.log 2], [1], [1], [], [], none⟩ : GcPcSaftEosParameters) 50 (1e-10) (⟨1, 1, [aR (DualNumber ℝ) 20]⟩ : StateHD (DualNumber ℝ)) =
      .ok (Association.helmholtz_energy (DualNumber ℝ) (⟨[1], [0], [0], [], [1], [0], [], [0], [1], [Real.log 2], [1], [1], [], [], none⟩ : GcPcSaftEosParameters) (⟨1, 1, [aR (DualNumber ℝ) 20]⟩ : StateHD (DualNumber ℝ))) := by
  have hzeta2 : n2Of (DualNumber ℝ) (⟨[1], [0], [0], [], [1], [0], [], [0], [1], [Real.log 2], [1], [1], [], [], none⟩ : GcPcSaftEosParameters) (⟨1, 1, [aR (DualNumber ℝ) 20]⟩ : StateHD (DualNumber ℝ)) = 0 := by
    simp [n2Of, zeta]
  have hzeta3 : n3iOf (DualNumber ℝ) (⟨[1], [0], [0], [], [1], [0], [], [0], [1], [Real.log 2], [1], [1], [], [], none⟩ : GcPcSaftEosParameters) (⟨1, 1, [aR (DualNumber ℝ) 20]⟩ : StateHD (DualNumber ℝ)) = 1 := by
    simp only [n3iOf, zeta, List.length_nil, Finset.range_zero, Finset.sum_empty, mul_zero,
      neg_zero, zero_add]
    exact dual_inv_one
  have hs3k : GcPcSaftEosParameters.sigma3_kappa_aibj (⟨[1], [0], [0], [], [1], [0], [], [0], [1], [Real.log 2], [1], [1], [], [], none⟩ : GcPcSaftEosParameters) 0 0 = 1 := by
    simp [GcPcSaftEosParameters.sigma3_kappa_aibj]
  have heps : GcPcSaftEosParameters.epsilon_k_aibj (⟨[1], [0], [0], [], [1], [0], [], [0], [1], [Real.log 2], [1], [1], [], [], none⟩ : GcPcSaftEosParameters) 0 0 = Real.log 2 := by
    simp [GcPcSaftEosParameters.epsilon_k_aibj]
    ring
  have hexpm1 : DualNumOps.expm1D (((⟨1, 1, [aR (DualNumber ℝ) 20]⟩ : StateHD (DualNumber ℝ))).temperature⁻¹ *
      aR (DualNumber ℝ) (Real.log 2)) = 1 := by
    have ht : (((⟨1, 1, [aR (DualNumber ℝ) 20]⟩ : StateHD (DualNumber ℝ))).temperature : DualNumber ℝ)⁻¹ = 1 := dual_inv_one
    rw [ht, one_mul]
    apply TrivSqZeroExt.ext
    · rw [fst_expm1D, fst_aR, Real.exp_log (by norm_num : (0:ℝ) < 2), TrivSqZeroExt.fst_one]
      norm_num
    · rw [snd_expm1D, snd_aR, TrivSqZeroExt.snd_one, zero_mul]
  have hdval : crossDeltaM (DualNumber ℝ) (⟨[1], [0], [0], [], [1], [0], [], [0], [1], [Real.log 2], [1], [1], [], [], none⟩ : GcPcSaftEosParameters) (⟨1, 1, [aR (DualNumber ℝ) 20]⟩ : StateHD (DualNumber ℝ)) (0 : Fin 1) (0 : Fin 1) = 1 := by
    show association_strength (DualNumber ℝ) (⟨[1], [0], [0], [], [1], [0], [], [0], [1], [Real.log 2], [1], [1], [], [], none⟩ : GcPcSaftEosParameters)
      ((⟨1, 1, [aR (DualNumber ℝ) 20]⟩ : StateHD (DualNumber ℝ))).temperature
      (diameterOf (DualNumber ℝ) (⟨[1], [0], [0], [], [1], [0], [], [0], [1], [Real.log 2], [1], [1], [], [], none⟩ : GcPcSaftEosParameters) (⟨1, 1, [aR (DualNumber ℝ) 20]⟩ : StateHD (DualNumber ℝ)))
      (n2Of (DualNumber ℝ) (⟨[1], [0], [0], [], [1], [0], [], [0], [1], [Real.log 2], [1], [1], [], [], none⟩ : GcPcSaftEosParameters) (⟨1, 1, [aR (DualNumber ℝ) 20]⟩ : StateHD (DualNumber ℝ)))
      (n3iOf (DualNumber ℝ) (⟨[1], [0], [0], [], [1], [0], [], [0], [1], [Real.log 2], [1], [1], [], [], none⟩ : GcPcSaftEosParameters) (⟨1, 1, [aR (DualNumber ℝ) 20]⟩ : StateHD (DualNumber ℝ))) 0 0 = 1
    simp only [association_strength]
    rw [hzeta2, hzeta3, hs3k, heps, hexpm1,
      show aR (DualNumber ℝ) 1 = 1 from map_one (algebraMap ℝ (DualNumber ℝ))]
    ring
  have hrval : crossRhoV (DualNumber ℝ) (⟨[1], [0], [0], [], [1], [0], [], [0], [1], [Real.log 2], [1], [1], [], [], none⟩ : GcPcSaftEosParameters) (⟨1, 1, [aR (DualNumber ℝ) 20]⟩ : StateHD (DualNumber ℝ)) (0 : Fin 1) = aR (DualNumber ℝ) 20 := by
    show ((⟨1, 1, [aR (DualNumber ℝ) 20]⟩ : StateHD (DualNumber ℝ))).moles.getD 0 0 * (((⟨1, 1, [aR (DualNumber ℝ) 20]⟩ : StateHD (DualNumber ℝ))).volume)⁻¹ = aR (DualNumber ℝ) 20
    rw [show (((⟨1, 1, [aR (DualNumber ℝ) 20]⟩ : StateHD (DualNumber ℝ))).volume : DualNumber ℝ)⁻¹ = 1 from dual_inv_one]
    rw [mul_one]
    rfl
  have hdre : DualNumOps.re (crossDeltaM (DualNumber ℝ) (⟨[1], [0], [0], [], [1], [0], [], [0], [1], [Real.log 2], [1], [1], [], [], none⟩ : GcPcSaftEosParameters) (⟨1, 1, [aR (DualNumber ℝ) 20]⟩ : StateHD (DualNumber ℝ)) (0 : Fin 1) (0 : Fin 1)) = 1 := by
    rw [re_dual, hdval, TrivSqZeroExt.fst_one]
  have hrre : DualNumOps.re (crossRhoV (DualNumber ℝ) (⟨[1], [0], [0], [], [1], [0], [], [0], [1], [Real.log 2], [1], [1], [], [], none⟩ : GcPcSaftEosParameters) (⟨1, 1, [aR (DualNumber ℝ) 20]⟩ : StateHD (DualNumber ℝ)) (0 : Fin 1)) = 20 := by
    rw [re_dual, hrval, fst_aR]
  have hGfact : ∀ i, newtonG ℝ 1
      (fun i j => DualNumOps.re (crossDeltaM (DualNumber ℝ) (⟨[1], [0], [0], [], [1], [0], [], [0], [1], [Real.log 2], [1], [1], [], [], none⟩ : GcPcSaftEosParameters) (⟨1, 1, [aR (DualNumber ℝ) 20]⟩ : StateHD (DualNumber ℝ)) i j))
      (naV (⟨[1], [0], [0], [], [1], [0], [], [0], [1], [Real.log 2], [1], [1], [], [], none⟩ : GcPcSaftEosParameters)) (nbV (⟨[1], [0], [0], [], [1], [0], [], [0], [1], [Real.log 2], [1], [1], [], [], none⟩ : GcPcSaftEosParameters))
      (fun i => DualNumOps.re (crossRhoV (DualNumber ℝ) (⟨[1], [0], [0], [], [1], [0], [], [0], [1], [Real.log 2], [1], [1], [], [], none⟩ : GcPcSaftEosParameters) (⟨1, 1, [aR (DualNumber ℝ) 20]⟩ : StateHD (DualNumber ℝ)) i))
      (fun _ => (0.2 : ℝ)) i = 0 := by
    intro i
    have hval : i.val = 0 ∨ i.val = 1 := by
      have := i.isLt
      omega
    rcases hval with h | h
    · have hieq : i = 0 := Fin.ext (h.trans (rfl : (0 : Fin (2 * 1)).val = 0).symm)
      subst hieq
      rw [newtonG_one_zero]
      simp only [aR_real]
      rw [hdre, hrre]
      show (0.2 : ℝ)⁻¹ - ((0.2 : ℝ) * naV (⟨[1], [0], [0], [], [1], [0], [], [0], [1], [Real.log 2], [1], [1], [], [], none⟩ : GcPcSaftEosParameters) (0 : Fin 1) * (1 * 20) + 1) = 0
      rw [show naV (⟨[1], [0], [0], [], [1], [0], [], [0], [1], [Real.log 2], [1], [1], [], [], none⟩ : GcPcSaftEosParameters) (0 : Fin 1) = 1 from rfl]
      norm_num
    · have hieq : i = 1 := Fin.ext (h.trans (rfl : (1 : Fin (2 * 1)).val = 1).symm)
      subst hieq
      rw [newtonG_one_one]
      simp only [aR_real]
      rw [hdre, hrre]
      show (0.2 : ℝ)⁻¹ - ((0.2 : ℝ) * nbV (⟨[1], [0], [0], [], [1], [0], [], [0], [1], [Real.log 2], [1], [1], [], [], none⟩ : GcPcSaftEosParameters) (0 : Fin 1) * (1 * 20) + 1) = 0
      rw [show nbV (⟨[1], [0], [0], [], [1], [0], [], [0], [1], [Real.log 2], [1], [1], [], [], none⟩ : GcPcSaftEosParameters) (0 : Fin 1) = 1 from rfl]
      norm_num
  have hnorm : newtonGradNorm ℝ 1
      (fun i j => DualNumOps.re (crossDeltaM (DualNumber ℝ) (⟨[1], [0], [0], [], [1], [0], [], [0], [1], [Real.log 2], [1], [1], [], [], none⟩ : GcPcSaftEosParameters) (⟨1, 1, [aR (DualNumber ℝ) 20]⟩ : StateHD (DualNumber ℝ)) i j))
      (naV (⟨[1], [0], [0], [], [1], [0], [], [0], [1], [Real.log 2], [1], [1], [], [], none⟩ : GcPcSaftEosParameters)) (nbV (⟨[1], [0], [0], [], [1], [0], [], [0], [1], [Real.log 2], [1], [1], [], [], none⟩ : GcPcSaftEosParameters))
      (fun i => DualNumOps.re (crossRhoV (DualNumber ℝ) (⟨[1], [0], [0], [], [1], [0], [], [0], [1], [Real.log 2], [1], [1], [], [], none⟩ : GcPcSaftEosParameters) (⟨1, 1, [aR (DualNumber ℝ) 20]⟩ : StateHD (DualNumber ℝ)) i))
      (fun _ => (0.2 : ℝ)) = 0 := by
    simp only [newtonGradNorm]
    rw [show (∑ i, DualNumOps.re (newtonG ℝ 1
        (fun i j => DualNumOps.re (crossDeltaM (DualNumber ℝ) (⟨[1], [0], [0], [], [1], [0], [], [0], [1], [Real.log 2], [1], [1], [], [], none⟩ : GcPcSaftEosParameters) (⟨1, 1, [aR (DualNumber ℝ) 20]⟩ : StateHD (DualNumber ℝ)) i j))
        (naV (⟨[1], [0], [0], [], [1], [0], [], [0], [1], [Real.log 2], [1], [1], [], [], none⟩ : GcPcSaftEosParameters)) (nbV (⟨[1], [0], [0], [], [1], [0], [], [0], [1], [Real.log 2], [1], [1], [], [], none⟩ : GcPcSaftEosParameters))
        (fun i => DualNumOps.re (crossRhoV (DualNumber ℝ) (⟨[1], [0], [0], [], [1], [0], [], [0], [1], [Real.log 2], [1], [1], [], [], none⟩ : GcPcSaftEosParameters) (⟨1, 1, [aR (DualNumber ℝ) 20]⟩ : StateHD (DualNumber ℝ)) i))
        (fun _ => (0.2 : ℝ)) i) ^ 2) = 0 from Finset.sum_eq_zero fun i _ => by
      rw [hGfact i]
      norm_num]
    exact Real.sqrt_zero
  have hflag : (newton_step_cross_association ℝ 1
      (fun i j => DualNumOps.re (crossDeltaM (DualNumber ℝ) (⟨[1], [0], [0], [], [1], [0], [], [0], [1], [Real.log 2], [1], [1], [], [], none⟩ : GcPcSaftEosParameters) (⟨1, 1, [aR (DualNumber ℝ) 20]⟩ : StateHD (DualNumber ℝ)) i j))
      (naV (⟨[1], [0], [0], [], [1], [0], [], [0], [1], [Real.log 2], [1], [1], [], [], none⟩ : GcPcSaftEosParameters)) (nbV (⟨[1], [0], [0], [], [1], [0], [], [0], [1], [Real.log 2], [1], [1], [], [], none⟩ : GcPcSaftEosParameters))
      (fun i => DualNumOps.re (crossRhoV (DualNumber ℝ) (⟨[1], [0], [0], [], [1], [0], [], [0], [1], [Real.log 2], [1], [1], [], [], none⟩ : GcPcSaftEosParameters) (⟨1, 1, [aR (DualNumber ℝ) 20]⟩ : StateHD (DualNumber ℝ)) i))
      (1e-10) (fun _ => (0.2 : ℝ))).2 = true := by
    show decide (newtonGradNorm ℝ 1
      (fun i j => DualNumOps.re (crossDeltaM (DualNumber ℝ) (⟨[1], [0], [0], [], [1], [0], [], [0], [1], [Real.log 2], [1], [1], [], [], none⟩ : GcPcSaftEosParameters) (⟨1, 1, [aR (DualNumber ℝ) 20]⟩ : StateHD (DualNumber ℝ)) i j))
      (naV (⟨[1], [0], [0], [], [1], [0], [], [0], [1], [Real.log 2], [1], [1], [], [], none⟩ : GcPcSaftEosParameters)) (nbV (⟨[1], [0], [0], [], [1], [0], [], [0], [1], [Real.log 2], [1], [1], [], [], none⟩ : GcPcSaftEosParameters))
      (fun i => DualNumOps.re (crossRhoV (DualNumber ℝ) (⟨[1], [0], [0], [], [1], [0], [], [0], [1], [Real.log 2], [1], [1], [], [], none⟩ : GcPcSaftEosParameters) (⟨1, 1, [aR (DualNumber ℝ) 20]⟩ : StateHD (DualNumber ℝ)) i))
      (fun _ => (0.2 : ℝ)) < 1e-10) = true
    rw [hnorm]
    exact decide_eq_true (by norm_num)
  have hGfun : newtonG ℝ 1
      (fun i j => DualNumOps.re (crossDeltaM (DualNumber ℝ) (⟨[1], [0], [0], [], [1], [0], [], [0], [1], [Real.log 2], [1], [1], [], [], none⟩ : GcPcSaftEosParameters) (⟨1, 1, [aR (DualNumber ℝ) 20]⟩ : StateHD (DualNumber ℝ)) i j))
      (naV (⟨[1], [0], [0], [], [1], [0], [], [0], [1], [Real.log 2], [1], [1], [], [], none⟩ : GcPcSaftEosParameters)) (nbV (⟨[1], [0], [0], [], [1], [0], [], [0], [1], [Real.log 2], [1], [1], [], [], none⟩ : GcPcSaftEosParameters))
      (fun i => DualNumOps.re (crossRhoV (DualNumber ℝ) (⟨[1], [0], [0], [], [1], [0], [], [0], [1], [Real.log 2], [1], [1], [], [], none⟩ : GcPcSaftEosParameters) (⟨1, 1, [aR (DualNumber ℝ) 20]⟩ : StateHD (DualNumber ℝ)) i))
      (fun _ => (0.2 : ℝ)) = (0 : Fin (2 * 1) → ℝ) :=
    funext fun i => hGfact i
  have hstep1 : (newton_step_cross_association ℝ 1
      (fun i j => DualNumOps.re (crossDeltaM (DualNumber ℝ) (⟨[1], [0], [0], [], [1], [0], [], [0], [1], [Real.log 2], [1], [1], [], [], none⟩ : GcPcSaftEosParameters) (⟨1, 1, [aR (DualNumber ℝ) 20]⟩ : StateHD (DualNumber ℝ)) i j))
      (naV (⟨[1], [0], [0], [], [1], [0], [], [0], [1], [Real.log 2], [1], [1], [], [], none⟩ : GcPcSaftEosParameters)) (nbV (⟨[1], [0], [0], [], [1], [0], [], [0], [1], [Real.log 2], [1], [1], [], [], none⟩ : GcPcSaftEosParameters))
      (fun i => DualNumOps.re (crossRhoV (DualNumber ℝ) (⟨[1], [0], [0], [], [1], [0], [], [0], [1], [Real.log 2], [1], [1], [], [], none⟩ : GcPcSaftEosParameters) (⟨1, 1, [aR (DualNumber ℝ) 20]⟩ : StateHD (DualNumber ℝ)) i))
      (1e-10) (fun _ => (0.2 : ℝ))).1 = fun _ => (0.2 : ℝ) := by
    funext i
    show (0.2 : ℝ) - (newtonH ℝ 1
      (fun i j => DualNumOps.re (crossDeltaM (DualNumber ℝ) (⟨[1], [0], [0], [], [1], [0], [], [0], [1], [Real.log 2], [1], [1], [], [], none⟩ : GcPcSaftEosParameters) (⟨1, 1, [aR (DualNumber ℝ) 20]⟩ : StateHD (DualNumber ℝ)) i j))
      (naV (⟨[1], [0], [0], [], [1], [0], [], [0], [1], [Real.log 2], [1], [1], [], [], none⟩ : GcPcSaftEosParameters)) (nbV (⟨[1], [0], [0], [], [1], [0], [], [0], [1], [Real.log 2], [1], [1], [], [], none⟩ : GcPcSaftEosParameters))
      (fun i => DualNumOps.re (crossRhoV (DualNumber ℝ) (⟨[1], [0], [0], [], [1], [0], [], [0], [1], [Real.log 2], [1], [1], [], [], none⟩ : GcPcSaftEosParameters) (⟨1, 1, [aR (DualNumber ℝ) 20]⟩ : StateHD (DualNumber ℝ)) i))
      (fun _ => (0.2 : ℝ)))⁻¹.mulVec (newtonG ℝ 1
      (fun i j => DualNumOps.re (crossDeltaM (DualNumber ℝ) (⟨[1], [0], [0], [], [1], [0], [], [0], [1], [Real.log 2], [1], [1], [], [], none⟩ : GcPcSaftEosParameters) (⟨1, 1, [aR (DualNumber ℝ) 20]⟩ : StateHD (DualNumber ℝ)) i j))
      (naV (⟨[1], [0], [0], [], [1], [0], [], [0], [1], [Real.log 2], [1], [1], [], [], none⟩ : GcPcSaftEosParameters)) (nbV (⟨[1], [0], [0], [], [1], [0], [], [0], [1], [Real.log 2], [1], [1], [], [], none⟩ : GcPcSaftEosParameters))
      (fun i => DualNumOps.re (crossRhoV (DualNumber ℝ) (⟨[1], [0], [0], [], [1], [0], [], [0], [1], [Real.log 2], [1], [1], [], [], none⟩ : GcPcSaftEosParameters) (⟨1, 1, [aR (DualNumber ℝ) 20]⟩ : StateHD (DualNumber ℝ)) i))
      (fun _ => (0.2 : ℝ))) i = (0.2 : ℝ)
    rw [hGfun, Matrix.mulVec_zero]
    simp
  have hloop : cross_association_iterate 1
      (fun i j => DualNumOps.re (crossDeltaM (DualNumber ℝ) (⟨[1], [0], [0], [], [1], [0], [], [0], [1], [Real.log 2], [1], [1], [], [], none⟩ : GcPcSaftEosParameters) (⟨1, 1, [aR (DualNumber ℝ) 20]⟩ : StateHD (DualNumber ℝ)) i j))
      (naV (⟨[1], [0], [0], [], [1], [0], [], [0], [1], [Real.log 2], [1], [1], [], [], none⟩ : GcPcSaftEosParameters)) (nbV (⟨[1], [0], [0], [], [1], [0], [], [0], [1], [Real.log 2], [1], [1], [], [], none⟩ : GcPcSaftEosParameters))
      (fun i => DualNumOps.re (crossRhoV (DualNumber ℝ) (⟨[1], [0], [0], [], [1], [0], [], [0], [1], [Real.log 2], [1], [1], [], [], none⟩ : GcPcSaftEosParameters) (⟨1, 1, [aR (DualNumber ℝ) 20]⟩ : StateHD (DualNumber ℝ)) i))
      (1e-10) 50 0 (fun _ => (0.2 : ℝ)) = .ok (fun _ => (0.2 : ℝ)) := by
    rw [cross_association_iterate]
    rw [dif_pos (by norm_num : (0 : ℕ) < 50)]
    simp only [hflag, if_true]
    rw [hstep1]
  exact C2_single_occurrence_equivalence [1] [0] [0] [] [1] [0] [] 0 1 (Real.log 2) 1 1
    [] [] none (⟨1, 1, [aR (DualNumber ℝ) 20]⟩ : StateHD (DualNumber ℝ)) (1e-10) 50 (fun _ => (0.2 : ℝ))
    (by norm_num) (by norm_num) (fun i => by norm_num)
    (by rw [show (((⟨1, 1, [aR (DualNumber ℝ) 20]⟩ : StateHD (DualNumber ℝ))).volume : DualNumber ℝ) = 1 from rfl, re_dual,
      TrivSqZeroExt.fst_one]; norm_num)
    hGfact
    (by rw [re_dual, TrivSqZeroExt.fst_mul, hdval, hrval, TrivSqZeroExt.fst_one, fst_aR,
      one_mul, sqrt_f64Epsilon]; norm_num)
    hloop
